import Mathlib

/-!
# mesos-dns, consul resolver: the reconciliation engine

A shallow embedding of `resolvers/consul/consul.go`, of the event loop of
`main.go` with its function `reloadResolvers`, and of the validation functions
`validateIPSources` (`records/validation.go`) and `validateExternalDNS`
(`resolvers/builtin/validation.go`).

* Go strings are Lean strings; the library functions the resolver calls
  (`strings.Split`, `strings.Join`, `strings.Replace`, `strings.Contains`,
  `strconv.Atoi`, `strconv.Itoa`, the regular expression of `createService`)
  are written out on character lists.
* A Go map is an association list with pairwise distinct keys. Go leaves the
  iteration order of a map unspecified and picks it afresh for every loop. The
  loops over the connected agents iterate in insertion order, which only
  orders their calls; the one loop whose result depends on the order, the
  search by hostname of `generateFrameworkRecords`, takes the order from the
  environment.
* Go `int` is `Int`; the one place where the machine width matters (the cycle
  counter) wraps explicitly at 64 bits.
* A run-time panic and `log.Fatal` are the error side of `Except Crash`.
* The consul agents, the catalog and the key-value store are an environment
  `World` of response functions; the calls the engine makes are recorded in a
  chronological list of `Call`s, which every effectful function threads.
* The event loop is a step function of the goroutine of `main` over the events
  its `select` is offered; a send on the error channel, which has no buffer,
  waits for a receive.
-/

namespace MesosDNS

/-! ## Go library functions -/

/-- Splitting a character list at every occurrence of a separator character.
The result is never empty: the empty input gives one empty segment. -/
def splitChars (sep : Char) : List Char → List (List Char)
  | [] => [[]]
  | c :: cs =>
    if c = sep then [] :: splitChars sep cs
    else
      match splitChars sep cs with
      | [] => [[c]]
      | seg :: segs => (c :: seg) :: segs

/-- Go `strings.Split(s, sep)` for a one-character separator. -/
def stringsSplit (s : String) (sep : Char) : List String :=
  (splitChars sep s.toList).map String.mk

/-- Go `strings.Join(parts, sep)`. -/
def stringsJoin : List String → String → String
  | [], _ => ""
  | [a], _ => a
  | a :: b :: rest, sep => a ++ sep ++ stringsJoin (b :: rest) sep

/-- Replacing every non-overlapping occurrence of a non-empty pattern, left to
right. The counter is the number of characters of a matched occurrence that
are still to be skipped. -/
def replaceChars (old new : List Char) : Nat → List Char → List Char
  | _, [] => []
  | 0, c :: cs =>
    if old.isPrefixOf (c :: cs) then new ++ replaceChars old new (old.length - 1) cs
    else c :: replaceChars old new 0 cs
  | k + 1, _ :: cs => replaceChars old new k cs

/-- Go `strings.Replace(s, old, new, -1)` for a non-empty `old`. -/
def stringsReplace (s old new : String) : String :=
  String.mk (replaceChars old.toList new.toList 0 s.toList)

/-- Whether a pattern occurs somewhere in a character list. -/
def containsChars (sub : List Char) : List Char → Bool
  | [] => sub.isPrefixOf []
  | c :: cs => sub.isPrefixOf (c :: cs) || containsChars sub cs

/-- Go `strings.Contains(s, sub)`. -/
def stringsContains (s sub : String) : Bool :=
  containsChars sub.toList s.toList

/-- Go `strings.ToLower`, on the ASCII letters (the only letters left in a
name once `createService` has applied its regular expression). -/
def stringsToLower (s : String) : String :=
  String.mk (s.toList.map Char.toLower)

/-- Reading a run of decimal digits, most significant first. -/
def parseDigits : List Char → Nat → Option Nat
  | [], acc => some acc
  | c :: cs, acc =>
    if c.isDigit then parseDigits cs (acc * 10 + (c.toNat - 48)) else none

/-- Go `strconv.Atoi` on a 64-bit platform: an optional sign, at least one
decimal digit, nothing else, and a value in the range of `int`; `none` stands
for a non-nil error. -/
def strconvAtoi (s : String) : Option Int :=
  let signed : Bool × List Char :=
    match s.toList with
    | '-' :: r => (true, r)
    | '+' :: r => (false, r)
    | r => (false, r)
  match signed.2 with
  | [] => none
  | d :: ds =>
    match parseDigits (d :: ds) 0 with
    | none => none
    | some n =>
      let v : Int := if signed.1 then -(n : Int) else (n : Int)
      if -(2 ^ 63 : Int) ≤ v ∧ v < (2 ^ 63 : Int) then some v else none

/-- Go `strconv.Itoa`. -/
def strconvItoa (n : Int) : String :=
  if n < 0 then "-" ++ Nat.repr n.natAbs else Nat.repr n.natAbs

/-- The characters the regular expression `[^\w-]` does NOT match: ASCII
letters, digits, the underscore and the hyphen. -/
def isNameChar (c : Char) : Bool :=
  c.isAlphanum || c = '_' || c = '-'

/-- The call `reg.ReplaceAllString(name, "-")` of `createService`. -/
def regReplaceAll (name : String) : String :=
  String.mk (name.toList.map fun c => if isNameChar c then c else '-')

/-- Addition of one to a Go `int` (64 bits, two's complement). -/
def incInt64 (n : Int) : Int :=
  if n + 1 < (2 ^ 63 : Int) then n + 1 else n + 1 - (2 ^ 64 : Int)

/-! ## Go maps -/

/-- A Go map with string keys: an association list with distinct keys. -/
abbrev GoMap (V : Type) := List (String × V)

/-- The value stored at a key, when the key is present. -/
def mapGet? {V : Type} : GoMap V → String → Option V
  | [], _ => none
  | (k1, v) :: rest, k => if k1 = k then some v else mapGet? rest k

/-- The test `_, ok := m[k]`. -/
def mapHas {V : Type} (m : GoMap V) (k : String) : Bool :=
  (mapGet? m k).isSome

/-- The assignment `m[k] = v`. -/
def mapSet {V : Type} : GoMap V → String → V → GoMap V
  | [], k, v => [(k, v)]
  | (k1, v1) :: rest, k, v =>
    if k1 = k then (k, v) :: rest else (k1, v1) :: mapSet rest k v

/-- The read `m[k]` of a map of strings: the empty string for a missing key. -/
def mapStr (m : GoMap String) (k : String) : String :=
  (mapGet? m k).getD ""

/-! ## Records (the consul api types, as far as the resolver uses them) -/

/-- The consul api type `AgentServiceRegistration`. -/
structure AgentServiceRegistration where
  ID : String := ""
  Name : String := ""
  Tags : List String := []
  Port : Int := 0
  Address : String := ""
deriving DecidableEq, Repr, Inhabited

/-- The consul api type `AgentServiceCheck`, the payload of a health check. -/
structure AgentServiceCheck where
  Script : String := ""
  DockerContainerID : String := ""
  Shell : String := ""
  Interval : String := ""
  Timeout : String := ""
  TTL : String := ""
  HTTP : String := ""
  TCP : String := ""
  Status : String := ""
deriving DecidableEq, Repr, Inhabited

/-- The consul api type `AgentCheckRegistration`; it embeds the payload. -/
structure AgentCheckRegistration extends AgentServiceCheck where
  ID : String := ""
  Name : String := ""
  Notes : String := ""
  ServiceID : String := ""
deriving DecidableEq, Repr, Inhabited

/-- The consul api type `AgentService`, an entry of an agent listing. -/
structure AgentService where
  ID : String := ""
  Service : String := ""
  Tags : List String := []
  Port : Int := 0
  Address : String := ""
deriving DecidableEq, Repr, Inhabited

/-- The consul api type `AgentMember`, as far as `connectAgents` reads it. -/
structure AgentMember where
  Name : String := ""
  Addr : String := ""
deriving DecidableEq, Repr, Inhabited

/-- The consul api type `CatalogDeregistration`. -/
structure CatalogDeregistration where
  Node : String := ""
  ServiceID : String := ""
  CheckID : String := ""
deriving DecidableEq, Repr, Inhabited

/-! ## Comparing and diffing -/

/-- The inner loop of `compareService`: it runs over all tags of the new
service and has no early exit. -/
def tagFound (otag : String) (ntags : List String) : Bool :=
  ntags.foldl (fun found ntag => if otag = ntag then true else found) false

/-- The outer loop of `compareService` over the tags of the old service. -/
def tagsLoop (ntags : List String) : List String → Bool
  | [] => true
  | otag :: rest => if !tagFound otag ntags then false else tagsLoop ntags rest

/-- The function `compareService`. -/
def compareService (newservice oldservice : AgentServiceRegistration) : Bool :=
  if newservice.ID ≠ oldservice.ID then false
  else if newservice.Name ≠ oldservice.Name then false
  else if newservice.Address ≠ oldservice.Address then false
  else if newservice.Port ≠ oldservice.Port then false
  else if newservice.Tags.length ≠ oldservice.Tags.length then false
  else tagsLoop newservice.Tags oldservice.Tags

/-- The function `compareCheck`. -/
def compareCheck (newcheck oldcheck : AgentCheckRegistration) : Bool :=
  if newcheck.ID ≠ oldcheck.ID then false
  else if newcheck.Name ≠ oldcheck.Name then false
  else if newcheck.ServiceID ≠ oldcheck.ServiceID then false
  else if newcheck.toAgentServiceCheck ≠ oldcheck.toAgentServiceCheck then false
  else true

/-- The inner loop of `getDeltaServices`: the value of `found` when the loop
over the old services ends or breaks. -/
def serviceFound (service : AgentServiceRegistration) :
    List AgentServiceRegistration → Bool
  | [] => false
  | existing :: rest =>
    if compareService service existing then true else serviceFound service rest

/-- The function `getDeltaServices`. -/
def getDeltaServices (oldservices newservices : List AgentServiceRegistration) :
    List AgentServiceRegistration :=
  newservices.foldl
    (fun delta service =>
      if !serviceFound service oldservices then delta ++ [service] else delta)
    []

/-- The inner loop of `getDeltaChecks`. -/
def checkFound (context : String) (newhc : AgentCheckRegistration) :
    List AgentCheckRegistration → Bool
  | [] => false
  | oldhc :: rest =>
    if compareCheck newhc oldhc then true
    else if context = "purge" ∧ newhc.ID = oldhc.ID then true
    else checkFound context newhc rest

/-- The function `getDeltaChecks`. -/
def getDeltaChecks (oldchecks newchecks : List AgentCheckRegistration)
    (context : String) : List AgentCheckRegistration :=
  newchecks.foldl
    (fun delta newhc =>
      if !checkFound context newhc oldchecks then delta ++ [newhc] else delta)
    []

/-! ## Cluster state -/

/-- The ways in which the Go program stops abnormally. -/
inductive Crash
  | indexOutOfRange
  | divideByZero
  | fatal
deriving DecidableEq, Repr, Inhabited

deriving instance DecidableEq for Except

/-- The type `upid.UPID`, as far as the resolver reads it. -/
structure PID where
  Host : String := ""
  Port : String := ""
deriving DecidableEq, Repr, Inhabited

/-- Modelled from the spec: the type `state.Label` of package records/state,
a key and a value. -/
structure Label where
  Key : String := ""
  Value : String := ""
deriving DecidableEq, Repr, Inhabited

/-- Modelled from the spec: the type `state.Task` of package records/state
(id, name, node id, state, ports, labels, addresses by source). `Ports` is
the result of `task.Ports()`, `IP src` the result of `task.IP(src)` and
`StatusIPs name` the result of
`state.StatusIPs(task.Statuses, state.Labels(name))`. -/
structure Task where
  ID : String := ""
  Name : String := ""
  SlaveID : String := ""
  State : String := ""
  Labels : List Label := []
  Ports : List String := []
  IP : String → String := fun _ => ""
  StatusIPs : String → List String := fun _ => []

/-- Modelled from the spec: the type `state.Slave` of package records/state
(id, host address and port, hostname, master attribute). -/
structure Slave where
  ID : String := ""
  Hostname : String := ""
  PID : PID := {}
  Master : String := ""
deriving DecidableEq, Repr, Inhabited

/-- Modelled from the spec: the type `state.Framework` of package
records/state (name, hostname, pid address and port, active, tasks). -/
structure Framework where
  Name : String := ""
  Hostname : String := ""
  PID : PID := {}
  Active : Bool := false
  Tasks : List Task := []

/-- Modelled from the spec: the type `state.State` of package records/state
(leader address, nodes, frameworks). -/
structure State where
  Leader : String := ""
  Slaves : List Slave := []
  Frameworks : List Framework := []

/-! ## The backend -/

/-- The type `Config` of `resolvers/consul/config.go`. -/
structure Config where
  Address : String := ""
  CacheOnly : Bool := false
  CacheRefresh : Int := 0
  Datacenter : String := ""
  Scheme : String := ""
  ServicePrefix : String := ""
  Token : String := ""
deriving DecidableEq, Repr, Inhabited

/-- The function `NewConfig`. -/
def NewConfig : Config :=
  { Address := "127.0.0.1:8500", CacheOnly := false, CacheRefresh := 3,
    Scheme := "http", ServicePrefix := "mesos-dns" }

/-- The type `ConsulRecords`. -/
structure ConsulRecords where
  Current : List AgentServiceRegistration := []
  Previous : List AgentServiceRegistration := []
deriving DecidableEq, Repr, Inhabited

/-- The type `ConsulChecks`. -/
structure ConsulChecks where
  Current : List AgentCheckRegistration := []
  Previous : List AgentCheckRegistration := []
deriving DecidableEq, Repr, Inhabited

/-- The type `ConsulBackend`. An agent connection is represented by the
address it was opened with; the field `Client` is part of `World`. -/
structure ConsulBackend where
  Agents : GoMap String := []
  AgentPort : String := ""
  Config : Config := {}
  Count : Int := 0
  IPSources : List String := []
  Refresh : Int := 0
  ServicePrefix : String := ""
  SlaveIDIP : GoMap String := []
  SlaveIPID : GoMap String := []
  SlaveIDHostname : GoMap String := []
  SlaveHostnameID : GoMap String := []
  State : State := {}
  FrameworkRecords : GoMap ConsulRecords := []
  MesosRecords : GoMap ConsulRecords := []
  TaskRecords : GoMap ConsulRecords := []
  HealthChecks : GoMap ConsulChecks := []
  ConsulServices : GoMap ConsulRecords := []

/-- A call the engine makes to the outside. -/
inductive Call
  | members
  | self (key : String)
  | newClient (address : String)
  | clientSelf (address : String)
  | serviceRegister (agentid : String) (service : AgentServiceRegistration)
  | checkRegister (agentid : String) (hc : AgentCheckRegistration)
  | serviceDeregister (agentid : String) (id : String)
  | checkDeregister (agentid : String) (id : String)
  | catalogDeregister (dereg : CatalogDeregistration)
  | services (agentid : String)
deriving DecidableEq, Repr, Inhabited

/-- The outside of the engine during one cycle. Every answer may depend on
the calls made so far. `Members` is the member listing (`none`: an error),
`succeeds` tells whether a call returns a nil error, `Services` is an agent
listing (`none`: an error), `KVGet` the value stored at a key (`none`: no pair
or an error), `Unmarshal` the outcome of `json.Unmarshal` into a fresh check
(`none`: an error). `RangeOrder i m` is the order in which the `range` loop
over the map m that `generateFrameworkRecords` runs for its i-th framework
visits the entries; an answer that is no rearrangement of m is not used. -/
structure World where
  Members : List Call → Option (List AgentMember) := fun _ => some []
  succeeds : List Call → Call → Bool := fun _ _ => true
  Services : List Call → String → Option (List AgentService) := fun _ _ => some []
  KVGet : String → Option String := fun _ => none
  Unmarshal : String → Option AgentCheckRegistration := fun _ => none
  RangeOrder : Nat → GoMap String → GoMap String := fun _ m => m

/-- The function `New`. `clientCreated` tells whether `capi.NewClient`
returned a nil error; `ipSources` and `refreshSeconds` are the two fields read
from the record generator. `none` stands for the empty backend of the two
error returns. -/
def New (clientCreated : Bool) (config : Config) (ipSources : List String)
    (refreshSeconds : Int) : Except Crash (Option ConsulBackend) :=
  if !clientCreated then .ok none
  else if config.CacheRefresh ≤ 0 then .ok none
  else
    match (stringsSplit config.Address ':')[1]? with
    | none => .error Crash.indexOutOfRange
    | some port =>
      .ok (some
        { Agents := [], AgentPort := port, Config := config, Count := 0,
          IPSources := ipSources, Refresh := refreshSeconds,
          ServicePrefix := "mesos-dns", SlaveIDIP := [], SlaveIPID := [],
          SlaveIDHostname := [], SlaveHostnameID := [], State := {},
          FrameworkRecords := [], MesosRecords := [], TaskRecords := [],
          HealthChecks := [], ConsulServices := [] })

/-- The loop of `connectAgents`; the Boolean is `err == nil`. -/
def connectLoop (w : World) :
    List AgentMember → ConsulBackend → List Call → Bool × ConsulBackend × List Call
  | [], c, tr => (true, c, tr)
  | agent :: rest, c, tr =>
    let cached := mapHas c.Agents agent.Addr
    let tr1 := if cached then tr ++ [Call.self agent.Addr] else tr
    if cached && w.succeeds tr (Call.self agent.Addr) then connectLoop w rest c tr1
    else
      let address := agent.Addr ++ ":" ++ c.AgentPort
      let tr2 := tr1 ++ [Call.newClient address]
      if !w.succeeds tr1 (Call.newClient address) then (false, c, tr2)
      else
        let tr3 := tr2 ++ [Call.clientSelf address]
        if !w.succeeds tr2 (Call.clientSelf address) then (false, c, tr3)
        else
          connectLoop w rest { c with Agents := mapSet c.Agents agent.Name address } tr3

/-- The function `connectAgents`; the Boolean is `err == nil`. -/
def connectAgents (w : World) (c : ConsulBackend) (tr : List Call) :
    Bool × ConsulBackend × List Call :=
  match w.Members tr with
  | none => (false, c, tr ++ [Call.members])
  | some members => connectLoop w members c (tr ++ [Call.members])

/-- The function `createService`. The regular expression always compiles. -/
def createService (id name address : String) (port : Int) (tags : List String) :
    AgentServiceRegistration :=
  let s := regReplaceAll name
  let asr : AgentServiceRegistration :=
    { ID := id, Name := stringsToLower (stringsReplace s "_" ""),
      Address := address, Tags := tags }
  if port > 0 then { asr with Port := port } else asr

/-- The statement `if _, ok := m[k]; !ok { m[k] = &ConsulRecords{} }`. -/
def ensureRecords (m : GoMap ConsulRecords) (k : String) : GoMap ConsulRecords :=
  if !mapHas m k then mapSet m k {} else m

/-- The statement `if _, ok := m[k]; !ok { m[k] = &ConsulChecks{} }`. -/
def ensureChecks (m : GoMap ConsulChecks) (k : String) : GoMap ConsulChecks :=
  if !mapHas m k then mapSet m k {} else m

/-- The statement `m[k].Current = append(m[k].Current, recs...)` for a key
that is present. -/
def appendCurrent (m : GoMap ConsulRecords) (k : String)
    (recs : List AgentServiceRegistration) : GoMap ConsulRecords :=
  match mapGet? m k with
  | some b => mapSet m k { b with Current := b.Current ++ recs }
  | none => m

/-- The statement `m[k].Current = append(m[k].Current, hcs...)` for a key
that is present. -/
def appendCurrentChecks (m : GoMap ConsulChecks) (k : String)
    (hcs : List AgentCheckRegistration) : GoMap ConsulChecks :=
  match mapGet? m k with
  | some b => mapSet m k { b with Current := b.Current ++ hcs }
  | none => m

/-- The host and port of the bogus leader slave of `generateMesosRecords`:
`strings.Split(strings.Split(leader, "@")[1], ":")` at 0 and at 1. -/
def leaderHostPort (leader : String) : Except Crash (String × String) :=
  match (stringsSplit leader '@')[1]? with
  | none => .error Crash.indexOutOfRange
  | some rest =>
    match (stringsSplit rest ':')[0]?, (stringsSplit rest ':')[1]? with
    | some host, some port => .ok (host, port)
    | _, _ => .error Crash.indexOutOfRange

/-- The body of the loop of `generateMesosRecords`. -/
def mesosStep (leadHost : String) (c : ConsulBackend) (slave : Slave) : ConsulBackend :=
  let c := { c with SlaveIDIP := mapSet c.SlaveIDIP slave.ID slave.PID.Host }
  let c := { c with SlaveIPID := mapSet c.SlaveIPID slave.PID.Host slave.ID }
  let short := (stringsSplit slave.Hostname '.').headD ""
  let c := { c with SlaveIDHostname := mapSet c.SlaveIDHostname slave.ID short }
  let c := { c with SlaveHostnameID := mapSet c.SlaveHostnameID short slave.ID }
  let tags := ["slave", mapStr c.SlaveIDHostname slave.ID]
  let tags := if slave.Master = "true" then tags ++ ["master"] else tags
  let tags := if slave.PID.Host = leadHost then tags ++ ["leader"] else tags
  match strconvAtoi slave.PID.Port with
  | none => c
  | some port =>
    let c := { c with MesosRecords := ensureRecords c.MesosRecords slave.ID }
    let rec1 :=
      createService (stringsJoin [c.ServicePrefix, slave.ID] ":") "mesos" slave.PID.Host port tags
    { c with MesosRecords := appendCurrent c.MesosRecords slave.ID [rec1] }

/-- The function `generateMesosRecords`. -/
def generateMesosRecords (c : ConsulBackend) : Except Crash ConsulBackend :=
  match leaderHostPort c.State.Leader with
  | .error e => .error e
  | .ok lead => .ok (c.State.Slaves.foldl (mesosStep lead.1) c)

/-- The entries of a map in the order in which the `range` loop for the i-th
framework visits them: any rearrangement of the entries, as the environment
gives it. -/
def rangeOrder (w : World) (i : Nat) (m : GoMap String) : GoMap String :=
  if (w.RangeOrder i m).Perm m then w.RangeOrder i m else m

/-- The loop of `generateFrameworkRecords` over `SlaveIDHostname`, which
has no early exit, on the entries in the order the loop visits them. -/
def slaveByHostname (short : String) (m : GoMap String) : String :=
  m.foldl (fun slaveid entry => if entry.2 = short then entry.1 else slaveid) ""

/-- The value of the variable `slaveid` of `generateFrameworkRecords` for the
i-th framework: the node cached for the host address of the framework, and
otherwise the node found by hostname. -/
def frameworkSlave (w : World) (i : Nat) (c : ConsulBackend) (framework : Framework) : String :=
  if mapHas c.SlaveIPID framework.PID.Host then mapStr c.SlaveIPID framework.PID.Host
  else
    slaveByHostname ((stringsSplit framework.Hostname '.').headD "")
      (rangeOrder w i c.SlaveIDHostname)

/-- The body of the loop of `generateFrameworkRecords`, for the i-th
framework. -/
def frameworkStep (w : World) (i : Nat) (c : ConsulBackend) (framework : Framework) :
    ConsulBackend :=
  if !framework.Active then c
  else
    match strconvAtoi framework.PID.Port with
    | none => c
    | some port =>
      let slaveid := frameworkSlave w i c framework
      if slaveid = "" then c
      else
        let c := { c with FrameworkRecords := ensureRecords c.FrameworkRecords slaveid }
        let rec1 :=
          createService (stringsJoin [c.ServicePrefix, framework.Name] ":") framework.Name
            framework.PID.Host port []
        { c with FrameworkRecords := appendCurrent c.FrameworkRecords slaveid [rec1] }

/-- The loop of `generateFrameworkRecords`, from the i-th framework on. -/
def frameworkLoop (w : World) : Nat → List Framework → ConsulBackend → ConsulBackend
  | _, [], c => c
  | i, framework :: rest, c => frameworkLoop w (i + 1) rest (frameworkStep w i c framework)

/-- The function `generateFrameworkRecords`. -/
def generateFrameworkRecords (w : World) (c : ConsulBackend) : ConsulBackend :=
  frameworkLoop w 0 c.State.Frameworks c

/-- The switch statement of `getAddress`: the value of the variable `address`
after it, given its value before. -/
def lookupSwitch (task : Task) (lookup : String) (address : String) : Except Crash String :=
  let lookupkey := stringsSplit lookup ':'
  let key := lookupkey.headD ""
  if key = "mesos" then .ok (task.IP "mesos")
  else if key = "docker" then .ok (task.IP "docker")
  else if key = "netinfo" then .ok (task.IP "netinfo")
  else if key = "host" then .ok (task.IP "host")
  else if key = "label" then
    if lookupkey.length ≠ 2 then .error Crash.fatal
    else
      let addresses := task.StatusIPs (lookupkey.getD 1 "")
      if addresses.length > 0 then .ok (addresses.headD "") else .ok address
  else .ok address

/-- The loop of `getAddress`; the last argument is the variable `address`. -/
def getAddressLoop (task : Task) : List String → String → Except Crash String
  | [], address => .ok address
  | lookup :: rest, address =>
    match lookupSwitch task lookup address with
    | .error e => .error e
    | .ok address1 =>
      if address1 ≠ "" then .ok address1 else getAddressLoop task rest address1

/-- The function `getAddress`. -/
def getAddress (c : ConsulBackend) (task : Task) : Except Crash String :=
  match getAddressLoop task c.IPSources "" with
  | .error e => .error e
  | .ok address => if address = "" then .ok (mapStr c.SlaveIDIP task.SlaveID) else .ok address

/-- The function `evalVars`: the returned flag and the new value of the
string behind the pointer. -/
def evalVars (check : String) (address : String) (port : Int) : Bool × String :=
  if stringsContains check "\x7bPORT\x7d" && port = 0 then (false, check)
  else
    (true,
      stringsReplace (stringsReplace check "\x7bIP\x7d" address) "\x7bPORT\x7d"
        (strconvItoa port))

/-- The body of the inner loop of `getHealthChecks`: the check appended for
one endpoint, or `none` when the iteration ends in a `continue`. -/
def endpointCheck (w : World) (id address : String) (port : Int) (endpoint : String) :
    Option AgentCheckRegistration :=
  match w.KVGet ("healthchecks/" ++ endpoint) with
  | none => none
  | some value =>
    match w.Unmarshal value with
    | none => none
    | some check0 =>
      let check1 := { check0 with ID := stringsJoin [check0.ID, id] ":" }
      let check2 := { check1 with ServiceID := id }
      let http := if check2.HTTP ≠ "" then evalVars check2.HTTP address port else (true, check2.HTTP)
      if !http.1 then none
      else
        let check3 := { check2 with HTTP := http.2 }
        let script :=
          if check3.Script ≠ "" then evalVars check3.Script address port else (true, check3.Script)
        if !script.1 then none
        else
          let check4 := { check3 with Script := script.2 }
          let tcp := if check4.TCP ≠ "" then evalVars check4.TCP address port else (true, check4.TCP)
          if !tcp.1 then none
          else some { check4 with TCP := tcp.2 }

/-- The function `getHealthChecks`. -/
def getHealthChecks (w : World) (task : Task) (id address : String) (port : Int) :
    List AgentCheckRegistration :=
  task.Labels.foldl
    (fun hc label =>
      if label.Key ≠ "ConsulHealthCheckKeys" then hc
      else
        (stringsSplit label.Value ',').foldl
          (fun hc endpoint =>
            match endpointCheck w id address port endpoint with
            | none => hc
            | some check => hc ++ [check])
          hc)
    []

/-- The body of the loop over the ports in `generateTaskRecords`. -/
def portStep (w : World) (task : Task) (address : String) (c : ConsulBackend)
    (port : String) : ConsulBackend :=
  match strconvAtoi port with
  | none => c
  | some p =>
    let id :=
      stringsJoin [c.ServicePrefix, mapStr c.SlaveIDHostname task.SlaveID, task.ID, port] ":"
    let rec1 := createService id task.Name address p [mapStr c.SlaveIDHostname task.SlaveID]
    let c1 := { c with TaskRecords := appendCurrent c.TaskRecords task.SlaveID [rec1] }
    let hcs := getHealthChecks w task id address p
    { c1 with HealthChecks := appendCurrentChecks c1.HealthChecks task.SlaveID hcs }

/-- The body of the loop of `generateTaskRecords`. -/
def taskStep (w : World) (c : ConsulBackend) (task : Task) : Except Crash ConsulBackend :=
  if task.State ≠ "TASK_RUNNING" then .ok c
  else
    match getAddress c task with
    | .error e => .error e
    | .ok address =>
      let c1 := { c with TaskRecords := ensureRecords c.TaskRecords task.SlaveID }
      let c2 := { c1 with HealthChecks := ensureChecks c1.HealthChecks task.SlaveID }
      if task.Ports.length = 0 then
        let id :=
          stringsJoin [c2.ServicePrefix, mapStr c2.SlaveIDHostname task.SlaveID, task.ID] ":"
        let rec1 := createService id task.Name address 0 [mapStr c2.SlaveIDHostname task.SlaveID]
        let c3 := { c2 with TaskRecords := appendCurrent c2.TaskRecords task.SlaveID [rec1] }
        let hcs := getHealthChecks w task id address 0
        .ok { c3 with HealthChecks := appendCurrentChecks c3.HealthChecks task.SlaveID hcs }
      else .ok (task.Ports.foldl (portStep w task address) c2)

/-- The function `generateTaskRecords`. -/
def generateTaskRecords (w : World) : ConsulBackend → List Task → Except Crash ConsulBackend
  | c, [] => .ok c
  | c, task :: rest =>
    match taskStep w c task with
    | .error e => .error e
    | .ok c1 => generateTaskRecords w c1 rest

/-- The loop of `Reload` over the frameworks of the snapshot. -/
def generateAllTaskRecords (w : World) :
    ConsulBackend → List Framework → Except Crash ConsulBackend
  | c, [] => .ok c
  | c, framework :: rest =>
    match generateTaskRecords w c framework.Tasks with
    | .error e => .error e
    | .ok c1 => generateAllTaskRecords w c1 rest

/-! ## Applying the deltas -/

/-- One of the three blocks at the head of the goroutine of `Register`: the
additions of one bucket kind appended to `services`. -/
def additionBlock (m : GoMap ConsulRecords) (slaveid : String)
    (services : List AgentServiceRegistration) : List AgentServiceRegistration :=
  match mapGet? m slaveid with
  | some b => services ++ getDeltaServices b.Previous b.Current
  | none => services

/-- The list `services` of `Register`: the addition set of a node. -/
def serviceAdditions (c : ConsulBackend) (slaveid : String) : List AgentServiceRegistration :=
  additionBlock c.TaskRecords slaveid
    (additionBlock c.FrameworkRecords slaveid (additionBlock c.MesosRecords slaveid []))

/-- The list `checks` of `Register`: the health checks to add for a node. -/
def checkAdditions (c : ConsulBackend) (slaveid : String) : List AgentCheckRegistration :=
  match mapGet? c.HealthChecks slaveid with
  | some b => [] ++ getDeltaChecks b.Previous b.Current "add"
  | none => []

/-- The loop of `Register` over the services. Each of its three exits goes on
with the next service. -/
def registerServices (w : World) (c : ConsulBackend) (agentid slaveid : String) :
    List AgentServiceRegistration → List Call → List Call
  | [], tr => tr
  | service :: rest, tr =>
    let tr1 := tr ++ [Call.serviceRegister agentid service]
    if !w.succeeds tr (Call.serviceRegister agentid service) then
      registerServices w c agentid slaveid rest tr1
    else if !mapHas c.HealthChecks slaveid then registerServices w c agentid slaveid rest tr1
    else registerServices w c agentid slaveid rest tr1

/-- The loop of `Register` over the health checks. -/
def registerChecks (w : World) (agentid : String) :
    List AgentCheckRegistration → List Call → List Call
  | [], tr => tr
  | hc :: rest, tr =>
    let tr1 := tr ++ [Call.checkRegister agentid hc]
    if !w.succeeds tr (Call.checkRegister agentid hc) then registerChecks w agentid rest tr1
    else registerChecks w agentid rest tr1

/-- The goroutine of `Register` for one agent; `Register` waits for it before
it launches the next one. -/
def registerAgent (w : World) (c : ConsulBackend) (tr : List Call) (agentid : String) :
    List Call :=
  let slaveid := mapStr c.SlaveHostnameID agentid
  let tr1 := registerServices w c agentid slaveid (serviceAdditions c slaveid) tr
  registerChecks w agentid (checkAdditions c slaveid) tr1

/-- The function `Register`. -/
def Register (w : World) (c : ConsulBackend) (tr : List Call) : List Call :=
  c.Agents.foldl (fun tr entry => registerAgent w c tr entry.1) tr

/-- The loop of `getServices` over the listing. -/
def ownedServices (servicePrefix : String) (services : List AgentService) :
    List AgentServiceRegistration :=
  services.foldl
    (fun svcs service =>
      if (stringsSplit service.ID ':').headD "" ≠ servicePrefix then svcs
      else
        svcs ++ [{ ID := service.ID, Name := service.Service, Tags := service.Tags,
                   Port := service.Port, Address := service.Address }])
    []

/-- The function `getServices`: the list it returns, the backend (whose
counter it may reset) and the calls. The remainder of a division by zero is a
run-time panic. -/
def getServices (w : World) (c : ConsulBackend) (tr : List Call) (agentid : String) :
    Except Crash (List AgentServiceRegistration × ConsulBackend × List Call) :=
  if c.Config.CacheOnly then .ok ([], c, tr)
  else if c.Config.CacheRefresh = 0 then .error Crash.divideByZero
  else if Int.tmod c.Count c.Config.CacheRefresh ≠ 0 then .ok ([], c, tr)
  else
    let c1 := { c with Count := 0 }
    match w.Services tr agentid with
    | none => .ok ([], c1, tr ++ [Call.services agentid])
    | some services => .ok (ownedServices c1.ServicePrefix services, c1, tr ++ [Call.services agentid])

/-- One of the three blocks at the head of the goroutine of `Cleanup`: the
removals of one bucket kind appended to `services`, its current records
appended to `currentservices`, and the bucket promoted. -/
def removalBlock (m : GoMap ConsulRecords) (slaveid : String)
    (acc : List AgentServiceRegistration × List AgentServiceRegistration) :
    GoMap ConsulRecords × List AgentServiceRegistration × List AgentServiceRegistration :=
  match mapGet? m slaveid with
  | some b =>
    (mapSet m slaveid { Current := [], Previous := b.Current },
      acc.1 ++ getDeltaServices b.Current b.Previous, acc.2 ++ b.Current)
  | none => (m, acc.1, acc.2)

/-- The loop of `Cleanup` over the services to remove. -/
def deregisterServices (w : World) (agentid node : String) :
    List AgentServiceRegistration → List Call → List Call
  | [], tr => tr
  | service :: rest, tr =>
    let tr1 := tr ++ [Call.serviceDeregister agentid service.ID]
    if !w.succeeds tr (Call.serviceDeregister agentid service.ID) then
      let dereg : CatalogDeregistration := { Node := node, ServiceID := service.ID }
      let tr2 := tr1 ++ [Call.catalogDeregister dereg]
      if !w.succeeds tr1 (Call.catalogDeregister dereg) then
        deregisterServices w agentid node rest tr2
      else deregisterServices w agentid node rest tr2
    else deregisterServices w agentid node rest tr1

/-- The loop of `Cleanup` over the health checks to remove. -/
def deregisterChecks (w : World) (agentid node : String) :
    List AgentCheckRegistration → List Call → List Call
  | [], tr => tr
  | hc :: rest, tr =>
    let tr1 := tr ++ [Call.checkDeregister agentid hc.ID]
    if !w.succeeds tr (Call.checkDeregister agentid hc.ID) then
      let dereg : CatalogDeregistration := { Node := node, CheckID := hc.ID }
      let tr2 := tr1 ++ [Call.catalogDeregister dereg]
      if !w.succeeds tr1 (Call.catalogDeregister dereg) then
        deregisterChecks w agentid node rest tr2
      else deregisterChecks w agentid node rest tr2
    else deregisterChecks w agentid node rest tr1

/-- The block of `Cleanup` on the health checks: the checks to remove and the
promoted bucket. -/
def checkRemovalBlock (m : GoMap ConsulChecks) (slaveid : String) :
    GoMap ConsulChecks × List AgentCheckRegistration :=
  match mapGet? m slaveid with
  | some b =>
    (mapSet m slaveid { Current := [], Previous := b.Current },
      [] ++ getDeltaChecks b.Current b.Previous "purge")
  | none => (m, [])

/-- The three blocks at the head of the goroutine of `Cleanup`, for the node
records, the framework records and the task records in this order: the
backend with the three buckets promoted, the list `services` and the list
`currentservices`. -/
def cleanupHead (c : ConsulBackend) (slaveid : String) :
    ConsulBackend × List AgentServiceRegistration × List AgentServiceRegistration :=
  let r1 := removalBlock c.MesosRecords slaveid ([], [])
  let c1 := { c with MesosRecords := r1.1 }
  let r2 := removalBlock c1.FrameworkRecords slaveid r1.2
  let c2 := { c1 with FrameworkRecords := r2.1 }
  let r3 := removalBlock c2.TaskRecords slaveid r2.2
  let c3 := { c2 with TaskRecords := r3.1 }
  (c3, r3.2.1, r3.2.2)

/-- The goroutine of `Cleanup` for one agent; `Cleanup` waits for it before it
launches the next one. -/
def cleanupAgent (w : World) (c : ConsulBackend) (tr : List Call) (agentid : String) :
    Except Crash (ConsulBackend × List Call) :=
  let slaveid := mapStr c.SlaveHostnameID agentid
  let head := cleanupHead c slaveid
  match getServices w head.1 tr agentid with
  | .error e => .error e
  | .ok (listed, c4, tr1) =>
    let services := head.2.1 ++ getDeltaServices head.2.2 listed
    let tr2 := deregisterServices w agentid (mapStr c4.SlaveIDHostname slaveid) services tr1
    let r4 := checkRemovalBlock c4.HealthChecks slaveid
    let c5 := { c4 with HealthChecks := r4.1 }
    .ok (c5, deregisterChecks w agentid (mapStr c5.SlaveIDHostname slaveid) r4.2 tr2)

/-- The loop of `Cleanup` over the agents. -/
def cleanupLoop (w : World) :
    List String → ConsulBackend → List Call → Except Crash (ConsulBackend × List Call)
  | [], c, tr => .ok (c, tr)
  | agentid :: rest, c, tr =>
    match cleanupAgent w c tr agentid with
    | .error e => .error e
    | .ok (c1, tr1) => cleanupLoop w rest c1 tr1

/-- The function `Cleanup`. -/
def Cleanup (w : World) (c : ConsulBackend) (tr : List Call) :
    Except Crash (ConsulBackend × List Call) :=
  cleanupLoop w (c.Agents.map Prod.fst) c tr

/-- The derivation half of `Reload`: the counter, the snapshot, the agent
connections and the three generators. The Boolean is false for the early
return after a failed `connectAgents`. -/
def derive (w : World) (c : ConsulBackend) (tr : List Call) (rgState : State) :
    Except Crash (Bool × ConsulBackend × List Call) :=
  let c1 := { c with Count := incInt64 c.Count }
  let c2 := { c1 with State := rgState }
  match connectAgents w c2 tr with
  | (false, c3, tr1) => .ok (false, c3, tr1)
  | (true, c3, tr1) =>
    match generateMesosRecords c3 with
    | .error e => .error e
    | .ok c4 =>
      match generateAllTaskRecords w (generateFrameworkRecords w c4) rgState.Frameworks with
      | .error e => .error e
      | .ok c5 => .ok (true, c5, tr1)

/-- The function `Reload`. -/
def Reload (w : World) (c : ConsulBackend) (tr : List Call) (rgState : State) :
    Except Crash (ConsulBackend × List Call) :=
  match derive w c tr rgState with
  | .error e => .error e
  | .ok (false, c1, tr1) => .ok (c1, tr1)
  | .ok (true, c1, tr1) => Cleanup w c1 (Register w c1 tr1)

/-! ## The main loop (`main.go`) -/

/-- What one call of `reloadResolvers` leaves behind: the resolvers, the
invocations of `Reload` in order (the position of the resolver in the list and
the snapshot it was given), and whether the call reached the statement
`errch <- err`. -/
structure ReloadEffects (ρ : Type) where
  resolvers : List ρ
  invocations : List (Nat × State)
  errSend : Bool

/-- The loop of `reloadResolvers` over the resolvers, from the position i on.
`reload` is the method `Reload` of the interface `Resolver`; a panic of one
invocation ends the loop. -/
def reloadLoop {ρ : Type} (reload : State → ρ → Except Crash ρ) (snapshot : State) :
    Nat → List ρ → Except Crash (List ρ × List (Nat × State))
  | _, [] => .ok ([], [])
  | i, resolver :: rest =>
    match reload snapshot resolver with
    | .error e => .error e
    | .ok resolver1 =>
      match reloadLoop reload snapshot (i + 1) rest with
      | .error e => .error e
      | .ok (rest1, log) => .ok (resolver1 :: rest1, (i, snapshot) :: log)

/-- The function `reloadResolvers`. `parseState` is the outcome of
`rg.ParseState()` on the fresh record generator: `none` for a non-nil error,
and otherwise the snapshot the generator then holds. -/
def reloadResolvers {ρ : Type} (parseState : Option State)
    (reload : State → ρ → Except Crash ρ) (rs : List ρ) : Except Crash (ReloadEffects ρ) :=
  match parseState with
  | none => .ok { resolvers := rs, invocations := [], errSend := true }
  | some snapshot =>
    match reloadLoop reload snapshot 0 rs with
    | .error e => .error e
    | .ok (rs1, log) => .ok { resolvers := rs1, invocations := log, errSend := false }

/-- Where the goroutine of `main` stands: at the `select` of the event loop,
inside `reloadResolvers` at the send `errch <- err`, or gone (after
`logging.Error.Fatal`, or a panic and the exit of the crash handler). -/
inductive Pc
  | atSelect
  | atSend
  | exited
deriving DecidableEq, Repr, Inhabited

/-- The goroutine of `main` in its event loop: where it stands, the masters of
the configuration, the resolvers, and every invocation of `Reload` so far. -/
structure MainLoop (ρ : Type) where
  pc : Pc
  masters : List String
  resolvers : List ρ
  invocations : List (Nat × State)

/-- What the outside offers the event loop: a tick of the reload timer, a
change of the masters, or an error sent on the error channel by another
goroutine. The first two carry the outcome of the `ParseState` of that cycle. -/
inductive Event
  | tick (parseState : Option State)
  | mastersChanged (masters : List String) (parseState : Option State)
  | errSent

/-- The event loop after a call of `reloadResolvers`. -/
def afterReload {ρ : Type} (m : MainLoop ρ) (r : Except Crash (ReloadEffects ρ)) : MainLoop ρ :=
  match r with
  | .error _ => { m with pc := Pc.exited }
  | .ok eff =>
    { m with pc := if eff.errSend then Pc.atSend else Pc.atSelect,
             resolvers := eff.resolvers,
             invocations := m.invocations ++ eff.invocations }

/-- One step of the goroutine of `main` when the outside offers an event.
At the `select` it takes the case of the event. At the send `errch <- err` it
cannot move: the channel is made without a buffer (`make(chan error)`), so the
send waits for a receive, and the only receive on that channel in the program
is the case of this same `select`. -/
def mainStep {ρ : Type} (reload : State → ρ → Except Crash ρ) (m : MainLoop ρ) :
    Event → MainLoop ρ
  | Event.tick parseState =>
    match m.pc with
    | Pc.atSelect => afterReload m (reloadResolvers parseState reload m.resolvers)
    | _ => m
  | Event.mastersChanged masters parseState =>
    match m.pc with
    | Pc.atSelect =>
      afterReload { m with masters := masters }
        (reloadResolvers parseState reload m.resolvers)
    | _ => m
  | Event.errSent =>
    match m.pc with
    | Pc.atSelect => { m with pc := Pc.exited }
    | _ => m

/-- The event loop over a sequence of events. -/
def mainLoop {ρ : Type} (reload : State → ρ → Except Crash ρ) (m : MainLoop ρ)
    (events : List Event) : MainLoop ρ :=
  events.foldl (mainStep reload) m

/-- The method `Reload` of the consul backend as a resolver, in the outside w. -/
def consulReload (w : World) (snapshot : State) (c : ConsulBackend) : Except Crash ConsulBackend :=
  match Reload w c [] snapshot with
  | .error e => .error e
  | .ok (c1, _) => .ok c1

/-! ## Validation of the configuration (`records`, `resolvers/builtin`) -/

/-- The errors of the validation functions, one constructor per `fmt.Errorf`. -/
inductive ValidationError
  | emptySources
  | duplicateSource
  | invalidSource (src : String)
  | illegalIP (r : String)
  | duplicateIP (r : String)
deriving DecidableEq, Repr, Inhabited

/-- The function `unique` of `records/config.go`: the pair is the map `set`
and the slice `out`. -/
def unique (ss : List String) : List String :=
  (ss.foldl
    (fun (acc : GoMap Unit × List String) s =>
      if !mapHas acc.1 s then (mapSet acc.1 s (), acc.2 ++ [s]) else acc)
    ([], [])).2

/-- The loop of `validateIPSources` over the sources. `strings.Split` never
returns an empty slice, so the index 0 is always there. -/
def validateSourcesLoop : List String → Option ValidationError
  | [] => none
  | src :: rest =>
    let source := stringsSplit src ':'
    let first := source.headD ""
    if first = "host" ∨ first = "docker" ∨ first = "mesos" ∨ first = "netinfo" ∨ first = "label"
    then validateSourcesLoop rest
    else some (ValidationError.invalidSource src)

/-- The function `validateIPSources` of `records/validation.go`; `none` is the
nil error. -/
def validateIPSources (srcs : List String) : Option ValidationError :=
  if srcs.length = 0 then some ValidationError.emptySources
  else if srcs.length ≠ (unique srcs).length then some ValidationError.duplicateSource
  else validateSourcesLoop srcs

/-- The loop of `validateExternalDNS`. `parseIP` is `net.ParseIP` (`none`: the
nil address) and `ipString` the method `String` of the parsed address. -/
def externalDNSLoop {α : Type} (parseIP : String → Option α) (ipString : α → String) :
    List String → GoMap Unit → Option ValidationError
  | [], _ => none
  | r :: rest, ips =>
    match parseIP r with
    | none => some (ValidationError.illegalIP r)
    | some ip =>
      let ipstr := ipString ip
      if mapHas ips ipstr then some (ValidationError.duplicateIP r)
      else externalDNSLoop parseIP ipString rest (mapSet ips ipstr ())

/-- The function `validateExternalDNS` of `resolvers/builtin/validation.go`;
`none` is the nil error. -/
def validateExternalDNS {α : Type} (parseIP : String → Option α) (ipString : α → String)
    (rs : List String) : Option ValidationError :=
  if rs.length = 0 then none else externalDNSLoop parseIP ipString rs []

/-! ## Closed forms of the health-check templating -/

/-- Whether `evalVars` returns true for a template and a port: it returns
false exactly for a template with the PORT placeholder and the port 0
(consul.go:701-704). -/
def templateOk (s : String) (port : Int) : Bool :=
  !(stringsContains s "\x7bPORT\x7d" && decide (port = 0))

/-- The template that `evalVars` leaves when it returns true: every IP
placeholder replaced by the address and then every PORT placeholder by the
port (consul.go:705-706). -/
def substituted (s address : String) (port : Int) : String :=
  stringsReplace (stringsReplace s "\x7bIP\x7d" address) "\x7bPORT\x7d" (strconvItoa port)

/-- The check that the body of the inner loop of `getHealthChecks` appends for
a deserialized definition when the three substitutions go through
(consul.go:510-533): the ID joined with the id of the service record by a
colon, the ServiceID set to that id, and the three templates substituted. -/
def namespacedCheck (check0 : AgentCheckRegistration) (id address : String) (port : Int) :
    AgentCheckRegistration :=
  { check0 with ID := check0.ID ++ ":" ++ id, ServiceID := id,
                HTTP := substituted check0.HTTP address port,
                Script := substituted check0.Script address port,
                TCP := substituted check0.TCP address port }

/-! ## Specification-side definitions -/

/-- The address one preference entry yields for a task, in the words of the
spec: the task's address for the source named by the first segment (mesos,
docker, netinfo, host), the first status address carrying the label for
`label:<name>`, and nothing for any other entry. -/
def sourceAddress (task : Task) (lookup : String) : String :=
  let segs := stringsSplit lookup ':'
  let key := segs.headD ""
  if key = "mesos" ∨ key = "docker" ∨ key = "netinfo" ∨ key = "host" then task.IP key
  else if key = "label" then (task.StatusIPs (segs.getD 1 "")).headD ""
  else ""

/-- The first non-empty string of a list. -/
def firstNonEmpty : List String → Option String
  | [] => none
  | a :: rest => if a ≠ "" then some a else firstNonEmpty rest

/-- The address of a task in the words of the spec: the first non-empty
address in preference order, and the host address of the task's node when
there is none. -/
def resolvedAddress (c : ConsulBackend) (task : Task) : String :=
  match firstNonEmpty (c.IPSources.map (sourceAddress task)) with
  | some a => a
  | none => mapStr c.SlaveIDIP task.SlaveID

/-- The service name of the spec: every character outside `[A-Za-z0-9_-]`
replaced by a hyphen, underscores removed, lower-cased. -/
def serviceName (name : String) : String :=
  stringsToLower (stringsReplace (regReplaceAll name) "_" "")

/-- The current records of a node in a bucket map. -/
def currentRecords (m : GoMap ConsulRecords) (k : String) : List AgentServiceRegistration :=
  match mapGet? m k with
  | some b => b.Current
  | none => []

/-- The previous records of a node in a bucket map. -/
def previousRecords (m : GoMap ConsulRecords) (k : String) : List AgentServiceRegistration :=
  match mapGet? m k with
  | some b => b.Previous
  | none => []

/-- The id shared by the records of a task: `prefix:shortHostname:taskId`. -/
def taskBaseID (c : ConsulBackend) (task : Task) : String :=
  c.ServicePrefix ++ ":" ++ mapStr c.SlaveIDHostname task.SlaveID ++ ":" ++ task.ID

/-- The record of the spec for one port entry of a task: none when the entry
does not parse, and otherwise the record with id
`prefix:shortHostname:taskId:port`. -/
def portRecord (c : ConsulBackend) (task : Task) (address : String) (port : String) :
    Option AgentServiceRegistration :=
  (strconvAtoi port).map fun p =>
    { ID := taskBaseID c task ++ ":" ++ port, Name := serviceName task.Name,
      Tags := [mapStr c.SlaveIDHostname task.SlaveID],
      Port := if p > 0 then p else 0, Address := address }

/-- The port fan-out of the spec: one record with port 0 for a task without
ports, and otherwise one record per port entry that parses, in order. -/
def fanOutRecords (c : ConsulBackend) (task : Task) (address : String) :
    List AgentServiceRegistration :=
  if task.Ports = [] then
    [{ ID := taskBaseID c task, Name := serviceName task.Name,
       Tags := [mapStr c.SlaveIDHostname task.SlaveID], Port := 0, Address := address }]
  else task.Ports.filterMap (portRecord c task address)

/-- A backend with its task buckets blanked: what `generateTaskRecords` leaves
untouched. -/
def eraseTaskBuckets (c : ConsulBackend) : ConsulBackend :=
  { c with TaskRecords := [], HealthChecks := [] }

/-- Whether a call is a catalog-level deregistration. -/
def isCatalogCall : Call → Bool
  | Call.catalogDeregister _ => true
  | _ => false

/-- The two-tier removal pattern of the spec, for the calls `new` made after
the calls `before` on a list of ids. Apart from the catalog calls, `new` is
the agent-level call of every id, in order; an agent-level call is directly
followed by the catalog call of its id exactly when it failed; and a catalog
call only occurs directly after the agent-level call of its id. -/
def TwoTier (w : World) (before : List Call) (agentCall catalogCall : String → Call)
    (ids : List String) (new : List Call) : Prop :=
  new.filter (fun call => !isCatalogCall call) = ids.map agentCall ∧
  (∀ pre id post, new = pre ++ agentCall id :: post →
    (w.succeeds (before ++ pre) (agentCall id) = false ↔
      ∃ post1, post = catalogCall id :: post1)) ∧
  (∀ pre dereg post, new = pre ++ Call.catalogDeregister dereg :: post →
    ∃ pre1 id, pre = pre1 ++ [agentCall id] ∧ Call.catalogDeregister dereg = catalogCall id)

/-- The two removal loops of `Cleanup` as one loop over ids. -/
def twoTierLoop (w : World) (agentCall catalogCall : String → Call) :
    List String → List Call → List Call
  | [], tr => tr
  | id :: rest, tr =>
    if w.succeeds tr (agentCall id) then
      twoTierLoop w agentCall catalogCall rest (tr ++ [agentCall id])
    else twoTierLoop w agentCall catalogCall rest (tr ++ [agentCall id] ++ [catalogCall id])

/-- A bucket of service records after promotion: Current moved into Previous
and Current cleared. -/
def promoted (b : ConsulRecords) : ConsulRecords :=
  { Current := [], Previous := b.Current }

/-- A bucket of health checks after promotion. -/
def promotedChecks (b : ConsulChecks) : ConsulChecks :=
  { Current := [], Previous := b.Current }

/-- The four buckets of a node: node records, framework records, task records
and health checks. -/
def bucketsAt (c : ConsulBackend) (k : String) :
    Option ConsulRecords × Option ConsulRecords × Option ConsulRecords × Option ConsulChecks :=
  (mapGet? c.MesosRecords k, mapGet? c.FrameworkRecords k, mapGet? c.TaskRecords k,
    mapGet? c.HealthChecks k)

/-- Promotion of the four buckets of a node. -/
def promoteAt
    (x : Option ConsulRecords × Option ConsulRecords × Option ConsulRecords × Option ConsulChecks) :
    Option ConsulRecords × Option ConsulRecords × Option ConsulRecords × Option ConsulChecks :=
  (x.1.map promoted, x.2.1.map promoted, x.2.2.1.map promoted, x.2.2.2.map promotedChecks)

/-- A backend with its buckets and its counter blanked: what `Cleanup` leaves
untouched. -/
def eraseCleanup (c : ConsulBackend) : ConsulBackend :=
  { c with MesosRecords := [], FrameworkRecords := [], TaskRecords := [], HealthChecks := [],
           Count := 0 }

/-- The number of connected agents of a list whose name maps to a node id. -/
def agentsOf (c : ConsulBackend) (k : String) (agents : List String) : Nat :=
  agents.countP (fun agentid => decide (mapStr c.SlaveHostnameID agentid = k))

/-- Whether a call is the full listing of the services of an agent. -/
def isListing : Call → Bool
  | Call.services _ => true
  | _ => false

/-- The listing calls of a call list, in order. -/
def listingCalls (tr : List Call) : List Call :=
  tr.filter isListing

/-- A backend with its agent connections blanked: what `connectAgents` leaves
untouched. -/
def eraseAgents (c : ConsulBackend) : ConsulBackend :=
  { c with Agents := [] }

/-- A backend with its identity maps and node buckets blanked: what
`generateMesosRecords` leaves untouched. -/
def eraseMesos (c : ConsulBackend) : ConsulBackend :=
  { c with SlaveIDIP := [], SlaveIPID := [], SlaveIDHostname := [], SlaveHostnameID := [],
           MesosRecords := [] }

/-- A backend with its framework buckets blanked: what
`generateFrameworkRecords` leaves untouched. -/
def eraseFramework (c : ConsulBackend) : ConsulBackend :=
  { c with FrameworkRecords := [] }

/-- A cycle in which `connectAgents` succeeds and at least one agent is
connected. -/
def connectedCycle (w : World) (c : ConsulBackend) (tr : List Call) (rgState : State) : Prop :=
  ∃ d tr1, derive w c tr rgState = .ok (true, d, tr1) ∧ d.Agents ≠ []

/-- `ConnectedRun c0 tr0 n c tr`: n successive calls of `Reload`, each of them
a connected cycle, lead from the backend c0 and the calls tr0 to the backend
c and the calls tr. -/
inductive ConnectedRun (c0 : ConsulBackend) (tr0 : List Call) :
    Nat → ConsulBackend → List Call → Prop
  | zero : ConnectedRun c0 tr0 0 c0 tr0
  | step {n : Nat} {c c1 : ConsulBackend} {tr tr1 : List Call} (w : World)
      (rgState : State) (hrun : ConnectedRun c0 tr0 n c tr)
      (hconn : connectedCycle w c tr rgState)
      (hreload : Reload w c tr rgState = .ok (c1, tr1)) : ConnectedRun c0 tr0 (n + 1) c1 tr1

/-- Whether the drift listing is due: the drift check is enabled by the
configuration and the counter is a multiple of the refresh threshold. -/
def driftDue (c : ConsulBackend) : Prop :=
  c.Config.CacheOnly = false ∧ Int.tmod c.Count c.Config.CacheRefresh = 0

/-- The keys of a map, in iteration order. -/
def mapKeys {V : Type} (m : GoMap V) : List String :=
  m.map Prod.fst

/-- A sequence of assignments `m[k] = v`, in order. -/
def mapUpdates {V : Type} (us : List (String × V)) (m : GoMap V) : GoMap V :=
  us.foldl (fun m u => mapSet m u.1 u.2) m

/-- The value at a key after a sequence of assignments, given the value
before. -/
def lookupAfter {V : Type} (k : String) : List (String × V) → Option V → Option V
  | [], base => base
  | u :: us, base => lookupAfter k us (if u.1 = k then some u.2 else base)

/-- The current health checks of a node in a bucket map. -/
def currentChecks (m : GoMap ConsulChecks) (k : String) : List AgentCheckRegistration :=
  match mapGet? m k with
  | some b => b.Current
  | none => []

/-- The previous health checks of a node in a bucket map. -/
def previousChecks (m : GoMap ConsulChecks) (k : String) : List AgentCheckRegistration :=
  match mapGet? m k with
  | some b => b.Previous
  | none => []

/-- The short hostname of a node: its hostname up to the first dot. -/
def shortHostname (hostname : String) : String :=
  (stringsSplit hostname '.').headD ""

/-- The tags of the record of a node. -/
def slaveTags (leadHost : String) (slave : Slave) : List String :=
  (["slave", shortHostname slave.Hostname]
      ++ (if slave.Master = "true" then ["master"] else []))
    ++ (if slave.PID.Host = leadHost then ["leader"] else [])

/-- What one node of the snapshot adds to the current node records of the
node id k. -/
def mesosContribution (servicePrefix leadHost : String) (slave : Slave) (k : String) :
    List AgentServiceRegistration :=
  if slave.ID = k then
    match strconvAtoi slave.PID.Port with
    | some port =>
      [createService (stringsJoin [servicePrefix, slave.ID] ":") "mesos" slave.PID.Host port
        (slaveTags leadHost slave)]
    | none => []
  else []

/-- What the nodes of the snapshot add to the current node records of the node
id k. -/
def mesosRecordsFor (servicePrefix leadHost k : String) : List Slave → List AgentServiceRegistration
  | [] => []
  | slave :: rest =>
    mesosContribution servicePrefix leadHost slave k ++ mesosRecordsFor servicePrefix leadHost k rest

/-- What the i-th framework adds to the current framework records of the node
id k. -/
def frameworkContribution (w : World) (i : Nat) (c : ConsulBackend) (framework : Framework)
    (k : String) : List AgentServiceRegistration :=
  if framework.Active = true then
    match strconvAtoi framework.PID.Port with
    | some port =>
      if frameworkSlave w i c framework = "" then []
      else if frameworkSlave w i c framework = k then
        [createService (stringsJoin [c.ServicePrefix, framework.Name] ":") framework.Name
          framework.PID.Host port []]
      else []
    | none => []
  else []

/-- What the frameworks of the snapshot, from the i-th on, add to the current
framework records of the node id k. -/
def frameworkRecordsFor (w : World) (c : ConsulBackend) (k : String) :
    Nat → List Framework → List AgentServiceRegistration
  | _, [] => []
  | i, framework :: rest =>
    frameworkContribution w i c framework k ++ frameworkRecordsFor w c k (i + 1) rest

/-- The health checks of the port entries of a task, in order. -/
def portChecks (w : World) (c : ConsulBackend) (task : Task) (address : String) :
    List String → List AgentCheckRegistration
  | [] => []
  | port :: rest =>
    (match strconvAtoi port with
      | some p =>
        getHealthChecks w task
          (stringsJoin [c.ServicePrefix, mapStr c.SlaveIDHostname task.SlaveID, task.ID, port] ":")
          address p
      | none => [])
      ++ portChecks w c task address rest

/-- The health checks derived for a task. -/
def checkFanOut (w : World) (c : ConsulBackend) (task : Task) (address : String) :
    List AgentCheckRegistration :=
  if task.Ports = [] then
    getHealthChecks w task
      (stringsJoin [c.ServicePrefix, mapStr c.SlaveIDHostname task.SlaveID, task.ID] ":")
      address 0
  else portChecks w c task address task.Ports

/-- What one task adds to the current task records of the node id k. -/
def taskContribution (c : ConsulBackend) (task : Task) (k : String) :
    List AgentServiceRegistration :=
  if task.State = "TASK_RUNNING" ∧ task.SlaveID = k then
    match getAddress c task with
    | .ok address => fanOutRecords c task address
    | .error _ => []
  else []

/-- What one task adds to the current health checks of the node id k. -/
def checkContribution (w : World) (c : ConsulBackend) (task : Task) (k : String) :
    List AgentCheckRegistration :=
  if task.State = "TASK_RUNNING" ∧ task.SlaveID = k then
    match getAddress c task with
    | .ok address => checkFanOut w c task address
    | .error _ => []
  else []

/-- What a list of tasks adds to the current task records of the node id k. -/
def taskRecordsFor (c : ConsulBackend) (k : String) : List Task → List AgentServiceRegistration
  | [] => []
  | task :: rest => taskContribution c task k ++ taskRecordsFor c k rest

/-- What a list of tasks adds to the current health checks of the node id k. -/
def taskChecksFor (w : World) (c : ConsulBackend) (k : String) :
    List Task → List AgentCheckRegistration
  | [] => []
  | task :: rest => checkContribution w c task k ++ taskChecksFor w c k rest

/-- What the tasks of all frameworks add to the current task records of the
node id k. -/
def allTaskRecordsFor (c : ConsulBackend) (k : String) :
    List Framework → List AgentServiceRegistration
  | [] => []
  | framework :: rest => taskRecordsFor c k framework.Tasks ++ allTaskRecordsFor c k rest

/-- What the tasks of all frameworks add to the current health checks of the
node id k. -/
def allTaskChecksFor (w : World) (c : ConsulBackend) (k : String) :
    List Framework → List AgentCheckRegistration
  | [] => []
  | framework :: rest => taskChecksFor w c k framework.Tasks ++ allTaskChecksFor w c k rest

/-- Modelled from the spec: the character class `[A-Za-z0-9_-]`. -/
def inNameClass (c : Char) : Bool :=
  (65 ≤ c.toNat && c.toNat ≤ 90) || (97 ≤ c.toNat && c.toNat ≤ 122) ||
    (48 ≤ c.toNat && c.toNat ≤ 57) || c = '_' || c = '-'

/-- Modelled from the spec: the character class `[a-z0-9-]`. -/
def inLowerClass (c : Char) : Bool :=
  (97 ≤ c.toNat && c.toNat ≤ 122) || (48 ≤ c.toNat && c.toNat ≤ 57) || c = '-'

/-- Modelled from the spec: the name with each character outside
`[A-Za-z0-9_-]` replaced by a hyphen, then all underscores removed, then
lower-cased. -/
def sanitizedName (name : String) : String :=
  String.mk
    (((name.toList.map fun c => if inNameClass c then c else '-').filter
      fun c => c ≠ '_').map Char.toLower)

/-- Modelled from the spec: the tags of the record of a node, given the host
part of the leader address: the node-kind tag and the hostname up to its first
dot, then master for a node whose master attribute is true, then leader for a
node on the leader's host. -/
def nodeTags (leaderHost : String) (slave : Slave) : List String :=
  ["slave", String.mk (slave.Hostname.toList.takeWhile fun c => c ≠ '.')]
    ++ (if slave.Master = "true" then ["master"] else [])
    ++ (if slave.PID.Host = leaderHost then ["leader"] else [])

/-- Whether a call is one of the calls of `connectAgents`. -/
def isConnectCall : Call → Bool
  | Call.members => true
  | Call.self _ => true
  | Call.newClient _ => true
  | Call.clientSelf _ => true
  | _ => false

/-- The normal forms of the entries of a server list that parse, in order. -/
def normalisedIPs {α : Type} (parseIP : String → Option α) (ipString : α → String)
    (rs : List String) : List String :=
  rs.filterMap fun r => (parseIP r).map ipString

/-- Whether the first segment of a source names one of the five kinds of
`validateIPSources`. -/
def knownSource (src : String) : Prop :=
  (stringsSplit src ':').headD "" = "host" ∨ (stringsSplit src ':').headD "" = "docker" ∨
    (stringsSplit src ':').headD "" = "mesos" ∨ (stringsSplit src ':').headD "" = "netinfo" ∨
    (stringsSplit src ':').headD "" = "label"

/-! ## Example scenarios -/

/-- The backend `New` builds from the default configuration. -/
def freshBackend : ConsulBackend :=
  { AgentPort := "8500", Config := NewConfig, ServicePrefix := "mesos-dns" }

/-- An outside with two consul members, every call succeeding, nothing in
the key-value store and empty agent listings. -/
def twoMemberWorld : World :=
  { Members := fun _ =>
      some [{ Name := "old-host", Addr := "10.0.0.1" }, { Name := "new-host", Addr := "10.0.0.2" }] }

/-- A snapshot with the single node S1, on the host named old-host. -/
def snapshotOldHost : State :=
  { Leader := "master@10.0.0.9:5050",
    Slaves := [{ ID := "S1", Hostname := "old-host", PID := { Host := "10.0.0.1", Port := "5051" } }] }

/-- The next snapshot: the node S1 now runs on the host named new-host. -/
def snapshotNewHost : State :=
  { Leader := "master@10.0.0.9:5050",
    Slaves := [{ ID := "S1", Hostname := "new-host", PID := { Host := "10.0.0.2", Port := "5051" } }] }

/-- A backend before `Cleanup`, with one connected agent and one node record
in the current generation. -/
def oneAgentBackend : ConsulBackend :=
  { Agents := [("node1", "10.0.0.1:8500")], Config := { CacheOnly := true },
    ServicePrefix := "mesos-dns",
    SlaveHostnameID := [("node1", "S1")], SlaveIDHostname := [("S1", "node1")],
    MesosRecords := [("S1", { Current := [{ ID := "mesos-dns:S1", Name := "mesos" }],
                              Previous := [] })] }

/-- The backend `New` builds from the default configuration with the refresh
threshold 2. -/
def refreshTwoBackend : ConsulBackend :=
  { AgentPort := "8500", Config := { NewConfig with CacheRefresh := 2 },
    ServicePrefix := "mesos-dns" }

/-- A snapshot with the single node S1 on the host node1. -/
def snapshotNode1 : State :=
  { Leader := "master@10.0.0.9:5050",
    Slaves := [{ ID := "S1", Hostname := "node1", PID := { Host := "10.0.0.1", Port := "5051" } }] }

/-- An outside with the single consul member node1, whose agent lists the node
record of S1 and a service with the name-space prefix that the engine never
derived. -/
def strayWorld : World :=
  { Members := fun _ => some [{ Name := "node1", Addr := "10.0.0.1" }]
    Services := fun _ _ =>
      some [{ ID := "mesos-dns:S1", Service := "mesos", Tags := ["slave", "node1"],
              Port := 5051, Address := "10.0.0.1" },
            { ID := "mesos-dns:stray", Service := "stray" }] }

/-- A backend holding a snapshot of two nodes: a master on the leader's host
and a plain node. -/
def twoNodeBackend : ConsulBackend :=
  { ServicePrefix := "mesos-dns",
    State :=
      { Leader := "master@10.0.0.8:5050",
        Slaves :=
          [{ ID := "S1", Hostname := "m1.example.com", PID := { Host := "10.0.0.8", Port := "5051" },
             Master := "true" },
           { ID := "S2", Hostname := "n2.example.com", PID := { Host := "10.0.0.2", Port := "5051" } }] } }

/-- A backend holding a snapshot whose single node reports the port -1. -/
def negativePortBackend : ConsulBackend :=
  { ServicePrefix := "mesos-dns",
    State :=
      { Leader := "master@10.0.0.8:5050",
        Slaves := [{ ID := "S1", Hostname := "n1", PID := { Host := "10.0.0.1", Port := "-1" } }] } }

/-- A backend holding a snapshot of one node and no elected leader. -/
def noLeaderBackend : ConsulBackend :=
  { ServicePrefix := "mesos-dns",
    State :=
      { Leader := "",
        Slaves := [{ ID := "S1", Hostname := "n1", PID := { Host := "10.0.0.1", Port := "5051" } }] } }

/-- A backend after the node records of one node S1 on the host 10.0.0.1 named
node1, holding a snapshot with four frameworks: one on the host of S1, one on
an unknown host whose hostname is that of S1, one on an unknown host with an
unknown hostname, and an inactive one. -/
def frameworkBackend : ConsulBackend :=
  { ServicePrefix := "mesos-dns",
    SlaveIDIP := [("S1", "10.0.0.1")], SlaveIPID := [("10.0.0.1", "S1")],
    SlaveIDHostname := [("S1", "node1")], SlaveHostnameID := [("node1", "S1")],
    State :=
      { Leader := "master@10.0.0.8:5050",
        Frameworks :=
          [{ Name := "marathon", Hostname := "other.example.com",
             PID := { Host := "10.0.0.1", Port := "8080" }, Active := true },
           { Name := "chronos", Hostname := "node1.example.com",
             PID := { Host := "10.9.9.9", Port := "4400" }, Active := true },
           { Name := "lost", Hostname := "nowhere.example.com",
             PID := { Host := "10.9.9.8", Port := "4401" }, Active := true },
           { Name := "idle", Hostname := "node1.example.com",
             PID := { Host := "10.0.0.1", Port := "4402" }, Active := false }] } }

/-- An outside in which every service registration fails and every other call
succeeds. -/
def failingRegisterWorld : World :=
  { succeeds := fun _ call =>
      match call with
      | Call.serviceRegister _ _ => false
      | _ => true }

/-- A backend before `Register`, with one connected agent, one task record to
add for its node and one health check of that record to add. -/
def webBackend : ConsulBackend :=
  { Agents := [("node1", "10.0.0.1:8500")], ServicePrefix := "mesos-dns",
    SlaveHostnameID := [("node1", "S1")], SlaveIDHostname := [("S1", "node1")],
    TaskRecords :=
      [("S1", { Current := [{ ID := "mesos-dns:node1:web.1:80", Name := "web", Port := 80,
                              Address := "10.0.0.7" }],
                Previous := [] })],
    HealthChecks :=
      [("S1", { Current := [{ ID := "web-http:mesos-dns:node1:web.1:80", Name := "web-http",
                              ServiceID := "mesos-dns:node1:web.1:80",
                              HTTP := "http://10.0.0.7:80/health", Interval := "10s" }],
                Previous := [] })] }

/-- An outside with two consul members in which the agent of the second one,
new-host, does not answer. -/
def unreachableSecondWorld : World :=
  { Members := fun _ =>
      some [{ Name := "old-host", Addr := "10.0.0.1" }, { Name := "new-host", Addr := "10.0.0.2" }]
    succeeds := fun _ call =>
      !(call == Call.clientSelf "10.0.0.2:8500" || call == Call.self "10.0.0.2") }

/-- A snapshot in which only the plain node S2 of the two-node snapshot is
left. -/
def snapshotOnlyS2 : State :=
  { Leader := "master@10.0.0.8:5050",
    Slaves := [{ ID := "S2", Hostname := "n2.example.com", PID := { Host := "10.0.0.2", Port := "5051" } }] }

/-- A backend built like the one of `New`, with the drift check switched off
and the refresh threshold 1. -/
def cacheOnlyBackend : ConsulBackend :=
  { AgentPort := "8500", Config := { NewConfig with CacheOnly := true, CacheRefresh := 1 },
    ServicePrefix := "mesos-dns" }

/-- The configuration of `NewConfig` with a name-space prefix of its own. -/
def customPrefixConfig : Config :=
  { NewConfig with ServicePrefix := "custom" }

/-- An outside with the single consul member node1, every call succeeding and
empty agent listings. -/
def oneMemberWorld : World :=
  { Members := fun _ => some [{ Name := "node1", Addr := "10.0.0.1" }] }

/-- The snapshot of the node S1 on the host node1 after the master on the host
of S1 has become the leader. -/
def snapshotNode1Leads : State :=
  { Leader := "master@10.0.0.1:5050",
    Slaves := [{ ID := "S1", Hostname := "node1", PID := { Host := "10.0.0.1", Port := "5051" } }] }

/-- What `net.ParseIP` followed by `String` gives on the entries of the table
of `TestValidateExternalDNS`: the dotted quad and the two spellings of one
IPv6 address parse, the latter two to the same text, and nothing else of the
table does. -/
def tableParseIP (r : String) : Option String :=
  if r = "1.2.3.4" then some "1.2.3.4"
  else if r = "5.6.7.8" then some "5.6.7.8"
  else if r = "2001:0db8:3c4d:0015:0000:0000:1a2f:1a2b" then some "2001:db8:3c4d:15::1a2f:1a2b"
  else if r = "2001:db8:3c4d:15::1a2f:1a2b" then some "2001:db8:3c4d:15::1a2f:1a2b"
  else none

/-- The outside of `twoMemberWorld` in a cycle whose loops visit the hostname
map in the reverse of the order of insertion. -/
def reverseOrderWorld : World :=
  { twoMemberWorld with RangeOrder := fun _ m => m.reverse }

/-- A snapshot with the nodes S1 and S2 on the hosts of the two members and a
framework on a host of no node, whose hostname is that of S1. -/
def snapshotOwnedByHostname : State :=
  { Leader := "master@10.0.0.9:5050",
    Slaves :=
      [{ ID := "S1", Hostname := "old-host", PID := { Host := "10.0.0.1", Port := "5051" } },
       { ID := "S2", Hostname := "new-host", PID := { Host := "10.0.0.2", Port := "5051" } }],
    Frameworks :=
      [{ Name := "marathon", Hostname := "old-host.example.com",
         PID := { Host := "10.9.9.9", Port := "8080" }, Active := true }] }

/-- An outside whose key-value store holds the definition web-http of an HTTP
check with both placeholders. -/
def healthWorld : World :=
  { KVGet := fun key => if key = "healthchecks/web-http" then some "web-http.json" else none
    Unmarshal := fun value =>
      if value = "web-http.json" then
        some { ID := "web-http", Name := "web-http", HTTP := "http://\x7bIP\x7d:\x7bPORT\x7d/health",
               Interval := "10s" }
      else none }

/-- A running task with the ports 80 and 443 that refers to the definition
web-http and to a definition that is not stored. -/
def webTask : Task :=
  { ID := "web.1", Name := "web", SlaveID := "S1", State := "TASK_RUNNING",
    Labels := [{ Key := "ConsulHealthCheckKeys", Value := "web-http,missing" }],
    Ports := ["80", "443"], IP := fun _ => "10.0.0.7" }

/-- A backend that holds the snapshot of the node S2 alone and, in its four
identity maps, the entries of the node S1 of an earlier snapshot. -/
def staleBackend : ConsulBackend :=
  { ServicePrefix := "mesos-dns", State := snapshotOnlyS2,
    SlaveIDIP := [("S1", "10.0.0.8")], SlaveIPID := [("10.0.0.8", "S1")],
    SlaveIDHostname := [("S1", "m1")], SlaveHostnameID := [("m1", "S1")] }

/-! ## Properties -/

/-! ### Diffing -/

theorem foldl_append_if {α : Type} (p : α → Bool) (l init : List α) :
    l.foldl (fun delta x => if p x then delta ++ [x] else delta) init = init ++ l.filter p := by
  induction l generalizing init with
  | nil => simp
  | cons x xs ih =>
    simp only [List.foldl_cons, List.filter_cons]
    by_cases hx : p x = true
    · simp [hx, ih]
    · simp [hx, ih]

theorem tagFound_fold (otag : String) (ntags : List String) (b : Bool) :
    ntags.foldl (fun found ntag => if otag = ntag then true else found) b
      = (b || decide (otag ∈ ntags)) := by
  induction ntags generalizing b with
  | nil => simp
  | cons t ts ih =>
    simp only [List.foldl_cons, ih, List.mem_cons]
    by_cases h : otag = t
    · simp [h]
    · simp [h]

theorem tagFound_iff (otag : String) (ntags : List String) :
    tagFound otag ntags = true ↔ otag ∈ ntags := by
  unfold tagFound
  rw [tagFound_fold]
  simp

theorem tagsLoop_iff (ntags otags : List String) :
    tagsLoop ntags otags = true ↔ ∀ t ∈ otags, t ∈ ntags := by
  induction otags with
  | nil => simp [tagsLoop]
  | cons t ts ih =>
    by_cases h : tagFound t ntags = true
    · have h1 := (tagFound_iff t ntags).1 h
      simp [tagsLoop, h, ih, h1]
    · have h1 : t ∉ ntags := fun hm => h ((tagFound_iff t ntags).2 hm)
      simp [tagsLoop, h, h1]

/-- What `compareService` computes: equal ID, Name, Address and Port, tag
lists of equal length, and every tag of the old service among the tags of the
new one. -/
theorem compareService_iff (a b : AgentServiceRegistration) :
    compareService a b = true ↔
      a.ID = b.ID ∧ a.Name = b.Name ∧ a.Address = b.Address ∧ a.Port = b.Port ∧
        a.Tags.length = b.Tags.length ∧ ∀ t ∈ b.Tags, t ∈ a.Tags := by
  unfold compareService
  by_cases h1 : a.ID = b.ID <;> by_cases h2 : a.Name = b.Name <;>
    by_cases h3 : a.Address = b.Address <;> by_cases h4 : a.Port = b.Port <;>
    by_cases h5 : a.Tags.length = b.Tags.length <;>
    simp [h1, h2, h3, h4, h5, tagsLoop_iff]

theorem compareService_self (a : AgentServiceRegistration) : compareService a a = true := by
  simp [compareService_iff]

theorem serviceFound_eq_any (s : AgentServiceRegistration)
    (old : List AgentServiceRegistration) :
    serviceFound s old = old.any (fun e => compareService s e) := by
  induction old with
  | nil => simp [serviceFound]
  | cons e es ih =>
    by_cases h : compareService s e = true
    · simp [serviceFound, h]
    · simp [serviceFound, h, ih]

theorem getDeltaServices_filter (old new : List AgentServiceRegistration) :
    getDeltaServices old new
      = new.filter (fun s => !(old.any (fun e => compareService s e))) := by
  unfold getDeltaServices
  rw [foldl_append_if (fun s => !serviceFound s old) new []]
  simp [serviceFound_eq_any]

theorem getDeltaServices_self (xs : List AgentServiceRegistration) :
    getDeltaServices xs xs = [] := by
  rw [getDeltaServices_filter, List.filter_eq_nil_iff]
  intro s hs
  simp only [Bool.not_eq_true, Bool.not_eq_false_eq_eq_true, Bool.not_not, List.any_eq_true]
  exact ⟨s, hs, compareService_self s⟩

theorem compareCheck_iff (a b : AgentCheckRegistration) :
    compareCheck a b = true ↔
      a.ID = b.ID ∧ a.Name = b.Name ∧ a.ServiceID = b.ServiceID ∧
        a.toAgentServiceCheck = b.toAgentServiceCheck := by
  unfold compareCheck
  by_cases h1 : a.ID = b.ID <;> by_cases h2 : a.Name = b.Name <;>
    by_cases h3 : a.ServiceID = b.ServiceID <;>
    by_cases h4 : a.toAgentServiceCheck = b.toAgentServiceCheck <;>
    simp [h1, h2, h3, h4]

theorem compareCheck_self (a : AgentCheckRegistration) : compareCheck a a = true := by
  simp [compareCheck_iff]

theorem checkFound_purge (n : AgentCheckRegistration) (old : List AgentCheckRegistration) :
    checkFound "purge" n old = old.any (fun o => decide (n.ID = o.ID)) := by
  induction old with
  | nil => simp [checkFound]
  | cons o os ih =>
    by_cases h : n.ID = o.ID
    · by_cases hc : compareCheck n o = true <;> simp [checkFound, h, hc]
    · have hc : compareCheck n o = false := by
        cases hcc : compareCheck n o with
        | false => rfl
        | true => exact absurd ((compareCheck_iff n o).1 hcc).1 h
      simp [checkFound, h, hc, ih]

theorem checkFound_other (context : String) (hctx : context ≠ "purge")
    (n : AgentCheckRegistration) (old : List AgentCheckRegistration) :
    checkFound context n old = old.any (fun o => compareCheck n o) := by
  induction old with
  | nil => simp [checkFound]
  | cons o os ih =>
    by_cases hc : compareCheck n o = true
    · simp [checkFound, hc]
    · simp [checkFound, hc, hctx, ih]

theorem getDeltaChecks_filter (old new : List AgentCheckRegistration) (context : String) :
    getDeltaChecks old new context = new.filter (fun n => !checkFound context n old) := by
  unfold getDeltaChecks
  rw [foldl_append_if (fun n => !checkFound context n old) new []]
  simp

theorem getDeltaChecks_self (ys : List AgentCheckRegistration) (context : String) :
    getDeltaChecks ys ys context = [] := by
  rw [getDeltaChecks_filter, List.filter_eq_nil_iff]
  intro n hn
  have hfound : ∀ l : List AgentCheckRegistration, n ∈ l → checkFound context n l = true := by
    intro l
    induction l with
    | nil => simp
    | cons o os ih =>
      intro hmem
      by_cases hc : compareCheck n o = true
      · simp [checkFound, hc]
      · have hne : n ≠ o := fun h => hc (h ▸ compareCheck_self n)
        have hin : n ∈ os := by
          rcases List.mem_cons.1 hmem with h | h
          · exact absurd h hne
          · exact h
        by_cases hp : context = "purge" ∧ n.ID = o.ID
        · simp [checkFound, hc, hp]
        · simp only [checkFound, hc, hp]
          simpa using ih hin
  simp [hfound ys hn]

/-- C1: `getDeltaServices old new` is the sub-list of `new` (order and
multiplicity kept) of the services that `compareService` matches with no
element of `old`; so `getDeltaServices previous current` is the addition set
and `getDeltaServices current previous` the removal set. -/
theorem C1_getDeltaServices_is_unmatched_sublist (old new : List AgentServiceRegistration) :
    getDeltaServices old new
        = new.filter (fun s => decide (∀ e ∈ old, compareService s e = false)) ∧
      List.Sublist (getDeltaServices old new) new ∧
      ∀ s, s ∈ getDeltaServices old new ↔ s ∈ new ∧ ∀ e ∈ old, compareService s e = false := by
  have hfil : getDeltaServices old new
      = new.filter (fun s => decide (∀ e ∈ old, compareService s e = false)) := by
    rw [getDeltaServices_filter]
    apply List.filter_congr
    intro s _
    by_cases h : ∀ e ∈ old, compareService s e = false
    · have ha : old.any (fun e => compareService s e) = false := by
        rw [List.any_eq_false]
        intro e he
        simp [h e he]
      rw [ha, decide_eq_true h]
      rfl
    · have h2 : ∃ e ∈ old, compareService s e = true := by
        simpa using h
      have ha : old.any (fun e => compareService s e) = true := by
        rw [List.any_eq_true]
        exact h2
      rw [ha, decide_eq_false h]
      rfl
  refine ⟨hfil, ?_, ?_⟩
  · rw [hfil]
    exact List.filter_sublist new
  · intro s
    rw [hfil]
    simp [List.mem_filter]

theorem not_any_eq_decide {α : Type} (l : List α) (p : α → Bool) (q : α → Prop)
    [DecidablePred q] (h : ∀ x, p x = true ↔ q x) :
    (!l.any p) = decide (∀ x ∈ l, ¬ q x) := by
  by_cases hall : ∀ x ∈ l, ¬ q x
  · have ha : l.any p = false := by
      rw [List.any_eq_false]
      intro x hx hp
      exact hall x hx ((h x).1 hp)
    rw [ha, decide_eq_true hall]
    rfl
  · have ha : l.any p = true := by
      rw [List.any_eq_true]
      have h2 : ∃ x ∈ l, q x := by
        simpa using hall
      obtain ⟨x, hx, hq⟩ := h2
      exact ⟨x, hx, (h x).2 hq⟩
    rw [ha, decide_eq_false hall]
    rfl

/-- C3, counterexample: two services that agree on ID, Name, Address and Port
and whose tag lists are equal as sets, and that `compareService` does not
match, because the tag lists differ in length. -/
theorem C3_counterexample_equal_tag_sets_not_matched :
    ∃ a b : AgentServiceRegistration,
      a = { ID := "s", Tags := ["x"] } ∧ b = { ID := "s", Tags := ["x", "x"] } ∧
      (a.ID = b.ID ∧ a.Name = b.Name ∧ a.Address = b.Address ∧ a.Port = b.Port ∧
        (∀ t ∈ a.Tags, t ∈ b.Tags) ∧ (∀ t ∈ b.Tags, t ∈ a.Tags)) ∧
      compareService a b = false :=
  ⟨{ ID := "s", Tags := ["x"] }, { ID := "s", Tags := ["x", "x"] }, rfl, rfl,
    by decide, by decide⟩

/-- C3, amended: for services whose tag lists have no duplicate,
`compareService a b` is true exactly when ID, Name, Address and Port are equal
and the tag lists are equal as sets. -/
theorem C3_compareService_iff_set_equal_of_nodup (a b : AgentServiceRegistration)
    (ha : a.Tags.Nodup) (hb : b.Tags.Nodup) :
    compareService a b = true ↔
      a.ID = b.ID ∧ a.Name = b.Name ∧ a.Address = b.Address ∧ a.Port = b.Port ∧
        (∀ t ∈ a.Tags, t ∈ b.Tags) ∧ (∀ t ∈ b.Tags, t ∈ a.Tags) := by
  rw [compareService_iff]
  constructor
  · rintro ⟨h1, h2, h3, h4, hlen, hsub⟩
    refine ⟨h1, h2, h3, h4, ?_, hsub⟩
    have hsp : List.Subperm b.Tags a.Tags := List.subperm_of_subset hb hsub
    have hperm : List.Perm b.Tags a.Tags := hsp.perm_of_length_le (le_of_eq hlen)
    intro t ht
    exact hperm.symm.subset ht
  · rintro ⟨h1, h2, h3, h4, hab, hba⟩
    refine ⟨h1, h2, h3, h4, ?_, hba⟩
    have h5 : a.Tags.length ≤ b.Tags.length := (List.subperm_of_subset ha hab).length_le
    have h6 : b.Tags.length ≤ a.Tags.length := (List.subperm_of_subset hb hba).length_le
    exact le_antisymm h5 h6

/-- C3, amended, at a concrete pair of services whose tags are in different
orders. -/
theorem C3_compareService_iff_set_equal_of_nodup_witness :
    (["a", "b"] : List String).Nodup ∧ (["b", "a"] : List String).Nodup ∧
      compareService { ID := "s", Name := "n", Tags := ["a", "b"] }
        { ID := "s", Name := "n", Tags := ["b", "a"] } = true :=
  ⟨by decide, by decide,
    (C3_compareService_iff_set_equal_of_nodup
      { ID := "s", Name := "n", Tags := ["a", "b"] }
      { ID := "s", Name := "n", Tags := ["b", "a"] } (by decide) (by decide)).2 (by decide)⟩

/-- C4: in purge mode `getDeltaChecks cur prev "purge"` is the sub-list of
`prev` of the checks whose ID is the ID of no check of `cur`; so it holds no
check whose ID occurs in `cur`, whatever the other fields are. -/
theorem C4_getDeltaChecks_purge_by_id (cur prev : List AgentCheckRegistration) :
    getDeltaChecks cur prev "purge"
        = prev.filter (fun n => decide (∀ o ∈ cur, ¬ n.ID = o.ID)) ∧
      ∀ hc ∈ getDeltaChecks cur prev "purge", ∀ o ∈ cur, hc.ID ≠ o.ID := by
  have hfil : getDeltaChecks cur prev "purge"
      = prev.filter (fun n => decide (∀ o ∈ cur, ¬ n.ID = o.ID)) := by
    rw [getDeltaChecks_filter]
    apply List.filter_congr
    intro n _
    rw [checkFound_purge]
    exact not_any_eq_decide cur (fun o => decide (n.ID = o.ID)) (fun o => n.ID = o.ID)
      (fun o => by simp)
  refine ⟨hfil, ?_⟩
  intro hc hmem o ho
  rw [hfil, List.mem_filter] at hmem
  exact (of_decide_eq_true hmem.2) o ho

/-- C5: in add mode `getDeltaChecks prev cur "add"` is the sub-list of `cur`
of the checks with no counterpart in `prev` equal in ID, Name, ServiceID and
payload; a check of `cur` whose payload differs from that of every check of
`prev` is in the result, also when its ID occurs in `prev`. -/
theorem C5_getDeltaChecks_add_by_fields (prev cur : List AgentCheckRegistration) :
    getDeltaChecks prev cur "add"
        = cur.filter (fun n => decide (∀ o ∈ prev,
            ¬ (n.ID = o.ID ∧ n.Name = o.Name ∧ n.ServiceID = o.ServiceID ∧
              n.toAgentServiceCheck = o.toAgentServiceCheck))) ∧
      ∀ n ∈ cur, (∀ o ∈ prev, n.toAgentServiceCheck ≠ o.toAgentServiceCheck) →
        n ∈ getDeltaChecks prev cur "add" := by
  have hfil : getDeltaChecks prev cur "add"
      = cur.filter (fun n => decide (∀ o ∈ prev,
          ¬ (n.ID = o.ID ∧ n.Name = o.Name ∧ n.ServiceID = o.ServiceID ∧
            n.toAgentServiceCheck = o.toAgentServiceCheck))) := by
    rw [getDeltaChecks_filter]
    apply List.filter_congr
    intro n _
    rw [checkFound_other "add" (by decide)]
    exact not_any_eq_decide prev (fun o => compareCheck n o)
      (fun o => n.ID = o.ID ∧ n.Name = o.Name ∧ n.ServiceID = o.ServiceID ∧
        n.toAgentServiceCheck = o.toAgentServiceCheck)
      (fun o => compareCheck_iff n o)
  refine ⟨hfil, ?_⟩
  intro n hn hdiff
  rw [hfil, List.mem_filter]
  refine ⟨hn, decide_eq_true ?_⟩
  intro o ho hall
  exact hdiff o ho hall.2.2.2

/-! ### Address resolution -/

theorem lookupSwitch_wellFormed (task : Task) (lookup : String)
    (hwf : (stringsSplit lookup ':').headD "" = "label" → (stringsSplit lookup ':').length = 2) :
    lookupSwitch task lookup "" = .ok (sourceAddress task lookup) := by
  unfold lookupSwitch sourceAddress
  simp only []
  generalize (stringsSplit lookup ':').headD "" = key at hwf ⊢
  by_cases h1 : key = "mesos"
  · subst h1
    simp
  by_cases h2 : key = "docker"
  · subst h2
    simp
  by_cases h3 : key = "netinfo"
  · subst h3
    simp
  by_cases h4 : key = "host"
  · subst h4
    simp
  by_cases h5 : key = "label"
  · have h6 := hwf h5
    subst h5
    simp only [h6]
    cases hA : task.StatusIPs ((stringsSplit lookup ':').getD 1 "") with
    | nil => simp
    | cons x xs => simp
  · simp [h1, h2, h3, h4, h5]

theorem getAddressLoop_wellFormed (task : Task) (sources : List String)
    (hwf : ∀ lookup ∈ sources,
      (stringsSplit lookup ':').headD "" = "label" → (stringsSplit lookup ':').length = 2) :
    getAddressLoop task sources ""
      = .ok ((firstNonEmpty (sources.map (sourceAddress task))).getD "") := by
  induction sources with
  | nil => simp [getAddressLoop, firstNonEmpty]
  | cons lookup rest ih =>
    have h1 := lookupSwitch_wellFormed task lookup (hwf lookup (List.mem_cons_self _ _))
    have h2 := ih (fun l hl => hwf l (List.mem_cons_of_mem _ hl))
    by_cases hne : sourceAddress task lookup = ""
    · simp [getAddressLoop, h1, hne, firstNonEmpty, h2]
    · simp [getAddressLoop, h1, hne, firstNonEmpty]

theorem firstNonEmpty_ne (l : List String) (a : String) (h : firstNonEmpty l = some a) :
    a ≠ "" := by
  induction l with
  | nil => simp [firstNonEmpty] at h
  | cons x xs ih =>
    by_cases hx : x = ""
    · simp [firstNonEmpty, hx] at h
      exact ih h
    · simp [firstNonEmpty, hx] at h
      exact h ▸ hx

theorem getAddress_wellFormed (c : ConsulBackend) (task : Task)
    (hwf : ∀ lookup ∈ c.IPSources,
      (stringsSplit lookup ':').headD "" = "label" → (stringsSplit lookup ':').length = 2) :
    getAddress c task = .ok (resolvedAddress c task) := by
  unfold getAddress resolvedAddress
  rw [getAddressLoop_wellFormed task c.IPSources hwf]
  cases hf : firstNonEmpty (c.IPSources.map (sourceAddress task)) with
  | none => simp
  | some a =>
    have hne := firstNonEmpty_ne _ a hf
    simp [hne]

/-- C6, counterexample: with the preference list `["label"]` the resolver
reaches its fatal branch and returns no address. -/
theorem C6_counterexample_label_without_name :
    getAddress { IPSources := ["label"] } {} = .error Crash.fatal := by
  decide

/-- C6, amended: when every `label` entry of the preference list has exactly
two segments, `getAddress` returns the address of the first entry in list
order that yields a non-empty address, and the host address recorded for the
task's node when no entry does; with the order docker, host a task with a
docker address gets it, and a task with only a host address gets that one. -/
theorem C6_getAddress_first_non_empty (c : ConsulBackend) (task : Task)
    (hwf : ∀ lookup ∈ c.IPSources,
      (stringsSplit lookup ':').headD "" = "label" → (stringsSplit lookup ':').length = 2) :
    getAddress c task = .ok (resolvedAddress c task) ∧
      (firstNonEmpty (c.IPSources.map (sourceAddress task)) = none →
        getAddress c task = .ok (mapStr c.SlaveIDIP task.SlaveID)) ∧
      (c.IPSources = ["docker", "host"] → task.IP "docker" ≠ "" →
        getAddress c task = .ok (task.IP "docker")) ∧
      (c.IPSources = ["docker", "host"] → task.IP "docker" = "" → task.IP "host" ≠ "" →
        getAddress c task = .ok (task.IP "host")) := by
  have hmain := getAddress_wellFormed c task hwf
  refine ⟨hmain, ?_, ?_, ?_⟩
  · intro hnone
    rw [hmain]
    simp [resolvedAddress, hnone]
  · intro hsrc hd
    rw [hmain]
    have e1 : sourceAddress task "docker" = task.IP "docker" := by
      simp [sourceAddress, show stringsSplit "docker" ':' = ["docker"] by decide]
    simp [resolvedAddress, hsrc, firstNonEmpty, e1, hd]
  · intro hsrc hd hh
    rw [hmain]
    have e1 : sourceAddress task "docker" = task.IP "docker" := by
      simp [sourceAddress, show stringsSplit "docker" ':' = ["docker"] by decide]
    have e2 : sourceAddress task "host" = task.IP "host" := by
      simp [sourceAddress, show stringsSplit "host" ':' = ["host"] by decide]
    simp [resolvedAddress, hsrc, firstNonEmpty, e1, e2, hd, hh]

/-- C6, amended, at the order docker, host and a task that has only a host
address. -/
theorem C6_getAddress_first_non_empty_witness :
    (∀ lookup ∈ (["docker", "host"] : List String),
      (stringsSplit lookup ':').headD "" = "label" → (stringsSplit lookup ':').length = 2) ∧
    getAddress { IPSources := ["docker", "host"] }
        { IP := fun src => if src = "host" then "10.0.0.7" else "" }
      = .ok "10.0.0.7" :=
  ⟨by decide,
    ((C6_getAddress_first_non_empty { IPSources := ["docker", "host"] }
      { IP := fun src => if src = "host" then "10.0.0.7" else "" } (by decide)).2.2.2
      rfl (by decide) (by decide))⟩

/-! ### Maps and buckets -/

theorem mapGet?_mapSet {V : Type} (m : GoMap V) (k k' : String) (v : V) :
    mapGet? (mapSet m k v) k' = if k = k' then some v else mapGet? m k' := by
  induction m with
  | nil => simp [mapSet, mapGet?]
  | cons e rest ih =>
    obtain ⟨k1, v1⟩ := e
    by_cases h1 : k1 = k
    · subst h1
      by_cases h2 : k1 = k'
      · simp [mapSet, mapGet?, h2]
      · simp [mapSet, mapGet?, h2]
    · by_cases h2 : k1 = k'
      · subst h2
        have h3 : ¬ k = k1 := fun h => h1 h.symm
        simp [mapSet, mapGet?, h1, h3]
      · simp [mapSet, mapGet?, h1, h2, ih]

theorem mapGet?_ensureRecords (m : GoMap ConsulRecords) (k k' : String) :
    mapGet? (ensureRecords m k) k'
      = if k = k' then some ((mapGet? m k).getD {}) else mapGet? m k' := by
  unfold ensureRecords mapHas
  cases h : mapGet? m k with
  | none => simp [mapGet?_mapSet]
  | some b =>
    by_cases hk : k = k'
    · subst hk
      simp [h]
    · simp [hk]

theorem mapGet?_ensureChecks (m : GoMap ConsulChecks) (k k' : String) :
    mapGet? (ensureChecks m k) k'
      = if k = k' then some ((mapGet? m k).getD {}) else mapGet? m k' := by
  unfold ensureChecks mapHas
  cases h : mapGet? m k with
  | none => simp [mapGet?_mapSet]
  | some b =>
    by_cases hk : k = k'
    · subst hk
      simp [h]
    · simp [hk]

theorem mapGet?_appendCurrent (m : GoMap ConsulRecords) (k k' : String)
    (recs : List AgentServiceRegistration) :
    mapGet? (appendCurrent m k recs) k'
      = if k = k' then (mapGet? m k).map (fun b => { b with Current := b.Current ++ recs })
        else mapGet? m k' := by
  unfold appendCurrent
  cases h : mapGet? m k with
  | none =>
    by_cases hk : k = k'
    · subst hk
      simp [h]
    · simp [hk]
  | some b => simp [mapGet?_mapSet]

theorem mapGet?_appendCurrentChecks (m : GoMap ConsulChecks) (k k' : String)
    (hcs : List AgentCheckRegistration) :
    mapGet? (appendCurrentChecks m k hcs) k'
      = if k = k' then (mapGet? m k).map (fun b => { b with Current := b.Current ++ hcs })
        else mapGet? m k' := by
  unfold appendCurrentChecks
  cases h : mapGet? m k with
  | none =>
    by_cases hk : k = k'
    · subst hk
      simp [h]
    · simp [hk]
  | some b => simp [mapGet?_mapSet]

theorem createService_eq (id name address : String) (port : Int) (tags : List String) :
    createService id name address port tags
      = { ID := id, Name := serviceName name, Tags := tags,
          Port := if port > 0 then port else 0, Address := address } := by
  unfold createService serviceName
  by_cases h : port > 0
  · simp [h]
  · simp [h]

theorem stringsJoin_three (a b c sep : String) :
    stringsJoin [a, b, c] sep = a ++ sep ++ b ++ sep ++ c := by
  simp [stringsJoin, String.append_assoc]

theorem stringsJoin_four (a b c d sep : String) :
    stringsJoin [a, b, c, d] sep = a ++ sep ++ b ++ sep ++ c ++ sep ++ d := by
  simp [stringsJoin, String.append_assoc]

/-! ### Task records -/

theorem portStep_frame (w : World) (task : Task) (address : String) (c : ConsulBackend)
    (port : String) :
    eraseTaskBuckets (portStep w task address c port) = eraseTaskBuckets c := by
  unfold portStep
  cases strconvAtoi port <;> rfl

theorem portsFold_frame (w : World) (task : Task) (address : String) (ports : List String)
    (c : ConsulBackend) :
    eraseTaskBuckets (ports.foldl (portStep w task address) c) = eraseTaskBuckets c := by
  induction ports generalizing c with
  | nil => rfl
  | cons port rest ih =>
    rw [List.foldl_cons, ih, portStep_frame]

theorem portRecord_congr (c1 c2 : ConsulBackend) (task : Task) (address : String)
    (h : eraseTaskBuckets c1 = eraseTaskBuckets c2) :
    portRecord c1 task address = portRecord c2 task address := by
  have h1 : c1.ServicePrefix = c2.ServicePrefix := by
    have h3 := congrArg ConsulBackend.ServicePrefix h
    exact h3
  have h2 : c1.SlaveIDHostname = c2.SlaveIDHostname := by
    have h3 := congrArg ConsulBackend.SlaveIDHostname h
    exact h3
  funext port
  simp [portRecord, taskBaseID, h1, h2]

theorem portStep_records (w : World) (task : Task) (address : String) (c : ConsulBackend)
    (port : String) (k : String) :
    mapGet? (portStep w task address c port).TaskRecords k
      = if task.SlaveID = k then
          (mapGet? c.TaskRecords task.SlaveID).map (fun b =>
            { b with Current := b.Current ++ [port].filterMap (portRecord c task address) })
        else mapGet? c.TaskRecords k := by
  unfold portStep portRecord
  cases hp : strconvAtoi port with
  | none =>
    by_cases hk : task.SlaveID = k
    · subst hk
      cases hg : mapGet? c.TaskRecords task.SlaveID <;> simp [hp, hg]
    · simp [hk]
  | some p =>
    simp only [mapGet?_appendCurrent, createService_eq, stringsJoin_four, taskBaseID]
    by_cases hk : task.SlaveID = k
    · simp [hk, hp]
    · simp [hk]

theorem portsFold_records (w : World) (task : Task) (address : String) (ports : List String)
    (c : ConsulBackend) (k : String) :
    mapGet? (ports.foldl (portStep w task address) c).TaskRecords k
      = if task.SlaveID = k then
          (mapGet? c.TaskRecords task.SlaveID).map (fun b =>
            { b with Current := b.Current ++ ports.filterMap (portRecord c task address) })
        else mapGet? c.TaskRecords k := by
  induction ports generalizing c with
  | nil =>
    by_cases hk : task.SlaveID = k
    · subst hk
      cases hg : mapGet? c.TaskRecords task.SlaveID <;> simp [hg]
    · simp [hk]
  | cons port rest ih =>
    rw [List.foldl_cons, ih]
    rw [portRecord_congr _ c task address (portStep_frame w task address c port)]
    by_cases hk : task.SlaveID = k
    · subst hk
      simp only [portStep_records, if_true]
      cases hg : mapGet? c.TaskRecords task.SlaveID with
      | none => simp
      | some b =>
        cases hpr : portRecord c task address port <;>
          simp [List.filterMap_cons, hpr]
    · simp [portStep_records, hk]

theorem taskStep_records (w : World) (c : ConsulBackend) (task : Task) (address : String)
    (hrun : task.State = "TASK_RUNNING") (haddr : getAddress c task = .ok address) :
    ∃ c1, taskStep w c task = .ok c1 ∧
      eraseTaskBuckets c1 = eraseTaskBuckets c ∧
      ∀ k, mapGet? c1.TaskRecords k
        = if task.SlaveID = k then
            some { Current := currentRecords c.TaskRecords task.SlaveID
                                ++ fanOutRecords c task address,
                   Previous := previousRecords c.TaskRecords task.SlaveID }
          else mapGet? c.TaskRecords k := by
  unfold taskStep
  simp only [hrun, haddr]
  by_cases hports : task.Ports = []
  · simp only [hports, List.length_nil, ne_eq, not_true_eq_false, if_false, if_true]
    refine ⟨_, rfl, rfl, ?_⟩
    intro k
    simp only [mapGet?_appendCurrent, mapGet?_ensureRecords, createService_eq,
      stringsJoin_three, fanOutRecords, hports, currentRecords, previousRecords, taskBaseID]
    by_cases hk : task.SlaveID = k
    · cases hg : mapGet? c.TaskRecords task.SlaveID <;> simp [hk]
    · simp [hk]
  · have hlen : ¬ task.Ports.length = 0 := by
      simpa [List.length_eq_zero] using hports
    simp only [hlen, ne_eq, not_true_eq_false, if_false]
    refine ⟨_, rfl, ?_, ?_⟩
    · rw [portsFold_frame]
      rfl
    · intro k
      rw [portsFold_records]
      rw [portRecord_congr _ c task address (by rfl)]
      simp only [mapGet?_ensureRecords, fanOutRecords, hports, currentRecords, previousRecords]
      by_cases hk : task.SlaveID = k
      · cases hg : mapGet? c.TaskRecords task.SlaveID <;> simp [hk]
      · simp [hk]

/-- C7: for a running task whose address resolves, `generateTaskRecords`
appends to the Current list of the task's node bucket the port fan-out and
nothing else: one record with Port 0 and ID prefix:shortHostname:taskId when
the port list is empty, and otherwise one record per port entry that parses,
in order, with ID prefix:shortHostname:taskId:port and the parsed port when
it is positive. Ports 80 and 443 give two records, with IDs ending in :80 and
:443. -/
theorem C7_port_fan_out (w : World) (c : ConsulBackend) (task : Task) (address : String)
    (hrun : task.State = "TASK_RUNNING") (haddr : getAddress c task = .ok address) :
    ∃ c1, generateTaskRecords w c [task] = .ok c1 ∧
      currentRecords c1.TaskRecords task.SlaveID
        = currentRecords c.TaskRecords task.SlaveID ++ fanOutRecords c task address ∧
      previousRecords c1.TaskRecords task.SlaveID = previousRecords c.TaskRecords task.SlaveID ∧
      (∀ k, k ≠ task.SlaveID → mapGet? c1.TaskRecords k = mapGet? c.TaskRecords k) ∧
      (task.Ports = [] →
        fanOutRecords c task address
          = [{ ID := c.ServicePrefix ++ ":" ++ mapStr c.SlaveIDHostname task.SlaveID
                      ++ ":" ++ task.ID,
               Name := serviceName task.Name,
               Tags := [mapStr c.SlaveIDHostname task.SlaveID], Port := 0,
               Address := address }]) ∧
      (task.Ports ≠ [] →
        fanOutRecords c task address
          = task.Ports.filterMap fun port =>
              (strconvAtoi port).map fun p =>
                { ID := c.ServicePrefix ++ ":" ++ mapStr c.SlaveIDHostname task.SlaveID
                          ++ ":" ++ task.ID ++ ":" ++ port,
                  Name := serviceName task.Name,
                  Tags := [mapStr c.SlaveIDHostname task.SlaveID],
                  Port := if p > 0 then p else 0, Address := address }) ∧
      (task.Ports = ["80", "443"] →
        (fanOutRecords c task address).map (fun r => (r.ID, r.Port))
          = [(c.ServicePrefix ++ ":" ++ mapStr c.SlaveIDHostname task.SlaveID
                ++ ":" ++ task.ID ++ ":" ++ "80", 80),
             (c.ServicePrefix ++ ":" ++ mapStr c.SlaveIDHostname task.SlaveID
                ++ ":" ++ task.ID ++ ":" ++ "443", 443)]) := by
  obtain ⟨c1, hstep, _, hrec⟩ := taskStep_records w c task address hrun haddr
  refine ⟨c1, by simp [generateTaskRecords, hstep], ?_, ?_, ?_, ?_, ?_, ?_⟩
  · simp [currentRecords, hrec]
  · simp [previousRecords, hrec]
  · intro k hk
    rw [hrec k]
    simp [Ne.symm hk]
  · intro hports
    simp [fanOutRecords, hports, taskBaseID]
  · intro hports
    simp only [fanOutRecords, hports, if_false]
    rfl
  · intro hports
    have h80 : strconvAtoi "80" = some 80 := by decide
    have h443 : strconvAtoi "443" = some 443 := by decide
    simp [fanOutRecords, hports, portRecord, h80, h443, taskBaseID]

/-- C7 at a running task with the ports 80 and 443 on a backend with the
preference order docker, host. -/
theorem C7_port_fan_out_witness :
    ("TASK_RUNNING" = "TASK_RUNNING") ∧
    ∃ c1, generateTaskRecords {}
        { ServicePrefix := "mesos-dns", IPSources := ["docker", "host"],
          SlaveIDHostname := [("S1", "node1")] }
        [{ ID := "web.1", Name := "web", SlaveID := "S1", State := "TASK_RUNNING",
           Ports := ["80", "443"], IP := fun _ => "10.0.0.7" }] = .ok c1 ∧
      (currentRecords c1.TaskRecords "S1").map (fun r => (r.ID, r.Port))
        = [("mesos-dns:node1:web.1:80", 80), ("mesos-dns:node1:web.1:443", 443)] := by
  refine ⟨rfl, ?_⟩
  obtain ⟨c1, h1, h2, _, _, _, _, h7⟩ :=
    C7_port_fan_out {}
      { ServicePrefix := "mesos-dns", IPSources := ["docker", "host"],
        SlaveIDHostname := [("S1", "node1")] }
      { ID := "web.1", Name := "web", SlaveID := "S1", State := "TASK_RUNNING",
        Ports := ["80", "443"], IP := fun _ => "10.0.0.7" } "10.0.0.7" rfl (by decide)
  refine ⟨c1, h1, ?_⟩
  rw [h2]
  have h8 := h7 rfl
  simpa [currentRecords, mapGet?] using h8

/-! ### Two-tier removal -/

theorem twoTierLoop_spec (w : World) (agentCall catalogCall : String → Call)
    (hinj : ∀ a b, agentCall a = agentCall b → a = b)
    (hagent : ∀ id, isCatalogCall (agentCall id) = false)
    (hcat : ∀ id, ∃ dereg, catalogCall id = Call.catalogDeregister dereg)
    (ids : List String) (tr : List Call) :
    ∃ new, twoTierLoop w agentCall catalogCall ids tr = tr ++ new ∧
      TwoTier w tr agentCall catalogCall ids new ∧
      ∀ dereg rest, new ≠ Call.catalogDeregister dereg :: rest := by
  have hne : ∀ id dereg, agentCall id ≠ Call.catalogDeregister dereg := by
    intro id dereg h
    have h1 := hagent id
    rw [h] at h1
    simp [isCatalogCall] at h1
  have hcatB : ∀ id, isCatalogCall (catalogCall id) = true := by
    intro id
    obtain ⟨dereg, hd⟩ := hcat id
    rw [hd]
    rfl
  induction ids generalizing tr with
  | nil =>
    refine ⟨[], by simp [twoTierLoop], ⟨by simp, ?_, ?_⟩, by simp⟩
    · intro pre id post h
      simp at h
    · intro pre dereg post h
      simp at h
  | cons id rest ih =>
    by_cases hs : w.succeeds tr (agentCall id) = true
    · obtain ⟨new1, heq, ⟨ha, hb, hc⟩, hhead⟩ := ih (tr ++ [agentCall id])
      refine ⟨agentCall id :: new1, ?_, ⟨?_, ?_, ?_⟩, ?_⟩
      · simp [twoTierLoop, hs, heq]
      · simp [List.filter_cons, hagent, ha]
      · intro pre id1 post hsplit
        cases pre with
        | nil =>
          simp only [List.nil_append, List.cons.injEq] at hsplit
          obtain ⟨h1, h2⟩ := hsplit
          have hid : id = id1 := hinj _ _ h1
          subst hid
          constructor
          · intro hf
            simp [hs] at hf
          · rintro ⟨post1, hp⟩
            obtain ⟨dereg, hd⟩ := hcat id
            rw [← h2, hd] at hp
            exact absurd hp (hhead dereg post1)
        | cons x pre1 =>
          simp only [List.cons_append, List.cons.injEq] at hsplit
          obtain ⟨h1, h2⟩ := hsplit
          have h3 := hb pre1 id1 post h2
          subst h1
          simpa using h3
      · intro pre dereg post hsplit
        cases pre with
        | nil =>
          simp only [List.nil_append, List.cons.injEq] at hsplit
          exact absurd hsplit.1 (hne id dereg)
        | cons x pre1 =>
          simp only [List.cons_append, List.cons.injEq] at hsplit
          obtain ⟨h1, h2⟩ := hsplit
          obtain ⟨pre2, id2, hp, hd⟩ := hc pre1 dereg post h2
          exact ⟨x :: pre2, id2, by simp [hp], hd⟩
      · intro dereg rest1 h
        simp only [List.cons.injEq] at h
        exact absurd h.1 (hne id dereg)
    · have hs1 : w.succeeds tr (agentCall id) = false := by
        simpa using hs
      obtain ⟨new1, heq, ⟨ha, hb, hc⟩, hhead⟩ := ih (tr ++ [agentCall id] ++ [catalogCall id])
      refine ⟨agentCall id :: catalogCall id :: new1, ?_, ⟨?_, ?_, ?_⟩, ?_⟩
      · simp only [twoTierLoop, hs1, Bool.false_eq_true, if_false]
        rw [heq]
        simp
      · simp [List.filter_cons, hagent, hcatB, ha]
      · intro pre id1 post hsplit
        cases pre with
        | nil =>
          simp only [List.nil_append, List.cons.injEq] at hsplit
          obtain ⟨h1, h2⟩ := hsplit
          have hid : id = id1 := hinj _ _ h1
          subst hid
          constructor
          · intro _
            exact ⟨new1, h2.symm⟩
          · intro _
            simpa using hs1
        | cons x pre1 =>
          simp only [List.cons_append, List.cons.injEq] at hsplit
          obtain ⟨h1, h2⟩ := hsplit
          cases pre1 with
          | nil =>
            simp only [List.nil_append, List.cons.injEq] at h2
            obtain ⟨dereg, hd⟩ := hcat id
            rw [hd] at h2
            exact absurd h2.1.symm (hne id1 dereg)
          | cons y pre2 =>
            simp only [List.cons_append, List.cons.injEq] at h2
            obtain ⟨h3, h4⟩ := h2
            have h5 := hb pre2 id1 post h4
            subst h1
            subst h3
            simpa using h5
      · intro pre dereg post hsplit
        cases pre with
        | nil =>
          simp only [List.nil_append, List.cons.injEq] at hsplit
          exact absurd hsplit.1 (hne id dereg)
        | cons x pre1 =>
          simp only [List.cons_append, List.cons.injEq] at hsplit
          obtain ⟨h1, h2⟩ := hsplit
          cases pre1 with
          | nil =>
            simp only [List.nil_append, List.cons.injEq] at h2
            exact ⟨[], id, by simp [h1], h2.1.symm⟩
          | cons y pre2 =>
            simp only [List.cons_append, List.cons.injEq] at h2
            obtain ⟨h3, h4⟩ := h2
            obtain ⟨pre3, id3, hp, hd⟩ := hc pre2 dereg post h4
            exact ⟨x :: y :: pre3, id3, by simp [hp], hd⟩
      · intro dereg rest1 h
        simp only [List.cons.injEq] at h
        exact absurd h.1 (hne id dereg)

theorem deregisterServices_eq_twoTierLoop (w : World) (agentid node : String)
    (services : List AgentServiceRegistration) (tr : List Call) :
    deregisterServices w agentid node services tr
      = twoTierLoop w (Call.serviceDeregister agentid)
          (fun id => Call.catalogDeregister { Node := node, ServiceID := id })
          (services.map (fun service => service.ID)) tr := by
  induction services generalizing tr with
  | nil => rfl
  | cons service rest ih =>
    by_cases hs : w.succeeds tr (Call.serviceDeregister agentid service.ID) = true
    · simp [deregisterServices, twoTierLoop, hs, ih]
    · simp [deregisterServices, twoTierLoop, hs, ih]

theorem deregisterChecks_eq_twoTierLoop (w : World) (agentid node : String)
    (checks : List AgentCheckRegistration) (tr : List Call) :
    deregisterChecks w agentid node checks tr
      = twoTierLoop w (Call.checkDeregister agentid)
          (fun id => Call.catalogDeregister { Node := node, CheckID := id })
          (checks.map (fun hc => hc.ID)) tr := by
  induction checks generalizing tr with
  | nil => rfl
  | cons hc rest ih =>
    by_cases hs : w.succeeds tr (Call.checkDeregister agentid hc.ID) = true
    · simp [deregisterChecks, twoTierLoop, hs, ih]
    · simp [deregisterChecks, twoTierLoop, hs, ih]

theorem deregisterServices_twoTier (w : World) (agentid node : String)
    (services : List AgentServiceRegistration) (tr : List Call) :
    ∃ new, deregisterServices w agentid node services tr = tr ++ new ∧
      TwoTier w tr (Call.serviceDeregister agentid)
        (fun id => Call.catalogDeregister { Node := node, ServiceID := id })
        (services.map (fun service => service.ID)) new := by
  rw [deregisterServices_eq_twoTierLoop]
  obtain ⟨new, h1, h2, _⟩ := twoTierLoop_spec w (Call.serviceDeregister agentid)
    (fun id => Call.catalogDeregister { Node := node, ServiceID := id })
    (fun a b h => by injection h) (fun _ => rfl) (fun id => ⟨_, rfl⟩)
    (services.map (fun service => service.ID)) tr
  exact ⟨new, h1, h2⟩

theorem deregisterChecks_twoTier (w : World) (agentid node : String)
    (checks : List AgentCheckRegistration) (tr : List Call) :
    ∃ new, deregisterChecks w agentid node checks tr = tr ++ new ∧
      TwoTier w tr (Call.checkDeregister agentid)
        (fun id => Call.catalogDeregister { Node := node, CheckID := id })
        (checks.map (fun hc => hc.ID)) new := by
  rw [deregisterChecks_eq_twoTierLoop]
  obtain ⟨new, h1, h2, _⟩ := twoTierLoop_spec w (Call.checkDeregister agentid)
    (fun id => Call.catalogDeregister { Node := node, CheckID := id })
    (fun a b h => by injection h) (fun _ => rfl) (fun id => ⟨_, rfl⟩)
    (checks.map (fun hc => hc.ID)) tr
  exact ⟨new, h1, h2⟩

theorem getServices_backend (w : World) (c : ConsulBackend) (tr : List Call) (agentid : String)
    (listed : List AgentServiceRegistration) (c1 : ConsulBackend) (tr1 : List Call)
    (h : getServices w c tr agentid = .ok (listed, c1, tr1)) :
    c1 = { c with Count := c1.Count } := by
  unfold getServices at h
  split at h
  · injection h with h
    injection h with _ h
    injection h with h _
    subst h
    rfl
  · split at h
    · cases h
    · split at h
      · injection h with h
        injection h with _ h
        injection h with h _
        subst h
        rfl
      · split at h
        · injection h with h
          injection h with _ h
          injection h with h _
          subst h
          rfl
        · injection h with h
          injection h with _ h
          injection h with h _
          subst h
          rfl

theorem cleanupHead_fields (c : ConsulBackend) (slaveid : String) :
    (cleanupHead c slaveid).1
      = { c with MesosRecords := (cleanupHead c slaveid).1.MesosRecords,
                 FrameworkRecords := (cleanupHead c slaveid).1.FrameworkRecords,
                 TaskRecords := (cleanupHead c slaveid).1.TaskRecords } := by
  rfl

/-- C10: in the goroutine of `Cleanup` for one agent, the calls made after
the listing step are the calls of the service loop followed by the calls of
the check loop, and both follow the two-tier pattern on the removal set: every
record is attempted with the agent-level call, in order and whatever the
outcomes; the catalog-level deregistration (Node the short hostname of the
node, ServiceID or CheckID the id) directly follows an agent-level call
exactly when that call failed, and occurs nowhere else. -/
theorem C10_two_tier_removal (w : World) (c : ConsulBackend) (tr : List Call)
    (agentid : String) (c1 : ConsulBackend) (tr1 : List Call)
    (h : cleanupAgent w c tr agentid = .ok (c1, tr1)) :
    ∃ listed c4 tr0 newS newC,
      getServices w (cleanupHead c (mapStr c.SlaveHostnameID agentid)).1 tr agentid
        = .ok (listed, c4, tr0) ∧
      tr1 = tr0 ++ newS ++ newC ∧
      TwoTier w tr0 (Call.serviceDeregister agentid)
        (fun id => Call.catalogDeregister
          { Node := mapStr c.SlaveIDHostname (mapStr c.SlaveHostnameID agentid),
            ServiceID := id })
        (((cleanupHead c (mapStr c.SlaveHostnameID agentid)).2.1
            ++ getDeltaServices (cleanupHead c (mapStr c.SlaveHostnameID agentid)).2.2 listed).map
          (fun service => service.ID))
        newS ∧
      TwoTier w (tr0 ++ newS) (Call.checkDeregister agentid)
        (fun id => Call.catalogDeregister
          { Node := mapStr c.SlaveIDHostname (mapStr c.SlaveHostnameID agentid),
            CheckID := id })
        ((checkRemovalBlock c.HealthChecks (mapStr c.SlaveHostnameID agentid)).2.map
          (fun hc => hc.ID))
        newC := by
  unfold cleanupAgent at h
  simp only [] at h
  cases hg : getServices w (cleanupHead c (mapStr c.SlaveHostnameID agentid)).1 tr agentid with
  | error e =>
    rw [hg] at h
    cases h
  | ok r =>
    obtain ⟨listed, c4, tr0⟩ := r
    rw [hg] at h
    simp only [] at h
    have hc4 := getServices_backend w _ tr agentid listed c4 tr0 hg
    have hhost : c4.SlaveIDHostname = c.SlaveIDHostname := by
      rw [hc4]
      rfl
    have hchecks : c4.HealthChecks = c.HealthChecks := by
      rw [hc4]
      rfl
    rw [hhost, hchecks] at h
    obtain ⟨newS, hS, hTS⟩ := deregisterServices_twoTier w agentid
      (mapStr c.SlaveIDHostname (mapStr c.SlaveHostnameID agentid))
      ((cleanupHead c (mapStr c.SlaveHostnameID agentid)).2.1
        ++ getDeltaServices (cleanupHead c (mapStr c.SlaveHostnameID agentid)).2.2 listed) tr0
    obtain ⟨newC, hC, hTC⟩ := deregisterChecks_twoTier w agentid
      (mapStr c.SlaveIDHostname (mapStr c.SlaveHostnameID agentid))
      (checkRemovalBlock c.HealthChecks (mapStr c.SlaveHostnameID agentid)).2 (tr0 ++ newS)
    refine ⟨listed, c4, tr0, newS, newC, rfl, ?_, hTS, hTC⟩
    injection h with h
    injection h with _ h
    rw [← h, hS, hC]

/-- C10 at an agent whose agent-level deregistrations all fail: the stale
service and the stale check are each removed through the catalog. -/
theorem C10_two_tier_removal_witness :
    ∃ c1,
      cleanupAgent { succeeds := fun _ call => isCatalogCall call }
          { Config := { CacheOnly := true },
            SlaveHostnameID := [("node1", "S1")], SlaveIDHostname := [("S1", "node1")],
            TaskRecords := [("S1", { Current := [], Previous := [{ ID := "mesos-dns:old" }] })],
            HealthChecks := [("S1", { Current := [], Previous := [{ ID := "chk:old" }] })] }
          [] "node1"
        = .ok (c1,
            [Call.serviceDeregister "node1" "mesos-dns:old",
             Call.catalogDeregister { Node := "node1", ServiceID := "mesos-dns:old" },
             Call.checkDeregister "node1" "chk:old",
             Call.catalogDeregister { Node := "node1", CheckID := "chk:old" }]) ∧
      ∃ listed c4 tr0 newS newC,
        getServices { succeeds := fun _ call => isCatalogCall call }
            (cleanupHead
              { Config := { CacheOnly := true },
                SlaveHostnameID := [("node1", "S1")], SlaveIDHostname := [("S1", "node1")],
                TaskRecords := [("S1", { Current := [], Previous := [{ ID := "mesos-dns:old" }] })],
                HealthChecks := [("S1", { Current := [], Previous := [{ ID := "chk:old" }] })] }
              "S1").1 [] "node1"
          = .ok (listed, c4, tr0) ∧
        [Call.serviceDeregister "node1" "mesos-dns:old",
         Call.catalogDeregister { Node := "node1", ServiceID := "mesos-dns:old" },
         Call.checkDeregister "node1" "chk:old",
         Call.catalogDeregister { Node := "node1", CheckID := "chk:old" }]
          = tr0 ++ newS ++ newC :=
  ⟨_, rfl,
    (C10_two_tier_removal { succeeds := fun _ call => isCatalogCall call }
      { Config := { CacheOnly := true },
        SlaveHostnameID := [("node1", "S1")], SlaveIDHostname := [("S1", "node1")],
        TaskRecords := [("S1", { Current := [], Previous := [{ ID := "mesos-dns:old" }] })],
        HealthChecks := [("S1", { Current := [], Previous := [{ ID := "chk:old" }] })] }
      [] "node1" _ _ rfl).imp fun _ h1 => h1.imp fun _ h2 => h2.imp fun _ h3 =>
        h3.imp fun _ h4 => h4.imp fun _ h5 => ⟨h5.1, h5.2.1⟩⟩

/-! ### Promotion -/

theorem removalBlock_get (m : GoMap ConsulRecords) (s k : String)
    (acc : List AgentServiceRegistration × List AgentServiceRegistration) :
    mapGet? (removalBlock m s acc).1 k
      = if s = k then (mapGet? m s).map promoted else mapGet? m k := by
  unfold removalBlock
  cases hg : mapGet? m s with
  | none =>
    by_cases hk : s = k
    · subst hk
      simp [hg]
    · simp [hk]
  | some b => simp [mapGet?_mapSet, promoted]

theorem checkRemovalBlock_get (m : GoMap ConsulChecks) (s k : String) :
    mapGet? (checkRemovalBlock m s).1 k
      = if s = k then (mapGet? m s).map promotedChecks else mapGet? m k := by
  unfold checkRemovalBlock
  cases hg : mapGet? m s with
  | none =>
    by_cases hk : s = k
    · subst hk
      simp [hg]
    · simp [hk]
  | some b => simp [mapGet?_mapSet, promotedChecks]

theorem cleanupAgent_effect (w : World) (c : ConsulBackend) (tr : List Call)
    (agentid : String) (c1 : ConsulBackend) (tr1 : List Call)
    (h : cleanupAgent w c tr agentid = .ok (c1, tr1)) :
    eraseCleanup c1 = eraseCleanup c ∧
      ∀ k, bucketsAt c1 k
        = if mapStr c.SlaveHostnameID agentid = k then promoteAt (bucketsAt c k)
          else bucketsAt c k := by
  unfold cleanupAgent at h
  simp only [] at h
  cases hg : getServices w (cleanupHead c (mapStr c.SlaveHostnameID agentid)).1 tr agentid with
  | error e =>
    rw [hg] at h
    cases h
  | ok r =>
    obtain ⟨listed, c4, tr0⟩ := r
    rw [hg] at h
    simp only [] at h
    have hc4 := getServices_backend w _ tr agentid listed c4 tr0 hg
    injection h with h
    injection h with h _
    subst h
    constructor
    · rw [hc4]
      rfl
    · intro k
      have e1 : c4.MesosRecords
          = (removalBlock c.MesosRecords (mapStr c.SlaveHostnameID agentid) ([], [])).1 := by
        rw [hc4]
        rfl
      have e2 : c4.FrameworkRecords
          = (removalBlock c.FrameworkRecords (mapStr c.SlaveHostnameID agentid)
              (removalBlock c.MesosRecords (mapStr c.SlaveHostnameID agentid) ([], [])).2).1 := by
        rw [hc4]
        rfl
      have e3 : c4.TaskRecords
          = (removalBlock c.TaskRecords (mapStr c.SlaveHostnameID agentid)
              (removalBlock c.FrameworkRecords (mapStr c.SlaveHostnameID agentid)
                (removalBlock c.MesosRecords (mapStr c.SlaveHostnameID agentid) ([], [])).2).2).1 := by
        rw [hc4]
        rfl
      have e4 : c4.HealthChecks = c.HealthChecks := by
        rw [hc4]
        rfl
      simp only [bucketsAt, promoteAt, e1, e2, e3, e4, removalBlock_get, checkRemovalBlock_get]
      by_cases hk : mapStr c.SlaveHostnameID agentid = k
      · simp [hk]
      · simp [hk]

theorem cleanupLoop_effect (w : World) (agents : List String) (c : ConsulBackend)
    (tr : List Call) (c1 : ConsulBackend) (tr1 : List Call)
    (h : cleanupLoop w agents c tr = .ok (c1, tr1)) :
    eraseCleanup c1 = eraseCleanup c ∧
      ∀ k, bucketsAt c1 k = promoteAt^[agentsOf c k agents] (bucketsAt c k) := by
  induction agents generalizing c tr with
  | nil =>
    simp only [cleanupLoop] at h
    injection h with h
    injection h with h _
    subst h
    exact ⟨rfl, fun k => rfl⟩
  | cons agentid rest ih =>
    simp only [cleanupLoop] at h
    cases hstep : cleanupAgent w c tr agentid with
    | error e =>
      rw [hstep] at h
      cases h
    | ok r =>
      obtain ⟨c2, tr2⟩ := r
      rw [hstep] at h
      simp only [] at h
      obtain ⟨hframe, hbuckets⟩ := cleanupAgent_effect w c tr agentid c2 tr2 hstep
      obtain ⟨hframe2, hbuckets2⟩ := ih c2 tr2 h
      have hmap : c2.SlaveHostnameID = c.SlaveHostnameID := by
        have h3 := congrArg ConsulBackend.SlaveHostnameID hframe
        exact h3
      refine ⟨hframe2.trans hframe, ?_⟩
      intro k
      rw [hbuckets2 k, hbuckets k]
      have hcount : agentsOf c2 k rest = agentsOf c k rest := by
        simp [agentsOf, hmap]
      rw [hcount]
      by_cases hk : mapStr c.SlaveHostnameID agentid = k
      · simp [agentsOf, List.countP_cons, hk, Function.iterate_succ_apply]
      · simp [agentsOf, List.countP_cons, hk]

theorem promoteAt_iterate_succ (n : Nat)
    (x : Option ConsulRecords × Option ConsulRecords × Option ConsulRecords × Option ConsulChecks) :
    promoteAt^[n + 1] x
      = (x.1.map (fun b => { Current := [], Previous := if n = 0 then b.Current else [] }),
         x.2.1.map (fun b => { Current := [], Previous := if n = 0 then b.Current else [] }),
         x.2.2.1.map (fun b => { Current := [], Previous := if n = 0 then b.Current else [] }),
         x.2.2.2.map (fun b => { Current := [], Previous := if n = 0 then b.Current else [] })) := by
  induction n with
  | zero =>
    obtain ⟨x1, x2, x3, x4⟩ := x
    cases x1 <;> cases x2 <;> cases x3 <;> cases x4 <;>
      simp [promoteAt, promoted, promotedChecks]
  | succ n ih =>
    rw [Function.iterate_succ_apply', ih]
    obtain ⟨x1, x2, x3, x4⟩ := x
    cases x1 <;> cases x2 <;> cases x3 <;> cases x4 <;>
      simp [promoteAt, promoted, promotedChecks]

theorem Cleanup_effect (w : World) (c : ConsulBackend) (tr : List Call)
    (c1 : ConsulBackend) (tr1 : List Call) (h : Cleanup w c tr = .ok (c1, tr1)) :
    eraseCleanup c1 = eraseCleanup c ∧
      ∀ k, bucketsAt c1 k
        = promoteAt^[agentsOf c k (c.Agents.map Prod.fst)] (bucketsAt c k) :=
  cleanupLoop_effect w (c.Agents.map Prod.fst) c tr c1 tr1 h

theorem agentsOf_pos (c : ConsulBackend) (agents : List String) (agentid : String)
    (hmem : agentid ∈ agents) :
    ∃ n, agentsOf c (mapStr c.SlaveHostnameID agentid) agents = n + 1 := by
  have hpos : 0 < agentsOf c (mapStr c.SlaveHostnameID agentid) agents := by
    unfold agentsOf
    rw [List.countP_pos_iff]
    exact ⟨agentid, hmem, by simp⟩
  exact ⟨agentsOf c (mapStr c.SlaveHostnameID agentid) agents - 1, by omega⟩

/-- C8, counterexample: two cycles from the backend that `New` builds. The
node S1 moves from old-host to new-host, both hosts being consul members. In
the second cycle the agent new-host is connected and its name maps to S1, the
node bucket of S1 holds one current record before `Cleanup`, and after
`Cleanup` the Previous list of that bucket is empty. -/
theorem C8_counterexample_two_agents_one_node :
    ∃ c1 t1 d t2 c2 t3,
      New true NewConfig [] 0 = .ok (some freshBackend) ∧
      Reload twoMemberWorld freshBackend [] snapshotOldHost = .ok (c1, t1) ∧
      derive twoMemberWorld c1 t1 snapshotNewHost = .ok (true, d, t2) ∧
      Cleanup twoMemberWorld d (Register twoMemberWorld d t2) = .ok (c2, t3) ∧
      "new-host" ∈ d.Agents.map Prod.fst ∧
      mapStr d.SlaveHostnameID "new-host" = "S1" ∧
      currentRecords d.MesosRecords "S1"
        = [{ ID := "mesos-dns:S1", Name := "mesos", Tags := ["slave", "new-host"],
             Port := 5051, Address := "10.0.0.2" }] ∧
      previousRecords c2.MesosRecords "S1" = [] ∧
      currentRecords c2.MesosRecords "S1" = [] :=
  ⟨_, _, _, _, _, _, rfl, rfl, rfl, rfl, by decide, by decide, by decide, by decide, by decide⟩

/-- C8, amended: after `Cleanup` returns, for every connected agent, with s
the node id its name maps to, every bucket kind that has an entry for s has
an empty Current list; and when that agent is the only connected agent whose
name maps to s, Previous is the Current list held immediately before
`Cleanup`. -/
theorem C8_promotion (w : World) (c : ConsulBackend) (tr : List Call)
    (c1 : ConsulBackend) (tr1 : List Call) (h : Cleanup w c tr = .ok (c1, tr1))
    (agentid : String) (hmem : agentid ∈ c.Agents.map Prod.fst) :
    ((∀ b, mapGet? c.MesosRecords (mapStr c.SlaveHostnameID agentid) = some b →
        ∃ b1, mapGet? c1.MesosRecords (mapStr c.SlaveHostnameID agentid) = some b1 ∧
          b1.Current = []) ∧
     (∀ b, mapGet? c.FrameworkRecords (mapStr c.SlaveHostnameID agentid) = some b →
        ∃ b1, mapGet? c1.FrameworkRecords (mapStr c.SlaveHostnameID agentid) = some b1 ∧
          b1.Current = []) ∧
     (∀ b, mapGet? c.TaskRecords (mapStr c.SlaveHostnameID agentid) = some b →
        ∃ b1, mapGet? c1.TaskRecords (mapStr c.SlaveHostnameID agentid) = some b1 ∧
          b1.Current = []) ∧
     (∀ b, mapGet? c.HealthChecks (mapStr c.SlaveHostnameID agentid) = some b →
        ∃ b1, mapGet? c1.HealthChecks (mapStr c.SlaveHostnameID agentid) = some b1 ∧
          b1.Current = [])) ∧
    (agentsOf c (mapStr c.SlaveHostnameID agentid) (c.Agents.map Prod.fst) = 1 →
      (∀ b, mapGet? c.MesosRecords (mapStr c.SlaveHostnameID agentid) = some b →
        mapGet? c1.MesosRecords (mapStr c.SlaveHostnameID agentid)
          = some { Current := [], Previous := b.Current }) ∧
      (∀ b, mapGet? c.FrameworkRecords (mapStr c.SlaveHostnameID agentid) = some b →
        mapGet? c1.FrameworkRecords (mapStr c.SlaveHostnameID agentid)
          = some { Current := [], Previous := b.Current }) ∧
      (∀ b, mapGet? c.TaskRecords (mapStr c.SlaveHostnameID agentid) = some b →
        mapGet? c1.TaskRecords (mapStr c.SlaveHostnameID agentid)
          = some { Current := [], Previous := b.Current }) ∧
      (∀ b, mapGet? c.HealthChecks (mapStr c.SlaveHostnameID agentid) = some b →
        mapGet? c1.HealthChecks (mapStr c.SlaveHostnameID agentid)
          = some { Current := [], Previous := b.Current })) := by
  obtain ⟨_, hbuckets⟩ := Cleanup_effect w c tr c1 tr1 h
  have hb := hbuckets (mapStr c.SlaveHostnameID agentid)
  obtain ⟨n, hn⟩ := agentsOf_pos c (c.Agents.map Prod.fst) agentid hmem
  rw [hn, promoteAt_iterate_succ] at hb
  simp only [bucketsAt, Prod.mk.injEq] at hb
  obtain ⟨h1, h2, h3, h4⟩ := hb
  refine ⟨⟨?_, ?_, ?_, ?_⟩, ?_⟩
  · intro b hbk
    rw [h1, hbk]
    exact ⟨_, rfl, rfl⟩
  · intro b hbk
    rw [h2, hbk]
    exact ⟨_, rfl, rfl⟩
  · intro b hbk
    rw [h3, hbk]
    exact ⟨_, rfl, rfl⟩
  · intro b hbk
    rw [h4, hbk]
    exact ⟨_, rfl, rfl⟩
  · intro hone
    have hn0 : n = 0 := by omega
    subst hn0
    refine ⟨?_, ?_, ?_, ?_⟩
    · intro b hbk
      rw [h1, hbk]
      rfl
    · intro b hbk
      rw [h2, hbk]
      rfl
    · intro b hbk
      rw [h3, hbk]
      rfl
    · intro b hbk
      rw [h4, hbk]
      rfl

/-- C8, amended, at a backend with one connected agent and one current node
record. -/
theorem C8_promotion_witness :
    ∃ c1 tr1, Cleanup {} oneAgentBackend [] = .ok (c1, tr1) ∧
      "node1" ∈ oneAgentBackend.Agents.map Prod.fst ∧
      mapGet? c1.MesosRecords "S1"
        = some { Current := [], Previous := [{ ID := "mesos-dns:S1", Name := "mesos" }] } :=
  ⟨_, _, rfl, by decide,
    ((C8_promotion {} oneAgentBackend [] _ _ rfl "node1" (by decide)).2 (by decide)).1
      { Current := [{ ID := "mesos-dns:S1", Name := "mesos" }], Previous := [] } (by decide)⟩

/-! ### What the steps of a cycle leave untouched -/

theorem listingCalls_append (tr new : List Call) :
    listingCalls (tr ++ new) = listingCalls tr ++ listingCalls new := by
  simp [listingCalls, List.filter_append]

theorem connectLoop_frame (w : World) (members : List AgentMember) (c : ConsulBackend)
    (tr : List Call) :
    eraseAgents (connectLoop w members c tr).2.1 = eraseAgents c ∧
      listingCalls (connectLoop w members c tr).2.2 = listingCalls tr := by
  induction members generalizing c tr with
  | nil => exact ⟨rfl, rfl⟩
  | cons agent rest ih =>
    unfold connectLoop
    simp only []
    have htr1 : listingCalls
        (if mapHas c.Agents agent.Addr = true then tr ++ [Call.self agent.Addr] else tr)
          = listingCalls tr := by
      split <;> simp [listingCalls_append, listingCalls, isListing]
    generalize (if mapHas c.Agents agent.Addr = true then tr ++ [Call.self agent.Addr] else tr)
      = trA at htr1 ⊢
    cases hA : (mapHas c.Agents agent.Addr && w.succeeds tr (Call.self agent.Addr)) with
    | true =>
      simp only [if_true]
      obtain ⟨h1, h2⟩ := ih c trA
      exact ⟨h1, h2.trans htr1⟩
    | false =>
      simp only [Bool.false_eq_true, if_false]
      cases hB : w.succeeds trA (Call.newClient (agent.Addr ++ ":" ++ c.AgentPort)) with
      | false =>
        simp only [Bool.not_false, if_true]
        refine ⟨by first | rfl | trivial, ?_⟩
        rw [listingCalls_append, htr1]
        simp [listingCalls, isListing]
      | true =>
        simp only [Bool.not_true, Bool.false_eq_true, if_false]
        cases hC : w.succeeds (trA ++ [Call.newClient (agent.Addr ++ ":" ++ c.AgentPort)])
            (Call.clientSelf (agent.Addr ++ ":" ++ c.AgentPort)) with
        | false =>
          simp only [Bool.not_false, if_true]
          refine ⟨by first | rfl | trivial, ?_⟩
          rw [listingCalls_append, listingCalls_append, htr1]
          simp [listingCalls, isListing]
        | true =>
          simp only [Bool.not_true, Bool.false_eq_true, if_false]
          obtain ⟨h1, h2⟩ := ih
            { c with Agents := mapSet c.Agents agent.Name (agent.Addr ++ ":" ++ c.AgentPort) }
            (trA ++ [Call.newClient (agent.Addr ++ ":" ++ c.AgentPort)]
              ++ [Call.clientSelf (agent.Addr ++ ":" ++ c.AgentPort)])
          refine ⟨h1, ?_⟩
          rw [h2, listingCalls_append, listingCalls_append, htr1]
          simp [listingCalls, isListing]

theorem connectAgents_frame (w : World) (c : ConsulBackend) (tr : List Call) :
    eraseAgents (connectAgents w c tr).2.1 = eraseAgents c ∧
      listingCalls (connectAgents w c tr).2.2 = listingCalls tr := by
  unfold connectAgents
  cases w.Members tr with
  | none =>
    refine ⟨rfl, ?_⟩
    simp [listingCalls_append, listingCalls, isListing]
  | some members =>
    obtain ⟨h1, h2⟩ := connectLoop_frame w members c (tr ++ [Call.members])
    refine ⟨h1, ?_⟩
    simp only [] at h2 ⊢
    rw [h2]
    simp [listingCalls_append, listingCalls, isListing]

theorem mesosStep_frame (leadHost : String) (c : ConsulBackend) (slave : Slave) :
    eraseMesos (mesosStep leadHost c slave) = eraseMesos c := by
  unfold mesosStep
  simp only []
  cases strconvAtoi slave.PID.Port <;> rfl

theorem mesosFold_frame (leadHost : String) (slaves : List Slave) (c : ConsulBackend) :
    eraseMesos (slaves.foldl (mesosStep leadHost) c) = eraseMesos c := by
  induction slaves generalizing c with
  | nil => rfl
  | cons slave rest ih => rw [List.foldl_cons, ih, mesosStep_frame]

theorem generateMesosRecords_frame (c c1 : ConsulBackend)
    (h : generateMesosRecords c = .ok c1) : eraseMesos c1 = eraseMesos c := by
  unfold generateMesosRecords at h
  split at h
  · cases h
  · injection h with h
    rw [← h, mesosFold_frame]

theorem frameworkStep_frame (w : World) (i : Nat) (c : ConsulBackend) (framework : Framework) :
    eraseFramework (frameworkStep w i c framework) = eraseFramework c := by
  unfold frameworkStep
  split
  · rfl
  · split
    · rfl
    · simp only []
      split <;> rfl

theorem frameworkFold_frame (w : World) (i : Nat) (frameworks : List Framework)
    (c : ConsulBackend) :
    eraseFramework (frameworkLoop w i frameworks c) = eraseFramework c := by
  induction frameworks generalizing i c with
  | nil => rfl
  | cons framework rest ih =>
    unfold frameworkLoop
    rw [ih, frameworkStep_frame]

theorem taskStep_frame (w : World) (c c1 : ConsulBackend) (task : Task)
    (h : taskStep w c task = .ok c1) : eraseTaskBuckets c1 = eraseTaskBuckets c := by
  unfold taskStep at h
  split at h
  · injection h with h
    rw [h]
  · split at h
    · cases h
    · simp only [] at h
      split at h
      · injection h with h
        rw [← h]
        rfl
      · injection h with h
        rw [← h, portsFold_frame]
        rfl

theorem generateTaskRecords_frame (w : World) (tasks : List Task) (c c1 : ConsulBackend)
    (h : generateTaskRecords w c tasks = .ok c1) : eraseTaskBuckets c1 = eraseTaskBuckets c := by
  induction tasks generalizing c with
  | nil =>
    simp only [generateTaskRecords] at h
    injection h with h
    rw [h]
  | cons task rest ih =>
    simp only [generateTaskRecords] at h
    cases hstep : taskStep w c task with
    | error e =>
      rw [hstep] at h
      cases h
    | ok c2 =>
      rw [hstep] at h
      rw [ih c2 h, taskStep_frame w c c2 task hstep]

theorem generateAllTaskRecords_frame (w : World) (frameworks : List Framework)
    (c c1 : ConsulBackend) (h : generateAllTaskRecords w c frameworks = .ok c1) :
    eraseTaskBuckets c1 = eraseTaskBuckets c := by
  induction frameworks generalizing c with
  | nil =>
    simp only [generateAllTaskRecords] at h
    injection h with h
    rw [h]
  | cons framework rest ih =>
    simp only [generateAllTaskRecords] at h
    cases hstep : generateTaskRecords w c framework.Tasks with
    | error e =>
      rw [hstep] at h
      cases h
    | ok c2 =>
      rw [hstep] at h
      rw [ih c2 h, generateTaskRecords_frame w framework.Tasks c c2 hstep]

/-! ### The drift schedule -/

theorem twoTierLoop_listing (w : World) (agentCall catalogCall : String → Call)
    (hagent : ∀ id, isListing (agentCall id) = false)
    (hcat : ∀ id, isListing (catalogCall id) = false) (ids : List String) (tr : List Call) :
    listingCalls (twoTierLoop w agentCall catalogCall ids tr) = listingCalls tr := by
  induction ids generalizing tr with
  | nil => rfl
  | cons id rest ih =>
    unfold twoTierLoop
    split
    · rw [ih, listingCalls_append]
      simp [listingCalls, hagent]
    · rw [ih, listingCalls_append, listingCalls_append]
      simp [listingCalls, hagent, hcat]

theorem deregisterServices_listing (w : World) (agentid node : String)
    (services : List AgentServiceRegistration) (tr : List Call) :
    listingCalls (deregisterServices w agentid node services tr) = listingCalls tr := by
  rw [deregisterServices_eq_twoTierLoop]
  exact twoTierLoop_listing w (Call.serviceDeregister agentid)
    (fun id => Call.catalogDeregister { Node := node, ServiceID := id })
    (fun _ => rfl) (fun _ => rfl) _ tr

theorem deregisterChecks_listing (w : World) (agentid node : String)
    (checks : List AgentCheckRegistration) (tr : List Call) :
    listingCalls (deregisterChecks w agentid node checks tr) = listingCalls tr := by
  rw [deregisterChecks_eq_twoTierLoop]
  exact twoTierLoop_listing w (Call.checkDeregister agentid)
    (fun id => Call.catalogDeregister { Node := node, CheckID := id })
    (fun _ => rfl) (fun _ => rfl) _ tr

theorem registerServices_listing (w : World) (c : ConsulBackend) (agentid slaveid : String)
    (services : List AgentServiceRegistration) (tr : List Call) :
    listingCalls (registerServices w c agentid slaveid services tr) = listingCalls tr := by
  induction services generalizing tr with
  | nil => rfl
  | cons service rest ih =>
    unfold registerServices
    simp only []
    split
    · rw [ih, listingCalls_append]
      simp [listingCalls, isListing]
    · split
      · rw [ih, listingCalls_append]
        simp [listingCalls, isListing]
      · rw [ih, listingCalls_append]
        simp [listingCalls, isListing]

theorem registerChecks_listing (w : World) (agentid : String)
    (checks : List AgentCheckRegistration) (tr : List Call) :
    listingCalls (registerChecks w agentid checks tr) = listingCalls tr := by
  induction checks generalizing tr with
  | nil => rfl
  | cons hc rest ih =>
    unfold registerChecks
    simp only []
    split
    · rw [ih, listingCalls_append]
      simp [listingCalls, isListing]
    · rw [ih, listingCalls_append]
      simp [listingCalls, isListing]

theorem Register_listing (w : World) (c : ConsulBackend) (tr : List Call) :
    listingCalls (Register w c tr) = listingCalls tr := by
  unfold Register
  generalize c.Agents = agents
  induction agents generalizing tr with
  | nil => rfl
  | cons entry rest ih =>
    rw [List.foldl_cons, ih]
    unfold registerAgent
    simp only []
    rw [registerChecks_listing, registerServices_listing]

theorem getServices_cases (w : World) (c : ConsulBackend) (tr : List Call) (agentid : String)
    (listed : List AgentServiceRegistration) (c1 : ConsulBackend) (tr1 : List Call)
    (h : getServices w c tr agentid = .ok (listed, c1, tr1)) :
    (driftDue c → c1.Count = 0 ∧ tr1 = tr ++ [Call.services agentid]) ∧
      (¬ driftDue c → c1.Count = c.Count ∧ tr1 = tr ∧ listed = []) := by
  unfold getServices at h
  unfold driftDue
  cases hco : c.Config.CacheOnly with
  | true =>
    simp only [hco, if_true] at h
    injection h with h
    injection h with h1 h
    injection h with h2 h3
    subst h1 h2 h3
    simp
  | false =>
    simp only [hco, Bool.false_eq_true, if_false] at h
    by_cases hz : c.Config.CacheRefresh = 0
    · simp [hz] at h
    · simp only [hz, if_false] at h
      by_cases hm : Int.tmod c.Count c.Config.CacheRefresh = 0
      · simp only [hm, ne_eq, not_true_eq_false, if_false] at h
        cases hl : w.Services tr agentid with
        | none =>
          rw [hl] at h
          injection h with h
          injection h with h1 h
          injection h with h2 h3
          subst h1 h2 h3
          simp [hm]
        | some services =>
          rw [hl] at h
          injection h with h
          injection h with h1 h
          injection h with h2 h3
          subst h1 h2 h3
          simp [hm]
      · simp only [hm, ne_eq, not_false_eq_true, if_true] at h
        injection h with h
        injection h with h1 h
        injection h with h2 h3
        subst h1 h2 h3
        simp [hm]

theorem cleanupAgent_listing (w : World) (c : ConsulBackend) (tr : List Call)
    (agentid : String) (c1 : ConsulBackend) (tr1 : List Call)
    (h : cleanupAgent w c tr agentid = .ok (c1, tr1)) :
    c1.Config = c.Config ∧
      (driftDue c → c1.Count = 0 ∧
        listingCalls tr1 = listingCalls tr ++ [Call.services agentid]) ∧
      (¬ driftDue c → c1.Count = c.Count ∧ listingCalls tr1 = listingCalls tr) := by
  unfold cleanupAgent at h
  simp only [] at h
  cases hg : getServices w (cleanupHead c (mapStr c.SlaveHostnameID agentid)).1 tr agentid with
  | error e =>
    rw [hg] at h
    cases h
  | ok r =>
    obtain ⟨listed, c4, tr0⟩ := r
    rw [hg] at h
    simp only [] at h
    have hc4 := getServices_backend w _ tr agentid listed c4 tr0 hg
    obtain ⟨hdue, hnot⟩ := getServices_cases w _ tr agentid listed c4 tr0 hg
    injection h with h
    injection h with h1 h2
    subst h1 h2
    have hcfg : c4.Config = c.Config := by
      rw [hc4]
      rfl
    refine ⟨hcfg, ?_, ?_⟩
    · intro hd
      obtain ⟨e1, e2⟩ := hdue hd
      refine ⟨e1, ?_⟩
      rw [deregisterChecks_listing, deregisterServices_listing, e2, listingCalls_append]
      simp [listingCalls, isListing]
    · intro hd
      obtain ⟨e1, e2, _⟩ := hnot hd
      refine ⟨e1, ?_⟩
      rw [deregisterChecks_listing, deregisterServices_listing, e2]

theorem cleanupLoop_listing (w : World) (agents : List String) (c : ConsulBackend)
    (tr : List Call) (c1 : ConsulBackend) (tr1 : List Call)
    (h : cleanupLoop w agents c tr = .ok (c1, tr1)) :
    c1.Config = c.Config ∧
      (driftDue c →
        (c1.Count = if agents = [] then c.Count else 0) ∧
          listingCalls tr1 = listingCalls tr ++ agents.map Call.services) ∧
      (¬ driftDue c → c1.Count = c.Count ∧ listingCalls tr1 = listingCalls tr) := by
  induction agents generalizing c tr with
  | nil =>
    simp only [cleanupLoop] at h
    injection h with h
    injection h with h1 h2
    subst h1 h2
    simp
  | cons agentid rest ih =>
    simp only [cleanupLoop] at h
    cases hstep : cleanupAgent w c tr agentid with
    | error e =>
      rw [hstep] at h
      cases h
    | ok r =>
      obtain ⟨c2, tr2⟩ := r
      rw [hstep] at h
      simp only [] at h
      obtain ⟨hcfg, hdue, hnot⟩ := cleanupAgent_listing w c tr agentid c2 tr2 hstep
      obtain ⟨hcfg2, hdue2, hnot2⟩ := ih c2 tr2 h
      refine ⟨hcfg2.trans hcfg, ?_, ?_⟩
      · intro hd
        obtain ⟨e1, e2⟩ := hdue hd
        have hd2 : driftDue c2 := by
          unfold driftDue
          rw [hcfg, e1]
          exact ⟨hd.1, Int.zero_tmod _⟩
        obtain ⟨e3, e4⟩ := hdue2 hd2
        constructor
        · rw [e3, e1]
          simp
        · rw [e4, e2]
          simp
      · intro hd
        obtain ⟨e1, e2⟩ := hnot hd
        have hd2 : ¬ driftDue c2 := by
          unfold driftDue
          rw [hcfg, e1]
          exact hd
        obtain ⟨e3, e4⟩ := hnot2 hd2
        exact ⟨e3.trans e1, e4.trans e2⟩

theorem derive_fields (w : World) (c : ConsulBackend) (tr : List Call) (rgState : State)
    (flag : Bool) (d : ConsulBackend) (tr1 : List Call)
    (h : derive w c tr rgState = .ok (flag, d, tr1)) :
    d.Count = incInt64 c.Count ∧ d.Config = c.Config ∧ listingCalls tr1 = listingCalls tr := by
  unfold derive at h
  simp only [] at h
  obtain ⟨hfr, hls⟩ := connectAgents_frame w
    { c with Count := incInt64 c.Count, State := rgState } tr
  cases hconn : connectAgents w { c with Count := incInt64 c.Count, State := rgState } tr with
  | mk ok r =>
    obtain ⟨c3, tr3⟩ := r
    rw [hconn] at h hfr hls
    simp only [] at hfr hls
    have hcount3 : c3.Count = incInt64 c.Count := by
      have h3 := congrArg ConsulBackend.Count hfr
      exact h3
    have hcfg3 : c3.Config = c.Config := by
      have h3 := congrArg ConsulBackend.Config hfr
      exact h3
    cases ok with
    | false =>
      simp only [] at h
      injection h with h
      injection h with _ h
      injection h with h1 h2
      subst h1 h2
      exact ⟨hcount3, hcfg3, hls⟩
    | true =>
      simp only [] at h
      cases hm : generateMesosRecords c3 with
      | error e =>
        rw [hm] at h
        cases h
      | ok c4 =>
        rw [hm] at h
        simp only [] at h
        cases ht : generateAllTaskRecords w (generateFrameworkRecords w c4)
            rgState.Frameworks with
        | error e =>
          rw [ht] at h
          cases h
        | ok c5 =>
          rw [ht] at h
          simp only [] at h
          injection h with h
          injection h with _ h
          injection h with h1 h2
          subst h1 h2
          have f1 := generateMesosRecords_frame c3 c4 hm
          have f2 : eraseFramework (generateFrameworkRecords w c4) = eraseFramework c4 :=
            frameworkFold_frame w 0 _ c4
          have f3 := generateAllTaskRecords_frame w _ _ c5 ht
          have hcount : c5.Count = c3.Count := by
            have g3 := congrArg ConsulBackend.Count f3
            have g2 := congrArg ConsulBackend.Count f2
            have g1 := congrArg ConsulBackend.Count f1
            exact g3.trans (g2.trans g1)
          have hcfg : c5.Config = c3.Config := by
            have g3 := congrArg ConsulBackend.Config f3
            have g2 := congrArg ConsulBackend.Config f2
            have g1 := congrArg ConsulBackend.Config f1
            exact g3.trans (g2.trans g1)
          exact ⟨hcount.trans hcount3, hcfg.trans hcfg3, hls⟩

theorem Reload_connected (w : World) (c : ConsulBackend) (tr : List Call) (rgState : State)
    (d : ConsulBackend) (tr1 : List Call) (c1 : ConsulBackend) (tr2 : List Call)
    (hderive : derive w c tr rgState = .ok (true, d, tr1))
    (hreload : Reload w c tr rgState = .ok (c1, tr2)) :
    Cleanup w d (Register w d tr1) = .ok (c1, tr2) := by
  unfold Reload at hreload
  rw [hderive] at hreload
  exact hreload

theorem Reload_connected_listing (w : World) (c : ConsulBackend) (tr : List Call)
    (rgState : State) (d : ConsulBackend) (tr1 : List Call) (c1 : ConsulBackend)
    (tr2 : List Call) (hderive : derive w c tr rgState = .ok (true, d, tr1))
    (hagents : d.Agents ≠ []) (hreload : Reload w c tr rgState = .ok (c1, tr2)) :
    c1.Config = c.Config ∧ d.Config = c.Config ∧ d.Count = incInt64 c.Count ∧
      (driftDue d → c1.Count = 0 ∧
        listingCalls tr2 = listingCalls tr ++ (d.Agents.map Prod.fst).map Call.services) ∧
      (¬ driftDue d → c1.Count = d.Count ∧ listingCalls tr2 = listingCalls tr) := by
  have hclean := Reload_connected w c tr rgState d tr1 c1 tr2 hderive hreload
  obtain ⟨hcount, hcfg, hls⟩ := derive_fields w c tr rgState true d tr1 hderive
  obtain ⟨hcfg2, hdue, hnot⟩ :=
    cleanupLoop_listing w (d.Agents.map Prod.fst) d (Register w d tr1) c1 tr2 hclean
  have hne : ¬ d.Agents.map Prod.fst = [] := by
    simpa using hagents
  refine ⟨hcfg2.trans hcfg, hcfg, hcount, ?_, ?_⟩
  · intro hd
    obtain ⟨e1, e2⟩ := hdue hd
    rw [Register_listing, hls] at e2
    simp only [hne, if_false] at e1
    exact ⟨e1, e2⟩
  · intro hd
    obtain ⟨e1, e2⟩ := hnot hd
    rw [Register_listing, hls] at e2
    exact ⟨e1, e2⟩

theorem connectedRun_config (c0 : ConsulBackend) (tr0 : List Call) (n : Nat)
    (c : ConsulBackend) (tr : List Call) (hrun : ConnectedRun c0 tr0 n c tr) :
    c.Config = c0.Config := by
  induction hrun with
  | zero => rfl
  | step w rgState _ hconn hreload ih =>
    obtain ⟨d, tr1, hderive, hagents⟩ := hconn
    have h := Reload_connected_listing w _ _ rgState d tr1 _ _ hderive hagents hreload
    exact h.1.trans ih

theorem driftDue_after_inc (k : Int) (hk : 0 < k) (hk64 : k < 2 ^ 63) (n : Nat)
    (c d : ConsulBackend) (hcfg : d.Config = c.Config) (hrefresh : c.Config.CacheRefresh = k)
    (hco : c.Config.CacheOnly = false) (hc : c.Count = (n : Int) % k)
    (hd : d.Count = incInt64 c.Count) :
    d.Count = (n : Int) % k + 1 ∧ (driftDue d ↔ k ∣ (n : Int) + 1) ∧
      (¬ driftDue d → (n : Int) % k + 1 = ((n : Int) + 1) % k) := by
  have h0 : 0 ≤ (n : Int) % k := Int.emod_nonneg _ (ne_of_gt hk)
  have h1 : (n : Int) % k < k := Int.emod_lt_of_pos _ hk
  have hinc : incInt64 c.Count = (n : Int) % k + 1 := by
    unfold incInt64
    rw [hc]
    have h2 : (n : Int) % k + 1 < 2 ^ 63 := by omega
    rw [if_pos h2]
  have hdc : d.Count = (n : Int) % k + 1 := hd.trans hinc
  have hmod : ((n : Int) + 1) % k = ((n : Int) % k + 1) % k := (Int.emod_add_emod _ _ _).symm
  have htmod : Int.tmod d.Count d.Config.CacheRefresh = ((n : Int) + 1) % k := by
    rw [hcfg, hrefresh, hdc, Int.tmod_eq_emod (by omega) (le_of_lt hk), hmod]
  have hdue : driftDue d ↔ k ∣ (n : Int) + 1 := by
    unfold driftDue
    rw [htmod, hcfg, Int.dvd_iff_emod_eq_zero]
    simp [hco]
  refine ⟨hdc, hdue, ?_⟩
  intro hnd
  have hnz : ((n : Int) + 1) % k ≠ 0 := by
    intro hz
    exact hnd (hdue.2 (Int.dvd_iff_emod_eq_zero.2 hz))
  have hlt : (n : Int) % k + 1 < k := by
    by_contra hge
    have heq : (n : Int) % k + 1 = k := by omega
    rw [hmod, heq, Int.emod_self] at hnz
    exact hnz rfl
  rw [hmod, Int.emod_eq_of_lt (by omega) hlt]

theorem connectedRun_count (k : Int) (hk : 0 < k) (hk64 : k < 2 ^ 63)
    (c0 : ConsulBackend) (tr0 : List Call) (hcount : c0.Count = 0)
    (hrefresh : c0.Config.CacheRefresh = k) (hco : c0.Config.CacheOnly = false)
    (n : Nat) (c : ConsulBackend) (tr : List Call) (hrun : ConnectedRun c0 tr0 n c tr) :
    c.Count = (n : Int) % k := by
  induction hrun with
  | zero => simp [hcount]
  | @step n c c1 tr tr1 w rgState hrun hconn hreload ih =>
    have hcfgc := connectedRun_config c0 tr0 n c tr hrun
    obtain ⟨d, tr2, hderive, hagents⟩ := hconn
    obtain ⟨_, hdcfg, hdcount, hdue, hnot⟩ :=
      Reload_connected_listing w c tr rgState d tr2 c1 tr1 hderive hagents hreload
    obtain ⟨hdc, hiff, hstep⟩ := driftDue_after_inc k hk hk64 n c d hdcfg
      (by rw [hcfgc]; exact hrefresh) (by rw [hcfgc]; exact hco) ih hdcount
    by_cases hd : driftDue d
    · rw [(hdue hd).1]
      have hdvd := hiff.1 hd
      push_cast
      exact (Int.dvd_iff_emod_eq_zero.1 hdvd).symm
    · rw [(hnot hd).1, hdc]
      push_cast
      exact hstep hd

/-- C9: starting from Count = 0 with refresh threshold k > 0 (a Go int), after
n connected cycles the next call of `Reload`, the call number n + 1, when it
is itself a connected cycle, lists the services of every connected agent if
CacheOnly is false and n + 1 is a multiple of k, and makes no listing call
otherwise; and when CacheOnly is true `getServices` returns the empty list,
leaves the counter alone and makes no call. -/
theorem C9_drift_schedule (k : Int) (hk : 0 < k) (hk64 : k < 2 ^ 63)
    (c0 : ConsulBackend) (tr0 : List Call) (hcount : c0.Count = 0)
    (hrefresh : c0.Config.CacheRefresh = k)
    (n : Nat) (c : ConsulBackend) (tr : List Call) (hrun : ConnectedRun c0 tr0 n c tr)
    (w : World) (rgState : State) (d : ConsulBackend) (tr1 : List Call)
    (hderive : derive w c tr rgState = .ok (true, d, tr1)) (hagents : d.Agents ≠ [])
    (c1 : ConsulBackend) (tr2 : List Call)
    (hreload : Reload w c tr rgState = .ok (c1, tr2)) :
    listingCalls tr2
        = listingCalls tr ++
          (if c0.Config.CacheOnly = false ∧ k ∣ (n : Int) + 1
            then (d.Agents.map Prod.fst).map Call.services else []) ∧
      (listingCalls tr2 ≠ listingCalls tr ↔ (c0.Config.CacheOnly = false ∧ k ∣ (n : Int) + 1)) ∧
      (∀ (w1 : World) (c2 : ConsulBackend) (tr3 : List Call) (agentid : String),
        c2.Config.CacheOnly = true → getServices w1 c2 tr3 agentid = .ok ([], c2, tr3)) := by
  have hcfgc := connectedRun_config c0 tr0 n c tr hrun
  obtain ⟨_, hdcfg, hdcount, hdue, hnot⟩ :=
    Reload_connected_listing w c tr rgState d tr1 c1 tr2 hderive hagents hreload
  have hne : (d.Agents.map Prod.fst).map Call.services ≠ [] := by
    simpa using hagents
  have hmain : listingCalls tr2
      = listingCalls tr ++
        (if c0.Config.CacheOnly = false ∧ k ∣ (n : Int) + 1
          then (d.Agents.map Prod.fst).map Call.services else []) := by
    cases hco : c0.Config.CacheOnly with
    | true =>
      have hnd : ¬ driftDue d := by
        unfold driftDue
        rw [hdcfg, hcfgc, hco]
        simp
      rw [(hnot hnd).2]
      simp
    | false =>
      have hc := connectedRun_count k hk hk64 c0 tr0 hcount hrefresh hco n c tr hrun
      obtain ⟨_, hiff, _⟩ := driftDue_after_inc k hk hk64 n c d hdcfg
        (by rw [hcfgc]; exact hrefresh) (by rw [hcfgc]; exact hco) hc hdcount
      by_cases hd : driftDue d
      · rw [(hdue hd).2]
        simp [hiff.1 hd]
      · have hndvd : ¬ k ∣ (n : Int) + 1 := fun h => hd (hiff.2 h)
        rw [(hnot hd).2]
        simp [hndvd]
  refine ⟨hmain, ?_, ?_⟩
  · rw [hmain]
    by_cases hcond : c0.Config.CacheOnly = false ∧ k ∣ (n : Int) + 1
    · simp only [hcond, and_self, if_true, iff_true]
      intro heq
      have h2 : (d.Agents.map Prod.fst).map Call.services = [] := by
        simpa using heq
      exact hne h2
    · simp [hcond]
  · intro w1 c2 tr3 agentid hco
    simp [getServices, hco]

/-- C9 at the default threshold 3: two connected cycles from the backend
built by `New` make no listing call, and the third call of `Reload` lists the
services of both connected agents. -/
theorem C9_drift_schedule_witness :
    ∃ c tr d tr1 c1 tr2,
      ConnectedRun freshBackend [] 2 c tr ∧
      derive twoMemberWorld c tr snapshotOldHost = .ok (true, d, tr1) ∧
      Reload twoMemberWorld c tr snapshotOldHost = .ok (c1, tr2) ∧
      listingCalls tr = [] ∧
      listingCalls tr2 = [Call.services "old-host", Call.services "new-host"] :=
  ⟨_, _, _, _, _, _,
    ConnectedRun.step twoMemberWorld snapshotOldHost
      (ConnectedRun.step twoMemberWorld snapshotOldHost ConnectedRun.zero
        ⟨_, _, rfl, by decide⟩ rfl)
      ⟨_, _, rfl, by decide⟩ rfl,
    rfl, rfl, by decide,
    (C9_drift_schedule 3 (by decide) (by decide) freshBackend [] rfl rfl 2 _ _
      (ConnectedRun.step twoMemberWorld snapshotOldHost
        (ConnectedRun.step twoMemberWorld snapshotOldHost ConnectedRun.zero
          ⟨_, _, rfl, by decide⟩ rfl)
        ⟨_, _, rfl, by decide⟩ rfl)
      twoMemberWorld snapshotOldHost _ _ rfl (by decide) _ _ rfl).1.trans (by decide)⟩

/-! ### Maps: keys, extensionality, repeated assignments -/

theorem mapGet?_eq_none_of_not_mem {V : Type} (m : GoMap V) (k : String)
    (h : k ∉ mapKeys m) : mapGet? m k = none := by
  induction m with
  | nil => rfl
  | cons e rest ih =>
    obtain ⟨k1, v1⟩ := e
    simp only [mapKeys, List.map_cons, List.mem_cons, not_or] at h
    have h1 : ¬ k1 = k := fun h2 => h.1 h2.symm
    simp only [mapGet?, h1, if_false]
    exact ih h.2

theorem mapKeys_mapSet {V : Type} (m : GoMap V) (k : String) (v : V) :
    mapKeys (mapSet m k v) = if k ∈ mapKeys m then mapKeys m else mapKeys m ++ [k] := by
  induction m with
  | nil => simp [mapSet, mapKeys]
  | cons e rest ih =>
    obtain ⟨k1, v1⟩ := e
    by_cases h1 : k1 = k
    · subst h1
      simp [mapSet, mapKeys]
    · have h2 : ¬ k = k1 := fun h => h1 h.symm
      simp only [mapSet, h1, if_false]
      simp only [mapKeys, List.map_cons, List.mem_cons, h2, false_or] at ih ⊢
      rw [ih]
      split <;> simp

theorem mapKeys_nodup_mapSet {V : Type} (m : GoMap V) (k : String) (v : V)
    (h : (mapKeys m).Nodup) : (mapKeys (mapSet m k v)).Nodup := by
  rw [mapKeys_mapSet]
  split
  · exact h
  · rename_i hk
    rw [List.nodup_append]
    refine ⟨h, by simp, ?_⟩
    intro a ha hb
    simp only [List.mem_singleton] at hb
    subst hb
    exact hk ha

theorem map_ext {V : Type} (m1 m2 : GoMap V) (hnd : (mapKeys m1).Nodup)
    (hkeys : mapKeys m1 = mapKeys m2) (hget : ∀ k, mapGet? m1 k = mapGet? m2 k) : m1 = m2 := by
  induction m1 generalizing m2 with
  | nil =>
    cases m2 with
    | nil => rfl
    | cons e rest => simp [mapKeys] at hkeys
  | cons e1 rest1 ih =>
    cases m2 with
    | nil => simp [mapKeys] at hkeys
    | cons e2 rest2 =>
      obtain ⟨k1, v1⟩ := e1
      obtain ⟨k2, v2⟩ := e2
      simp only [mapKeys, List.map_cons, List.cons.injEq] at hkeys
      obtain ⟨hk, hrest⟩ := hkeys
      subst hk
      have hv : v1 = v2 := by
        have h1 := hget k1
        simpa [mapGet?] using h1
      subst hv
      simp only [mapKeys, List.map_cons, List.nodup_cons] at hnd
      have htail : rest1 = rest2 := by
        apply ih rest2 hnd.2 hrest
        intro k
        by_cases hkk : k1 = k
        · subst hkk
          rw [mapGet?_eq_none_of_not_mem rest1 k1 hnd.1,
            mapGet?_eq_none_of_not_mem rest2 k1 (by rw [mapKeys, ← hrest]; exact hnd.1)]
        · have h1 := hget k
          simpa [mapGet?, hkk] using h1
      rw [htail]

theorem mapGet?_mapUpdates {V : Type} (us : List (String × V)) (m : GoMap V) (k : String) :
    mapGet? (mapUpdates us m) k = lookupAfter k us (mapGet? m k) := by
  induction us generalizing m with
  | nil => rfl
  | cons u rest ih =>
    simp only [mapUpdates, List.foldl_cons, lookupAfter]
    have h := ih (mapSet m u.1 u.2)
    simp only [mapUpdates] at h
    rw [h, mapGet?_mapSet]

theorem lookupAfter_cases {V : Type} (k : String) (us : List (String × V)) :
    (∀ b : Option V, lookupAfter k us b = b) ∨
      (∀ b b1 : Option V, lookupAfter k us b = lookupAfter k us b1) := by
  induction us with
  | nil => exact Or.inl (fun b => rfl)
  | cons u rest ih =>
    by_cases hu : u.1 = k
    · right
      intro b b1
      simp [lookupAfter, hu]
    · rcases ih with h | h
      · left
        intro b
        simp [lookupAfter, hu, h]
      · right
        intro b b1
        simp only [lookupAfter, hu, if_false]
        exact h b b1

theorem lookupAfter_idem {V : Type} (k : String) (us : List (String × V)) (b : Option V) :
    lookupAfter k us (lookupAfter k us b) = lookupAfter k us b := by
  rcases lookupAfter_cases k us with h | h
  · rw [h, h]
  · exact h _ _

theorem mapKeys_subset_mapSet {V : Type} (m : GoMap V) (k k1 : String) (v : V)
    (h : k1 ∈ mapKeys m) : k1 ∈ mapKeys (mapSet m k v) := by
  rw [mapKeys_mapSet]
  split
  · exact h
  · exact List.mem_append_left _ h

theorem mem_mapKeys_mapSet_self {V : Type} (m : GoMap V) (k : String) (v : V) :
    k ∈ mapKeys (mapSet m k v) := by
  rw [mapKeys_mapSet]
  split
  · assumption
  · simp

theorem mapKeys_subset_mapUpdates {V : Type} (us : List (String × V)) (m : GoMap V)
    (k : String) (h : k ∈ mapKeys m) : k ∈ mapKeys (mapUpdates us m) := by
  induction us generalizing m with
  | nil => exact h
  | cons u rest ih =>
    simp only [mapUpdates, List.foldl_cons]
    exact ih (mapSet m u.1 u.2) (mapKeys_subset_mapSet m u.1 k u.2 h)

theorem mem_mapKeys_mapUpdates {V : Type} (us : List (String × V)) (m : GoMap V)
    (u : String × V) (hu : u ∈ us) : u.1 ∈ mapKeys (mapUpdates us m) := by
  induction us generalizing m with
  | nil => simp at hu
  | cons u1 rest ih =>
    simp only [mapUpdates, List.foldl_cons]
    rcases List.mem_cons.1 hu with h | h
    · subst h
      exact mapKeys_subset_mapUpdates rest _ _ (mem_mapKeys_mapSet_self m u.1 u.2)
    · exact ih (mapSet m u1.1 u1.2) h

theorem mapKeys_mapUpdates_of_mem {V : Type} (us : List (String × V)) (m : GoMap V)
    (h : ∀ u ∈ us, u.1 ∈ mapKeys m) : mapKeys (mapUpdates us m) = mapKeys m := by
  induction us generalizing m with
  | nil => rfl
  | cons u rest ih =>
    simp only [mapUpdates, List.foldl_cons]
    have hu : u.1 ∈ mapKeys m := h u (List.mem_cons_self _ _)
    have hk : mapKeys (mapSet m u.1 u.2) = mapKeys m := by
      rw [mapKeys_mapSet, if_pos hu]
    have h2 := ih (mapSet m u.1 u.2) (by
      intro u2 hu2
      rw [hk]
      exact h u2 (List.mem_cons_of_mem _ hu2))
    simp only [mapUpdates] at h2
    rw [h2, hk]

theorem mapKeys_nodup_mapUpdates {V : Type} (us : List (String × V)) (m : GoMap V)
    (h : (mapKeys m).Nodup) : (mapKeys (mapUpdates us m)).Nodup := by
  induction us generalizing m with
  | nil => exact h
  | cons u rest ih =>
    simp only [mapUpdates, List.foldl_cons]
    exact ih (mapSet m u.1 u.2) (mapKeys_nodup_mapSet m u.1 u.2 h)

/-- Making the same assignments a second time changes nothing. -/
theorem mapUpdates_idem {V : Type} (us : List (String × V)) (m : GoMap V)
    (h : (mapKeys m).Nodup) : mapUpdates us (mapUpdates us m) = mapUpdates us m := by
  apply map_ext
  · exact mapKeys_nodup_mapUpdates us _ (mapKeys_nodup_mapUpdates us m h)
  · exact mapKeys_mapUpdates_of_mem us _ (fun u hu => mem_mapKeys_mapUpdates us m u hu)
  · intro k
    rw [mapGet?_mapUpdates, mapGet?_mapUpdates, lookupAfter_idem]

/-! ### What the generators append -/

theorem mapStr_mapSet_self (m : GoMap String) (k v : String) : mapStr (mapSet m k v) k = v := by
  simp [mapStr, mapGet?_mapSet]

theorem currentRecords_append (m : GoMap ConsulRecords) (s k : String)
    (recs : List AgentServiceRegistration) :
    currentRecords (appendCurrent (ensureRecords m s) s recs) k
      = currentRecords m k ++ (if s = k then recs else []) := by
  simp only [currentRecords, mapGet?_appendCurrent, mapGet?_ensureRecords]
  by_cases hk : s = k
  · subst hk
    cases hg : mapGet? m s <;> simp
  · simp [hk]

theorem previousRecords_append (m : GoMap ConsulRecords) (s k : String)
    (recs : List AgentServiceRegistration) :
    previousRecords (appendCurrent (ensureRecords m s) s recs) k = previousRecords m k := by
  simp only [previousRecords, mapGet?_appendCurrent, mapGet?_ensureRecords]
  by_cases hk : s = k
  · subst hk
    cases hg : mapGet? m s <;> simp
  · simp [hk]

theorem mesosStep_maps (leadHost : String) (c : ConsulBackend) (slave : Slave) :
    (mesosStep leadHost c slave).SlaveIDIP = mapSet c.SlaveIDIP slave.ID slave.PID.Host ∧
    (mesosStep leadHost c slave).SlaveIPID = mapSet c.SlaveIPID slave.PID.Host slave.ID ∧
    (mesosStep leadHost c slave).SlaveIDHostname
      = mapSet c.SlaveIDHostname slave.ID (shortHostname slave.Hostname) ∧
    (mesosStep leadHost c slave).SlaveHostnameID
      = mapSet c.SlaveHostnameID (shortHostname slave.Hostname) slave.ID := by
  unfold mesosStep shortHostname
  simp only []
  cases strconvAtoi slave.PID.Port <;> exact ⟨rfl, rfl, rfl, rfl⟩

theorem mesosFold_maps (leadHost : String) (slaves : List Slave) (c : ConsulBackend) :
    (slaves.foldl (mesosStep leadHost) c).SlaveIDIP
      = mapUpdates (slaves.map fun slave => (slave.ID, slave.PID.Host)) c.SlaveIDIP ∧
    (slaves.foldl (mesosStep leadHost) c).SlaveIPID
      = mapUpdates (slaves.map fun slave => (slave.PID.Host, slave.ID)) c.SlaveIPID ∧
    (slaves.foldl (mesosStep leadHost) c).SlaveIDHostname
      = mapUpdates (slaves.map fun slave => (slave.ID, shortHostname slave.Hostname))
          c.SlaveIDHostname ∧
    (slaves.foldl (mesosStep leadHost) c).SlaveHostnameID
      = mapUpdates (slaves.map fun slave => (shortHostname slave.Hostname, slave.ID))
          c.SlaveHostnameID := by
  induction slaves generalizing c with
  | nil => exact ⟨rfl, rfl, rfl, rfl⟩
  | cons slave rest ih =>
    obtain ⟨h1, h2, h3, h4⟩ := ih (mesosStep leadHost c slave)
    obtain ⟨e1, e2, e3, e4⟩ := mesosStep_maps leadHost c slave
    simp only [List.foldl_cons, List.map_cons, mapUpdates]
    simp only [mapUpdates] at h1 h2 h3 h4
    rw [h1, h2, h3, h4, e1, e2, e3, e4]
    exact ⟨rfl, rfl, rfl, rfl⟩

theorem mesosStep_buckets (leadHost : String) (c : ConsulBackend) (slave : Slave) (k : String) :
    currentRecords (mesosStep leadHost c slave).MesosRecords k
        = currentRecords c.MesosRecords k
          ++ mesosContribution c.ServicePrefix leadHost slave k ∧
      previousRecords (mesosStep leadHost c slave).MesosRecords k
        = previousRecords c.MesosRecords k := by
  unfold mesosStep mesosContribution slaveTags shortHostname
  simp only []
  cases hp : strconvAtoi slave.PID.Port with
  | none =>
    simp only []
    by_cases hk : slave.ID = k <;> simp [hk]
  | some port =>
    simp only [currentRecords_append, previousRecords_append, mapStr_mapSet_self]
    refine ⟨?_, by first | rfl | trivial⟩
    by_cases hk : slave.ID = k
    · simp only [hk, if_true]
      by_cases hm : slave.Master = "true" <;> by_cases hl : slave.PID.Host = leadHost <;>
        simp [hm, hl]
    · simp [hk]

theorem mesosFold_buckets (leadHost : String) (slaves : List Slave) (c : ConsulBackend)
    (k : String) :
    currentRecords (slaves.foldl (mesosStep leadHost) c).MesosRecords k
        = currentRecords c.MesosRecords k
          ++ mesosRecordsFor c.ServicePrefix leadHost k slaves ∧
      previousRecords (slaves.foldl (mesosStep leadHost) c).MesosRecords k
        = previousRecords c.MesosRecords k := by
  induction slaves generalizing c with
  | nil => simp [mesosRecordsFor]
  | cons slave rest ih =>
    obtain ⟨h1, h2⟩ := ih (mesosStep leadHost c slave)
    obtain ⟨e1, e2⟩ := mesosStep_buckets leadHost c slave k
    have hp : (mesosStep leadHost c slave).ServicePrefix = c.ServicePrefix := by
      have h3 := congrArg ConsulBackend.ServicePrefix (mesosStep_frame leadHost c slave)
      exact h3
    simp only [List.foldl_cons, mesosRecordsFor]
    rw [h1, h2, e1, e2, hp, List.append_assoc]
    exact ⟨rfl, rfl⟩

theorem frameworkStep_buckets (w : World) (i : Nat) (c : ConsulBackend) (framework : Framework)
    (k : String) :
    currentRecords (frameworkStep w i c framework).FrameworkRecords k
        = currentRecords c.FrameworkRecords k ++ frameworkContribution w i c framework k ∧
      previousRecords (frameworkStep w i c framework).FrameworkRecords k
        = previousRecords c.FrameworkRecords k := by
  unfold frameworkStep frameworkContribution
  cases ha : framework.Active with
  | false => simp
  | true =>
    simp only [Bool.not_true, Bool.false_eq_true, if_false, if_true]
    cases hp : strconvAtoi framework.PID.Port with
    | none => simp
    | some port =>
      simp only []
      by_cases hs : frameworkSlave w i c framework = ""
      · simp [hs]
      · simp only [hs, if_false, currentRecords_append, previousRecords_append]
        exact ⟨by first | rfl | trivial, by first | rfl | trivial⟩

theorem frameworkRecordsFor_fields (w : World) (c1 c2 : ConsulBackend)
    (g1 : c1.ServicePrefix = c2.ServicePrefix) (g2 : c1.SlaveIPID = c2.SlaveIPID)
    (g3 : c1.SlaveIDHostname = c2.SlaveIDHostname) (k : String) (i : Nat)
    (frameworks : List Framework) :
    frameworkRecordsFor w c1 k i frameworks = frameworkRecordsFor w c2 k i frameworks := by
  induction frameworks generalizing i with
  | nil => rfl
  | cons framework rest ih =>
    simp only [frameworkRecordsFor, frameworkContribution, frameworkSlave, g1, g2, g3, ih]

theorem frameworkFold_buckets (w : World) (i : Nat) (frameworks : List Framework)
    (c : ConsulBackend) (k : String) :
    currentRecords (frameworkLoop w i frameworks c).FrameworkRecords k
        = currentRecords c.FrameworkRecords k ++ frameworkRecordsFor w c k i frameworks ∧
      previousRecords (frameworkLoop w i frameworks c).FrameworkRecords k
        = previousRecords c.FrameworkRecords k := by
  induction frameworks generalizing i c with
  | nil => simp [frameworkRecordsFor, frameworkLoop]
  | cons framework rest ih =>
    obtain ⟨h1, h2⟩ := ih (i + 1) (frameworkStep w i c framework)
    obtain ⟨e1, e2⟩ := frameworkStep_buckets w i c framework k
    have hfr := frameworkStep_frame w i c framework
    have hcongr : frameworkRecordsFor w (frameworkStep w i c framework) k (i + 1) rest
        = frameworkRecordsFor w c k (i + 1) rest := by
      have g1 : (frameworkStep w i c framework).ServicePrefix = c.ServicePrefix := by
        have h3 := congrArg ConsulBackend.ServicePrefix hfr
        exact h3
      have g2 : (frameworkStep w i c framework).SlaveIPID = c.SlaveIPID := by
        have h3 := congrArg ConsulBackend.SlaveIPID hfr
        exact h3
      have g3 : (frameworkStep w i c framework).SlaveIDHostname = c.SlaveIDHostname := by
        have h3 := congrArg ConsulBackend.SlaveIDHostname hfr
        exact h3
      exact frameworkRecordsFor_fields w _ c g1 g2 g3 k (i + 1) rest
    simp only [frameworkLoop, frameworkRecordsFor]
    rw [h1, h2, e1, e2, hcongr, List.append_assoc]
    exact ⟨rfl, rfl⟩

theorem currentChecks_append (m : GoMap ConsulChecks) (s k : String)
    (hcs : List AgentCheckRegistration) :
    currentChecks (appendCurrentChecks (ensureChecks m s) s hcs) k
      = currentChecks m k ++ (if s = k then hcs else []) := by
  simp only [currentChecks, mapGet?_appendCurrentChecks, mapGet?_ensureChecks]
  by_cases hk : s = k
  · subst hk
    cases hg : mapGet? m s <;> simp
  · simp [hk]

theorem previousChecks_append (m : GoMap ConsulChecks) (s k : String)
    (hcs : List AgentCheckRegistration) :
    previousChecks (appendCurrentChecks (ensureChecks m s) s hcs) k = previousChecks m k := by
  simp only [previousChecks, mapGet?_appendCurrentChecks, mapGet?_ensureChecks]
  by_cases hk : s = k
  · subst hk
    cases hg : mapGet? m s <;> simp
  · simp [hk]

theorem portChecks_congr (w : World) (c1 c2 : ConsulBackend) (task : Task) (address : String)
    (h : eraseTaskBuckets c1 = eraseTaskBuckets c2) (ports : List String) :
    portChecks w c1 task address ports = portChecks w c2 task address ports := by
  have h1 : c1.ServicePrefix = c2.ServicePrefix := by
    have h3 := congrArg ConsulBackend.ServicePrefix h
    exact h3
  have h2 : c1.SlaveIDHostname = c2.SlaveIDHostname := by
    have h3 := congrArg ConsulBackend.SlaveIDHostname h
    exact h3
  induction ports with
  | nil => rfl
  | cons port rest ih => simp only [portChecks, h1, h2, ih]

theorem portStep_checks (w : World) (task : Task) (address : String) (c : ConsulBackend)
    (port : String) (k : String) :
    mapGet? (portStep w task address c port).HealthChecks k
      = if task.SlaveID = k then
          (mapGet? c.HealthChecks task.SlaveID).map (fun b =>
            { b with Current := b.Current ++ portChecks w c task address [port] })
        else mapGet? c.HealthChecks k := by
  unfold portStep portChecks portChecks
  cases hp : strconvAtoi port with
  | none =>
    by_cases hk : task.SlaveID = k
    · subst hk
      cases hg : mapGet? c.HealthChecks task.SlaveID <;> simp [hg]
    · simp [hk]
  | some p =>
    simp only [mapGet?_appendCurrentChecks, List.append_nil]

theorem portsFold_checks (w : World) (task : Task) (address : String) (ports : List String)
    (c : ConsulBackend) (k : String) :
    mapGet? (ports.foldl (portStep w task address) c).HealthChecks k
      = if task.SlaveID = k then
          (mapGet? c.HealthChecks task.SlaveID).map (fun b =>
            { b with Current := b.Current ++ portChecks w c task address ports })
        else mapGet? c.HealthChecks k := by
  induction ports generalizing c with
  | nil =>
    by_cases hk : task.SlaveID = k
    · subst hk
      cases hg : mapGet? c.HealthChecks task.SlaveID <;> simp [hg, portChecks]
    · simp [hk]
  | cons port rest ih =>
    rw [List.foldl_cons, ih]
    rw [portChecks_congr w _ c task address (portStep_frame w task address c port)]
    by_cases hk : task.SlaveID = k
    · subst hk
      simp only [portStep_checks, if_true]
      cases hg : mapGet? c.HealthChecks task.SlaveID with
      | none => simp
      | some b => simp [portChecks]
    · simp [portStep_checks, hk]

theorem taskContribution_congr (w : World) (c1 c2 : ConsulBackend)
    (h : eraseTaskBuckets c1 = eraseTaskBuckets c2) (task : Task) (k : String) :
    taskContribution c1 task k = taskContribution c2 task k ∧
      checkContribution w c1 task k = checkContribution w c2 task k := by
  have h1 : c1.ServicePrefix = c2.ServicePrefix := by
    have h3 := congrArg ConsulBackend.ServicePrefix h
    exact h3
  have h2 : c1.SlaveIDHostname = c2.SlaveIDHostname := by
    have h3 := congrArg ConsulBackend.SlaveIDHostname h
    exact h3
  have h4 : c1.IPSources = c2.IPSources := by
    have h3 := congrArg ConsulBackend.IPSources h
    exact h3
  have h5 : c1.SlaveIDIP = c2.SlaveIDIP := by
    have h3 := congrArg ConsulBackend.SlaveIDIP h
    exact h3
  have hpr := portRecord_congr c1 c2 task
  have hpc := portChecks_congr w c1 c2 task
  constructor
  · simp only [taskContribution, getAddress, fanOutRecords, taskBaseID, h1, h2, h4, h5]
    split
    · split <;> simp [hpr _ h]
    · rfl
  · simp only [checkContribution, getAddress, checkFanOut, h1, h2, h4, h5]
    split
    · split <;> simp [hpc _ h]
    · rfl

theorem taskStep_buckets (w : World) (c c1 : ConsulBackend) (task : Task)
    (h : taskStep w c task = .ok c1) (k : String) :
    currentRecords c1.TaskRecords k = currentRecords c.TaskRecords k ++ taskContribution c task k ∧
      previousRecords c1.TaskRecords k = previousRecords c.TaskRecords k ∧
      currentChecks c1.HealthChecks k
        = currentChecks c.HealthChecks k ++ checkContribution w c task k ∧
      previousChecks c1.HealthChecks k = previousChecks c.HealthChecks k := by
  unfold taskStep at h
  by_cases hrun : task.State = "TASK_RUNNING"
  · simp only [hrun, ne_eq, not_true_eq_false, if_false] at h
    cases haddr : getAddress c task with
    | error e =>
      rw [haddr] at h
      cases h
    | ok address =>
      rw [haddr] at h
      simp only [] at h
      by_cases hports : task.Ports = []
      · simp only [hports, List.length_nil, if_true] at h
        injection h with h
        subst h
        simp only [currentRecords_append, previousRecords_append, currentChecks_append,
          previousChecks_append, taskContribution, checkContribution, hrun, haddr, true_and,
          fanOutRecords, checkFanOut, hports, if_true, createService_eq, stringsJoin_three,
          taskBaseID]
        by_cases hk : task.SlaveID = k <;> simp [hk]
      · have hlen : ¬ task.Ports.length = 0 := by
          simpa [List.length_eq_zero] using hports
        simp only [hlen, if_false] at h
        injection h with h
        subst h
        have hr := portsFold_records w task address task.Ports
          { c with TaskRecords := ensureRecords c.TaskRecords task.SlaveID,
                   HealthChecks := ensureChecks c.HealthChecks task.SlaveID } k
        have hc := portsFold_checks w task address task.Ports
          { c with TaskRecords := ensureRecords c.TaskRecords task.SlaveID,
                   HealthChecks := ensureChecks c.HealthChecks task.SlaveID } k
        rw [portRecord_congr _ c task address (by rfl)] at hr
        rw [portChecks_congr w _ c task address (by rfl)] at hc
        simp only [mapGet?_ensureRecords, mapGet?_ensureChecks] at hr hc
        simp only [currentRecords, previousRecords, currentChecks, previousChecks, hr, hc,
          taskContribution, checkContribution, hrun, haddr, true_and, fanOutRecords, checkFanOut,
          hports, if_false]
        by_cases hk : task.SlaveID = k
        · subst hk
          cases hg1 : mapGet? c.TaskRecords task.SlaveID <;>
            cases hg2 : mapGet? c.HealthChecks task.SlaveID <;> simp
        · simp [hk]
  · simp only [hrun, ne_eq, not_false_eq_true, if_true] at h
    injection h with h
    subst h
    simp [taskContribution, checkContribution, hrun]

theorem taskRecordsFor_congr (w : World) (c1 c2 : ConsulBackend)
    (h : eraseTaskBuckets c1 = eraseTaskBuckets c2) (k : String) (tasks : List Task) :
    taskRecordsFor c1 k tasks = taskRecordsFor c2 k tasks ∧
      taskChecksFor w c1 k tasks = taskChecksFor w c2 k tasks := by
  induction tasks with
  | nil => exact ⟨rfl, rfl⟩
  | cons task rest ih =>
    obtain ⟨e1, e2⟩ := taskContribution_congr w c1 c2 h task k
    simp only [taskRecordsFor, taskChecksFor, e1, e2, ih.1, ih.2]
    constructor <;> first | rfl | trivial

theorem generateTaskRecords_buckets (w : World) (tasks : List Task) (c c1 : ConsulBackend)
    (h : generateTaskRecords w c tasks = .ok c1) (k : String) :
    currentRecords c1.TaskRecords k = currentRecords c.TaskRecords k ++ taskRecordsFor c k tasks ∧
      previousRecords c1.TaskRecords k = previousRecords c.TaskRecords k ∧
      currentChecks c1.HealthChecks k
        = currentChecks c.HealthChecks k ++ taskChecksFor w c k tasks ∧
      previousChecks c1.HealthChecks k = previousChecks c.HealthChecks k := by
  induction tasks generalizing c with
  | nil =>
    simp only [generateTaskRecords] at h
    injection h with h
    subst h
    simp [taskRecordsFor, taskChecksFor]
  | cons task rest ih =>
    simp only [generateTaskRecords] at h
    cases hstep : taskStep w c task with
    | error e =>
      rw [hstep] at h
      cases h
    | ok c2 =>
      rw [hstep] at h
      obtain ⟨h1, h2, h3, h4⟩ := ih c2 h
      obtain ⟨e1, e2, e3, e4⟩ := taskStep_buckets w c c2 task hstep k
      obtain ⟨g1, g2⟩ := taskRecordsFor_congr w c2 c (taskStep_frame w c c2 task hstep) k rest
      simp only [taskRecordsFor, taskChecksFor]
      rw [h1, h2, h3, h4, e1, e2, e3, e4, g1, g2, List.append_assoc, List.append_assoc]
      exact ⟨rfl, rfl, rfl, rfl⟩

theorem allTaskRecordsFor_congr (w : World) (c1 c2 : ConsulBackend)
    (h : eraseTaskBuckets c1 = eraseTaskBuckets c2) (k : String) (frameworks : List Framework) :
    allTaskRecordsFor c1 k frameworks = allTaskRecordsFor c2 k frameworks ∧
      allTaskChecksFor w c1 k frameworks = allTaskChecksFor w c2 k frameworks := by
  induction frameworks with
  | nil => exact ⟨rfl, rfl⟩
  | cons framework rest ih =>
    obtain ⟨e1, e2⟩ := taskRecordsFor_congr w c1 c2 h k framework.Tasks
    simp only [allTaskRecordsFor, allTaskChecksFor, e1, e2, ih.1, ih.2]
    constructor <;> first | rfl | trivial

theorem generateAllTaskRecords_buckets (w : World) (frameworks : List Framework)
    (c c1 : ConsulBackend) (h : generateAllTaskRecords w c frameworks = .ok c1) (k : String) :
    currentRecords c1.TaskRecords k
        = currentRecords c.TaskRecords k ++ allTaskRecordsFor c k frameworks ∧
      previousRecords c1.TaskRecords k = previousRecords c.TaskRecords k ∧
      currentChecks c1.HealthChecks k
        = currentChecks c.HealthChecks k ++ allTaskChecksFor w c k frameworks ∧
      previousChecks c1.HealthChecks k = previousChecks c.HealthChecks k := by
  induction frameworks generalizing c with
  | nil =>
    simp only [generateAllTaskRecords] at h
    injection h with h
    subst h
    simp [allTaskRecordsFor, allTaskChecksFor]
  | cons framework rest ih =>
    simp only [generateAllTaskRecords] at h
    cases hstep : generateTaskRecords w c framework.Tasks with
    | error e =>
      rw [hstep] at h
      cases h
    | ok c2 =>
      rw [hstep] at h
      obtain ⟨h1, h2, h3, h4⟩ := ih c2 h
      obtain ⟨e1, e2, e3, e4⟩ := generateTaskRecords_buckets w framework.Tasks c c2 hstep k
      obtain ⟨g1, g2⟩ := allTaskRecordsFor_congr w c2 c
        (generateTaskRecords_frame w framework.Tasks c c2 hstep) k rest
      simp only [allTaskRecordsFor, allTaskChecksFor]
      rw [h1, h2, h3, h4, e1, e2, e3, e4, g1, g2, List.append_assoc, List.append_assoc]
      exact ⟨rfl, rfl, rfl, rfl⟩

/-! ### The derivation as a function of the snapshot -/

theorem getHealthChecks_congr (w1 w2 : World) (hkv : w2.KVGet = w1.KVGet)
    (hum : w2.Unmarshal = w1.Unmarshal) (task : Task) (id address : String) (port : Int) :
    getHealthChecks w2 task id address port = getHealthChecks w1 task id address port := by
  have he : ∀ endpoint, endpointCheck w2 id address port endpoint
      = endpointCheck w1 id address port endpoint := by
    intro endpoint
    simp only [endpointCheck, hkv, hum]
  simp only [getHealthChecks, he]

theorem portChecks_fields (w1 w2 : World) (hkv : w2.KVGet = w1.KVGet)
    (hum : w2.Unmarshal = w1.Unmarshal) (c1 c2 : ConsulBackend)
    (g1 : c1.ServicePrefix = c2.ServicePrefix) (g3 : c1.SlaveIDHostname = c2.SlaveIDHostname)
    (task : Task) (address : String) (ports : List String) :
    portChecks w2 c2 task address ports = portChecks w1 c1 task address ports := by
  induction ports with
  | nil => rfl
  | cons port rest ih =>
    simp only [portChecks, g1, g3, ih, getHealthChecks_congr w1 w2 hkv hum]

theorem taskContribution_fields (w1 w2 : World) (hkv : w2.KVGet = w1.KVGet)
    (hum : w2.Unmarshal = w1.Unmarshal) (c1 c2 : ConsulBackend)
    (g1 : c1.ServicePrefix = c2.ServicePrefix) (g3 : c1.SlaveIDHostname = c2.SlaveIDHostname)
    (g4 : c1.IPSources = c2.IPSources) (g5 : c1.SlaveIDIP = c2.SlaveIDIP)
    (task : Task) (k : String) :
    taskContribution c2 task k = taskContribution c1 task k ∧
      checkContribution w2 c2 task k = checkContribution w1 c1 task k := by
  have hpc := portChecks_fields w1 w2 hkv hum c1 c2 g1 g3 task
  have hpr : ∀ address, portRecord c2 task address = portRecord c1 task address := by
    intro address
    funext port
    simp [portRecord, taskBaseID, g1, g3]
  constructor
  · simp only [taskContribution, getAddress, fanOutRecords, taskBaseID, g1, g3, g4, g5]
    split
    · split <;> simp [hpr]
    · rfl
  · simp only [checkContribution, getAddress, checkFanOut, g1, g3, g4, g5]
    split
    · split <;> simp [hpc, getHealthChecks_congr w1 w2 hkv hum]
    · rfl

theorem allTaskRecordsFor_fields (w1 w2 : World) (hkv : w2.KVGet = w1.KVGet)
    (hum : w2.Unmarshal = w1.Unmarshal) (c1 c2 : ConsulBackend)
    (g1 : c1.ServicePrefix = c2.ServicePrefix) (g3 : c1.SlaveIDHostname = c2.SlaveIDHostname)
    (g4 : c1.IPSources = c2.IPSources) (g5 : c1.SlaveIDIP = c2.SlaveIDIP)
    (k : String) (frameworks : List Framework) :
    allTaskRecordsFor c2 k frameworks = allTaskRecordsFor c1 k frameworks ∧
      allTaskChecksFor w2 c2 k frameworks = allTaskChecksFor w1 c1 k frameworks := by
  have htasks : ∀ tasks : List Task,
      taskRecordsFor c2 k tasks = taskRecordsFor c1 k tasks ∧
        taskChecksFor w2 c2 k tasks = taskChecksFor w1 c1 k tasks := by
    intro tasks
    induction tasks with
    | nil => exact ⟨rfl, rfl⟩
    | cons task rest ih =>
      obtain ⟨e1, e2⟩ := taskContribution_fields w1 w2 hkv hum c1 c2 g1 g3 g4 g5 task k
      simp only [taskRecordsFor, taskChecksFor, e1, e2, ih.1, ih.2]
      constructor <;> first | rfl | trivial
  induction frameworks with
  | nil => exact ⟨rfl, rfl⟩
  | cons framework rest ih =>
    obtain ⟨e1, e2⟩ := htasks framework.Tasks
    simp only [allTaskRecordsFor, allTaskChecksFor, e1, e2, ih.1, ih.2]
    constructor <;> first | rfl | trivial

/-- What a connected derivation does to the identity maps and to the buckets:
the identity maps receive the assignments of the nodes of the snapshot, and
every Current list is extended by what the snapshot contributes; the Previous
lists are left alone. -/
theorem derive_buckets (w : World) (c : ConsulBackend) (tr : List Call) (rgState : State)
    (d : ConsulBackend) (tr1 : List Call)
    (h : derive w c tr rgState = .ok (true, d, tr1)) :
    ∃ lead : String × String,
      leaderHostPort rgState.Leader = .ok lead ∧
      d.ServicePrefix = c.ServicePrefix ∧ d.IPSources = c.IPSources ∧
      d.SlaveIDIP
        = mapUpdates (rgState.Slaves.map fun slave => (slave.ID, slave.PID.Host)) c.SlaveIDIP ∧
      d.SlaveIPID
        = mapUpdates (rgState.Slaves.map fun slave => (slave.PID.Host, slave.ID)) c.SlaveIPID ∧
      d.SlaveIDHostname
        = mapUpdates (rgState.Slaves.map fun slave => (slave.ID, shortHostname slave.Hostname))
            c.SlaveIDHostname ∧
      d.SlaveHostnameID
        = mapUpdates (rgState.Slaves.map fun slave => (shortHostname slave.Hostname, slave.ID))
            c.SlaveHostnameID ∧
      ∀ k,
        currentRecords d.MesosRecords k
          = currentRecords c.MesosRecords k
            ++ mesosRecordsFor d.ServicePrefix lead.1 k rgState.Slaves ∧
        previousRecords d.MesosRecords k = previousRecords c.MesosRecords k ∧
        currentRecords d.FrameworkRecords k
          = currentRecords c.FrameworkRecords k
            ++ frameworkRecordsFor w d k 0 rgState.Frameworks ∧
        previousRecords d.FrameworkRecords k = previousRecords c.FrameworkRecords k ∧
        currentRecords d.TaskRecords k
          = currentRecords c.TaskRecords k ++ allTaskRecordsFor d k rgState.Frameworks ∧
        previousRecords d.TaskRecords k = previousRecords c.TaskRecords k ∧
        currentChecks d.HealthChecks k
          = currentChecks c.HealthChecks k ++ allTaskChecksFor w d k rgState.Frameworks ∧
        previousChecks d.HealthChecks k = previousChecks c.HealthChecks k := by
  unfold derive at h
  simp only [] at h
  obtain ⟨hfr, _⟩ := connectAgents_frame w
    { c with Count := incInt64 c.Count, State := rgState } tr
  cases hconn : connectAgents w { c with Count := incInt64 c.Count, State := rgState } tr with
  | mk ok r =>
    obtain ⟨c3, tr3⟩ := r
    rw [hconn] at h hfr
    simp only [] at hfr
    cases ok with
    | false =>
      simp only [] at h
      injection h with h
      injection h with h _
      cases h
    | true =>
      simp only [] at h
      unfold generateMesosRecords at h
      have hstate : c3.State = rgState := by
        have h3 := congrArg ConsulBackend.State hfr
        exact h3
      rw [hstate] at h
      cases hl : leaderHostPort rgState.Leader with
      | error e =>
        rw [hl] at h
        cases h
      | ok lead =>
        rw [hl] at h
        simp only [] at h
        cases ht : generateAllTaskRecords w
            (generateFrameworkRecords w (rgState.Slaves.foldl (mesosStep lead.1) c3))
            rgState.Frameworks with
        | error e =>
          rw [ht] at h
          cases h
        | ok c5 =>
          rw [ht] at h
          simp only [] at h
          injection h with h
          injection h with _ h
          injection h with h1 _
          subst h1
          have fM := mesosFold_frame lead.1 rgState.Slaves c3
          have hFstate : (rgState.Slaves.foldl (mesosStep lead.1) c3).State = rgState := by
            have h3 := congrArg ConsulBackend.State fM
            exact h3.trans hstate
          have fF : eraseFramework
              (generateFrameworkRecords w (rgState.Slaves.foldl (mesosStep lead.1) c3))
              = eraseFramework (rgState.Slaves.foldl (mesosStep lead.1) c3) :=
            frameworkFold_frame w 0 _ _
          have fT := generateAllTaskRecords_frame w _ _ c5 ht
          obtain ⟨m1, m2, m3, m4⟩ := mesosFold_maps lead.1 rgState.Slaves c3
          have a1 : c3.SlaveIDIP = c.SlaveIDIP := by
            have h3 := congrArg ConsulBackend.SlaveIDIP hfr
            exact h3
          have a2 : c3.SlaveIPID = c.SlaveIPID := by
            have h3 := congrArg ConsulBackend.SlaveIPID hfr
            exact h3
          have a3 : c3.SlaveIDHostname = c.SlaveIDHostname := by
            have h3 := congrArg ConsulBackend.SlaveIDHostname hfr
            exact h3
          have a4 : c3.SlaveHostnameID = c.SlaveHostnameID := by
            have h3 := congrArg ConsulBackend.SlaveHostnameID hfr
            exact h3
          have a5 : c3.ServicePrefix = c.ServicePrefix := by
            have h3 := congrArg ConsulBackend.ServicePrefix hfr
            exact h3
          have a6 : c3.IPSources = c.IPSources := by
            have h3 := congrArg ConsulBackend.IPSources hfr
            exact h3
          have b1 : c3.MesosRecords = c.MesosRecords := by
            have h3 := congrArg ConsulBackend.MesosRecords hfr
            exact h3
          have b2 : c3.FrameworkRecords = c.FrameworkRecords := by
            have h3 := congrArg ConsulBackend.FrameworkRecords hfr
            exact h3
          have b3 : c3.TaskRecords = c.TaskRecords := by
            have h3 := congrArg ConsulBackend.TaskRecords hfr
            exact h3
          have b4 : c3.HealthChecks = c.HealthChecks := by
            have h3 := congrArg ConsulBackend.HealthChecks hfr
            exact h3
          have p5 : c5.ServicePrefix = c3.ServicePrefix := by
            have g3 := congrArg ConsulBackend.ServicePrefix fT
            have g2 := congrArg ConsulBackend.ServicePrefix fF
            have g1 := congrArg ConsulBackend.ServicePrefix fM
            exact g3.trans (g2.trans g1)
          have p6 : c5.IPSources = c3.IPSources := by
            have g3 := congrArg ConsulBackend.IPSources fT
            have g2 := congrArg ConsulBackend.IPSources fF
            have g1 := congrArg ConsulBackend.IPSources fM
            exact g3.trans (g2.trans g1)
          have q1 : c5.SlaveIDIP = (rgState.Slaves.foldl (mesosStep lead.1) c3).SlaveIDIP := by
            have g3 := congrArg ConsulBackend.SlaveIDIP fT
            have g2 := congrArg ConsulBackend.SlaveIDIP fF
            exact g3.trans g2
          have q2 : c5.SlaveIPID = (rgState.Slaves.foldl (mesosStep lead.1) c3).SlaveIPID := by
            have g3 := congrArg ConsulBackend.SlaveIPID fT
            have g2 := congrArg ConsulBackend.SlaveIPID fF
            exact g3.trans g2
          have q3 : c5.SlaveIDHostname
              = (rgState.Slaves.foldl (mesosStep lead.1) c3).SlaveIDHostname := by
            have g3 := congrArg ConsulBackend.SlaveIDHostname fT
            have g2 := congrArg ConsulBackend.SlaveIDHostname fF
            exact g3.trans g2
          have q4 : c5.SlaveHostnameID
              = (rgState.Slaves.foldl (mesosStep lead.1) c3).SlaveHostnameID := by
            have g3 := congrArg ConsulBackend.SlaveHostnameID fT
            have g2 := congrArg ConsulBackend.SlaveHostnameID fF
            exact g3.trans g2
          have r1 : c5.MesosRecords = (rgState.Slaves.foldl (mesosStep lead.1) c3).MesosRecords := by
            have g3 := congrArg ConsulBackend.MesosRecords fT
            have g2 := congrArg ConsulBackend.MesosRecords fF
            exact g3.trans g2
          have r2 : c5.FrameworkRecords
              = (generateFrameworkRecords w
                  (rgState.Slaves.foldl (mesosStep lead.1) c3)).FrameworkRecords := by
            have g3 := congrArg ConsulBackend.FrameworkRecords fT
            exact g3
          have r3 : (generateFrameworkRecords w
                (rgState.Slaves.foldl (mesosStep lead.1) c3)).TaskRecords = c3.TaskRecords := by
            have g2 := congrArg ConsulBackend.TaskRecords fF
            have g1 := congrArg ConsulBackend.TaskRecords fM
            exact g2.trans g1
          have r4 : (generateFrameworkRecords w
                (rgState.Slaves.foldl (mesosStep lead.1) c3)).HealthChecks = c3.HealthChecks := by
            have g2 := congrArg ConsulBackend.HealthChecks fF
            have g1 := congrArg ConsulBackend.HealthChecks fM
            exact g2.trans g1
          have r5 : (rgState.Slaves.foldl (mesosStep lead.1) c3).FrameworkRecords
              = c3.FrameworkRecords := by
            have g1 := congrArg ConsulBackend.FrameworkRecords fM
            exact g1
          refine ⟨lead, rfl, p5.trans a5, p6.trans a6, ?_, ?_, ?_, ?_, ?_⟩
          · rw [q1, m1, a1]
          · rw [q2, m2, a2]
          · rw [q3, m3, a3]
          · rw [q4, m4, a4]
          · intro k
            obtain ⟨u1, u2⟩ := mesosFold_buckets lead.1 rgState.Slaves c3 k
            have hfold := frameworkFold_buckets w 0 rgState.Frameworks
              (rgState.Slaves.foldl (mesosStep lead.1) c3) k
            have hgen : generateFrameworkRecords w (rgState.Slaves.foldl (mesosStep lead.1) c3)
                = frameworkLoop w 0 rgState.Frameworks
                    (rgState.Slaves.foldl (mesosStep lead.1) c3) := by
              unfold generateFrameworkRecords
              rw [hFstate]
            obtain ⟨v1, v2⟩ := hfold
            obtain ⟨t1, t2, t3, t4⟩ := generateAllTaskRecords_buckets w rgState.Frameworks _ c5 ht k
            obtain ⟨x1, x2⟩ := allTaskRecordsFor_congr w c5 _ fT k rgState.Frameworks
            have y1 : frameworkRecordsFor w c5 k 0 rgState.Frameworks
                = frameworkRecordsFor w (rgState.Slaves.foldl (mesosStep lead.1) c3) k 0
                    rgState.Frameworks :=
              frameworkRecordsFor_fields w c5 _
                (by
                  have g3 := congrArg ConsulBackend.ServicePrefix fT
                  have g2 := congrArg ConsulBackend.ServicePrefix fF
                  exact g3.trans g2)
                q2 q3 k 0 rgState.Frameworks
            refine ⟨?_, ?_, ?_, ?_, ?_, ?_, ?_, ?_⟩
            · rw [r1, u1, b1, p5]
            · rw [r1, u2, b1]
            · rw [r2, hgen, v1, r5, b2, y1]
            · rw [r2, hgen, v2, r5, b2]
            · rw [t1, r3, b3, x1]
            · rw [t2, r3, b3]
            · rw [t3, r4, b4, x2]
            · rw [t4, r4, b4]

/-! ### Idempotence -/

theorem getDeltaServices_nil (old : List AgentServiceRegistration) :
    getDeltaServices old [] = [] := rfl

theorem getDeltaChecks_nil (old : List AgentCheckRegistration) (context : String) :
    getDeltaChecks old [] context = [] := rfl

theorem additionBlock_eq (m : GoMap ConsulRecords) (s : String)
    (acc : List AgentServiceRegistration) :
    additionBlock m s acc
      = acc ++ getDeltaServices (previousRecords m s) (currentRecords m s) := by
  unfold additionBlock previousRecords currentRecords
  cases mapGet? m s with
  | none => simp [getDeltaServices_nil]
  | some b => rfl

theorem checkAdditions_eq (c : ConsulBackend) (s : String) :
    checkAdditions c s
      = getDeltaChecks (previousChecks c.HealthChecks s) (currentChecks c.HealthChecks s) "add" := by
  unfold checkAdditions previousChecks currentChecks
  cases mapGet? c.HealthChecks s with
  | none => simp [getDeltaChecks_nil]
  | some b => simp

theorem removalBlock_lists (m : GoMap ConsulRecords) (s : String)
    (acc : List AgentServiceRegistration × List AgentServiceRegistration) :
    (removalBlock m s acc).2
      = (acc.1 ++ getDeltaServices (currentRecords m s) (previousRecords m s),
          acc.2 ++ currentRecords m s) := by
  unfold removalBlock previousRecords currentRecords
  cases mapGet? m s with
  | none => simp [getDeltaServices_nil]
  | some b => rfl

theorem checkRemovalBlock_list (m : GoMap ConsulChecks) (s : String) :
    (checkRemovalBlock m s).2
      = getDeltaChecks (currentChecks m s) (previousChecks m s) "purge" := by
  unfold checkRemovalBlock previousChecks currentChecks
  cases mapGet? m s with
  | none => simp [getDeltaChecks_nil]
  | some b => simp

theorem cleanupHead_lists (c : ConsulBackend) (s : String) :
    (cleanupHead c s).2
      = ((getDeltaServices (currentRecords c.MesosRecords s) (previousRecords c.MesosRecords s)
            ++ getDeltaServices (currentRecords c.FrameworkRecords s)
                (previousRecords c.FrameworkRecords s))
            ++ getDeltaServices (currentRecords c.TaskRecords s) (previousRecords c.TaskRecords s),
          (currentRecords c.MesosRecords s ++ currentRecords c.FrameworkRecords s)
            ++ currentRecords c.TaskRecords s) := by
  unfold cleanupHead
  simp only [removalBlock_lists, List.nil_append]

theorem promoted_lists (m1 m : GoMap ConsulRecords) (s : String)
    (h : mapGet? m1 s = (mapGet? m s).map promoted) :
    currentRecords m1 s = [] ∧ previousRecords m1 s = currentRecords m s := by
  unfold currentRecords previousRecords
  rw [h]
  cases mapGet? m s with
  | none => exact ⟨rfl, rfl⟩
  | some b => exact ⟨rfl, rfl⟩

theorem promotedChecks_lists (m1 m : GoMap ConsulChecks) (s : String)
    (h : mapGet? m1 s = (mapGet? m s).map promotedChecks) :
    currentChecks m1 s = [] ∧ previousChecks m1 s = currentChecks m s := by
  unfold currentChecks previousChecks
  rw [h]
  cases mapGet? m s with
  | none => exact ⟨rfl, rfl⟩
  | some b => exact ⟨rfl, rfl⟩

/-! ### The search by hostname in any order -/

theorem slaveByHostname_append (short : String) (m : GoMap String) (e : String × String) :
    slaveByHostname short (m ++ [e])
      = if e.2 = short then e.1 else slaveByHostname short m := by
  unfold slaveByHostname
  rw [List.foldl_append]
  rfl

theorem slaveByHostname_none (short : String) (m : GoMap String)
    (h : ∀ e ∈ m, e.2 ≠ short) : slaveByHostname short m = "" := by
  induction m using List.reverseRecOn with
  | nil => rfl
  | append_singleton rest e ih =>
    rw [slaveByHostname_append, if_neg (h e (by simp))]
    exact ih fun e1 he1 => h e1 (by simp [he1])

theorem slaveByHostname_mem (short : String) (m : GoMap String) :
    slaveByHostname short m = "" ∨ (slaveByHostname short m, short) ∈ m := by
  induction m using List.reverseRecOn with
  | nil => exact Or.inl rfl
  | append_singleton rest e ih =>
    rw [slaveByHostname_append]
    by_cases he : e.2 = short
    · rw [if_pos he]
      right
      rw [← he]
      simp
    · rw [if_neg he]
      rcases ih with h | h
      · exact Or.inl h
      · exact Or.inr (by simp [h])

theorem slaveByHostname_unique (short : String) (m : GoMap String) (id : String)
    (hmem : (id, short) ∈ m) (huniq : ∀ e ∈ m, e.2 = short → e.1 = id) :
    slaveByHostname short m = id := by
  induction m using List.reverseRecOn with
  | nil => simp at hmem
  | append_singleton rest e ih =>
    rw [slaveByHostname_append]
    by_cases he : e.2 = short
    · rw [if_pos he]
      exact huniq e (by simp) he
    · rw [if_neg he]
      have hmem2 : (id, short) ∈ rest := by
        rcases List.mem_append.1 hmem with h | h
        · exact h
        · simp only [List.mem_singleton] at h
          exact absurd (by rw [← h]) he
      exact ih hmem2 fun e1 he1 => huniq e1 (by simp [he1])

theorem rangeOrder_perm (w : World) (i : Nat) (m : GoMap String) :
    (rangeOrder w i m).Perm m := by
  unfold rangeOrder
  split
  · assumption
  · exact List.Perm.refl m

theorem rangeOrder_of_perm (w : World) (i : Nat) (m : GoMap String)
    (h : (w.RangeOrder i m).Perm m) : rangeOrder w i m = w.RangeOrder i m := by
  unfold rangeOrder
  rw [if_pos h]

/-- With two node ids of one short hostname the owner that the search by
hostname finds depends on the order of the visit: the node visited last. -/
theorem frameworkSlave_tie :
    frameworkSlave twoMemberWorld 0 { SlaveIDHostname := [("S1", "node"), ("S2", "node")] }
        { Hostname := "node.example.com", PID := { Host := "10.9.9.9", Port := "8080" } } = "S2" ∧
      frameworkSlave reverseOrderWorld 0 { SlaveIDHostname := [("S1", "node"), ("S2", "node")] }
        { Hostname := "node.example.com", PID := { Host := "10.9.9.9", Port := "8080" } }
        = "S1" := by
  decide

theorem slaveByHostname_of_perm (short : String) (m1 m2 : GoMap String) (hperm : m1.Perm m2)
    (hties : ∀ e1 ∈ m2, ∀ e2 ∈ m2, e1.2 = e2.2 → e1.1 = e2.1) :
    slaveByHostname short m1 = slaveByHostname short m2 := by
  by_cases hex : ∃ e ∈ m2, e.2 = short
  · obtain ⟨e, he, hs⟩ := hex
    have hmem : (e.1, short) ∈ m2 := by
      rw [← hs]
      exact he
    have huniq : ∀ x ∈ m2, x.2 = short → x.1 = e.1 := fun x hx hxs =>
      hties x hx e he (hxs.trans hs.symm)
    rw [slaveByHostname_unique short m2 e.1 hmem huniq,
      slaveByHostname_unique short m1 e.1 (hperm.mem_iff.2 hmem)
        (fun x hx hxs => huniq x (hperm.mem_iff.1 hx) hxs)]
  · have hno : ∀ e ∈ m2, e.2 ≠ short := fun e he hs => hex ⟨e, he, hs⟩
    rw [slaveByHostname_none short m2 hno,
      slaveByHostname_none short m1 (fun e he => hno e (hperm.mem_iff.1 he))]

theorem frameworkSlave_of_no_tie (w1 w2 : World) (i : Nat) (c1 c2 : ConsulBackend)
    (g2 : c1.SlaveIPID = c2.SlaveIPID) (g3 : c1.SlaveIDHostname = c2.SlaveIDHostname)
    (hties : ∀ e1 ∈ c2.SlaveIDHostname, ∀ e2 ∈ c2.SlaveIDHostname, e1.2 = e2.2 → e1.1 = e2.1)
    (framework : Framework) :
    frameworkSlave w1 i c1 framework = frameworkSlave w2 i c2 framework := by
  unfold frameworkSlave
  rw [g2, g3,
    slaveByHostname_of_perm _ _ _ (rangeOrder_perm w1 i c2.SlaveIDHostname) hties,
    slaveByHostname_of_perm _ _ _ (rangeOrder_perm w2 i c2.SlaveIDHostname) hties]

theorem frameworkRecordsFor_of_no_tie (w1 w2 : World) (c1 c2 : ConsulBackend)
    (g1 : c1.ServicePrefix = c2.ServicePrefix) (g2 : c1.SlaveIPID = c2.SlaveIPID)
    (g3 : c1.SlaveIDHostname = c2.SlaveIDHostname)
    (hties : ∀ e1 ∈ c2.SlaveIDHostname, ∀ e2 ∈ c2.SlaveIDHostname, e1.2 = e2.2 → e1.1 = e2.1)
    (k : String) (i : Nat) (frameworks : List Framework) :
    frameworkRecordsFor w1 c1 k i frameworks = frameworkRecordsFor w2 c2 k i frameworks := by
  induction frameworks generalizing i with
  | nil => rfl
  | cons framework rest ih =>
    simp only [frameworkRecordsFor, frameworkContribution, g1, ih,
      frameworkSlave_of_no_tie w1 w2 i c1 c2 g2 g3 hties framework]

/-- Two derivations of one snapshot around a `Cleanup`, when no two node ids
share a short hostname: the second one ends with the same identity maps as the
first, and for a node that exactly one connected agent maps to, and whose
Current lists were empty before the first derivation, each Current list after
the second derivation equals the Previous list. -/
theorem second_derivation (w1 w2 : World) (c0 : ConsulBackend) (tr0 : List Call)
    (rgState : State) (d1 : ConsulBackend) (t1 : List Call) (c1 : ConsulBackend)
    (t2 : List Call) (d2 : ConsulBackend) (t3 : List Call)
    (hfirst : derive w1 c0 tr0 rgState = .ok (true, d1, t1))
    (hclean : Cleanup w1 d1 (Register w1 d1 t1) = .ok (c1, t2))
    (hsecond : derive w2 c1 t2 rgState = .ok (true, d2, t3))
    (hkv : w2.KVGet = w1.KVGet) (hum : w2.Unmarshal = w1.Unmarshal)
    (hmaps : (mapKeys c0.SlaveIDIP).Nodup ∧ (mapKeys c0.SlaveIPID).Nodup ∧
      (mapKeys c0.SlaveIDHostname).Nodup ∧ (mapKeys c0.SlaveHostnameID).Nodup)
    (hties : ∀ e1 ∈ d1.SlaveIDHostname, ∀ e2 ∈ d1.SlaveIDHostname, e1.2 = e2.2 → e1.1 = e2.1)
    (s : String) (honly : agentsOf d1 s (d1.Agents.map Prod.fst) = 1)
    (hempty : currentRecords c0.MesosRecords s = [] ∧ currentRecords c0.FrameworkRecords s = [] ∧
      currentRecords c0.TaskRecords s = [] ∧ currentChecks c0.HealthChecks s = []) :
    d2.SlaveHostnameID = d1.SlaveHostnameID ∧
      previousRecords d2.MesosRecords s = currentRecords d2.MesosRecords s ∧
      previousRecords d2.FrameworkRecords s = currentRecords d2.FrameworkRecords s ∧
      previousRecords d2.TaskRecords s = currentRecords d2.TaskRecords s ∧
      previousChecks d2.HealthChecks s = currentChecks d2.HealthChecks s := by
  obtain ⟨lead1, l1, p1, i1, a1, a2, a3, a4, hb1⟩ :=
    derive_buckets w1 c0 tr0 rgState d1 t1 hfirst
  obtain ⟨lead2, l2, p2, i2, e1, e2, e3, e4, hb2⟩ :=
    derive_buckets w2 c1 t2 rgState d2 t3 hsecond
  obtain ⟨hframe, hpromote⟩ := Cleanup_effect w1 d1 (Register w1 d1 t1) c1 t2 hclean
  have f1 : c1.SlaveIDIP = d1.SlaveIDIP := by
    have h3 := congrArg ConsulBackend.SlaveIDIP hframe
    exact h3
  have f2 : c1.SlaveIPID = d1.SlaveIPID := by
    have h3 := congrArg ConsulBackend.SlaveIPID hframe
    exact h3
  have f3 : c1.SlaveIDHostname = d1.SlaveIDHostname := by
    have h3 := congrArg ConsulBackend.SlaveIDHostname hframe
    exact h3
  have f4 : c1.SlaveHostnameID = d1.SlaveHostnameID := by
    have h3 := congrArg ConsulBackend.SlaveHostnameID hframe
    exact h3
  have f5 : c1.ServicePrefix = d1.ServicePrefix := by
    have h3 := congrArg ConsulBackend.ServicePrefix hframe
    exact h3
  have f6 : c1.IPSources = d1.IPSources := by
    have h3 := congrArg ConsulBackend.IPSources hframe
    exact h3
  have g1 : d2.SlaveIDIP = d1.SlaveIDIP := by
    rw [e1, f1, a1, mapUpdates_idem _ _ hmaps.1]
  have g2 : d2.SlaveIPID = d1.SlaveIPID := by
    rw [e2, f2, a2, mapUpdates_idem _ _ hmaps.2.1]
  have g3 : d2.SlaveIDHostname = d1.SlaveIDHostname := by
    rw [e3, f3, a3, mapUpdates_idem _ _ hmaps.2.2.1]
  have g4 : d2.SlaveHostnameID = d1.SlaveHostnameID := by
    rw [e4, f4, a4, mapUpdates_idem _ _ hmaps.2.2.2]
  have g5 : d2.ServicePrefix = d1.ServicePrefix := p2.trans f5
  have g6 : d2.IPSources = d1.IPSources := i2.trans f6
  have hlead : lead2 = lead1 := by
    rw [l1] at l2
    injection l2 with l2
    exact l2.symm
  have hp := hpromote s
  rw [honly] at hp
  simp only [Function.iterate_one, bucketsAt, promoteAt, Prod.mk.injEq] at hp
  obtain ⟨hp1, hp2, hp3, hp4⟩ := hp
  obtain ⟨x1, x2⟩ := promoted_lists _ _ s hp1
  obtain ⟨y1, y2⟩ := promoted_lists _ _ s hp2
  obtain ⟨z1, z2⟩ := promoted_lists _ _ s hp3
  obtain ⟨u1, u2⟩ := promotedChecks_lists _ _ s hp4
  obtain ⟨m1, m2, n1, n2, o1, o2, q1, q2⟩ := hb1 s
  obtain ⟨m3, m4, n3, n4, o3, o4, q3, q4⟩ := hb2 s
  have hF : frameworkRecordsFor w2 d2 s 0 rgState.Frameworks
      = frameworkRecordsFor w1 d1 s 0 rgState.Frameworks :=
    frameworkRecordsFor_of_no_tie w2 w1 d2 d1 g5 g2 g3 hties s 0 rgState.Frameworks
  obtain ⟨hT, hC⟩ := allTaskRecordsFor_fields w1 w2 hkv hum d1 d2 g5.symm g3.symm g6.symm g1.symm
    s rgState.Frameworks
  refine ⟨g4, ?_, ?_, ?_, ?_⟩
  · rw [m4, x2, m3, x1, m1, hempty.1, g5, hlead]
  · rw [n4, y2, n3, y1, n1, hempty.2.1, hF]
  · rw [o4, z2, o3, z1, o1, hempty.2.2.1, hT]
  · rw [q4, u2, q3, u1, q1, hempty.2.2.2, hC]

/-- C2, counterexample: two cycles from the backend that `New` builds with
the refresh threshold 2, on the same snapshot, the same member and the same
(empty) key-value store. On the second run the agent node1 is connected, its
name maps to S1, the addition set of S1 is empty, and the removal set of the
agent holds the service that its listing reports and the engine never
derived; the service is deregistered. -/
theorem C2_counterexample_drift_listing :
    ∃ c1 t1 d2 t2 c2 t3 listed c4 t4,
      New true { NewConfig with CacheRefresh := 2 } [] 0 = .ok (some refreshTwoBackend) ∧
      Reload strayWorld refreshTwoBackend [] snapshotNode1 = .ok (c1, t1) ∧
      derive strayWorld c1 t1 snapshotNode1 = .ok (true, d2, t2) ∧
      Cleanup strayWorld d2 (Register strayWorld d2 t2) = .ok (c2, t3) ∧
      "node1" ∈ d2.Agents.map Prod.fst ∧
      mapStr d2.SlaveHostnameID "node1" = "S1" ∧
      serviceAdditions d2 "S1" = [] ∧
      getServices strayWorld (cleanupHead d2 "S1").1 (Register strayWorld d2 t2) "node1"
        = .ok (listed, c4, t4) ∧
      (cleanupHead d2 "S1").2.1 ++ getDeltaServices (cleanupHead d2 "S1").2.2 listed
        = [{ ID := "mesos-dns:stray", Name := "stray" }] ∧
      Call.serviceDeregister "node1" "mesos-dns:stray" ∈ t3 :=
  ⟨_, _, _, _, _, _, _, _, _, rfl, rfl, rfl, rfl, by decide, by decide, by decide, rfl,
    by decide, by decide⟩

/-- C2, amended: `getDeltaServices xs xs` is empty and `getDeltaChecks ys ys`
is empty in both modes; and when `Reload` runs twice with the same snapshot
and the same key-value store contents, both runs connecting, whatever the
order in which each run visits the hostname map, and no two node ids share a
short hostname, then for every node id s that exactly one connected agent maps
to and whose Current lists were empty before the first run, the additions of
services and of checks and the generation removals of services and of checks
computed for s on the second run are empty, so that the removal set of
services is the drift part alone, which is empty when no listing is due. -/
theorem C2_idempotence (w1 w2 : World) (c0 : ConsulBackend) (tr0 : List Call)
    (rgState : State) (d1 : ConsulBackend) (t1 : List Call) (c1 : ConsulBackend)
    (t2 : List Call) (d2 : ConsulBackend) (t3 : List Call)
    (hfirst : derive w1 c0 tr0 rgState = .ok (true, d1, t1))
    (hclean : Cleanup w1 d1 (Register w1 d1 t1) = .ok (c1, t2))
    (hsecond : derive w2 c1 t2 rgState = .ok (true, d2, t3))
    (hkv : w2.KVGet = w1.KVGet) (hum : w2.Unmarshal = w1.Unmarshal)
    (hmaps : (mapKeys c0.SlaveIDIP).Nodup ∧ (mapKeys c0.SlaveIPID).Nodup ∧
      (mapKeys c0.SlaveIDHostname).Nodup ∧ (mapKeys c0.SlaveHostnameID).Nodup)
    (hties : ∀ e1 ∈ d1.SlaveIDHostname, ∀ e2 ∈ d1.SlaveIDHostname, e1.2 = e2.2 → e1.1 = e2.1)
    (s : String) (honly : agentsOf d1 s (d1.Agents.map Prod.fst) = 1)
    (hempty : currentRecords c0.MesosRecords s = [] ∧ currentRecords c0.FrameworkRecords s = [] ∧
      currentRecords c0.TaskRecords s = [] ∧ currentChecks c0.HealthChecks s = []) :
    (∀ xs : List AgentServiceRegistration, getDeltaServices xs xs = []) ∧
      (∀ ys : List AgentCheckRegistration,
        getDeltaChecks ys ys "add" = [] ∧ getDeltaChecks ys ys "purge" = []) ∧
      d2.SlaveHostnameID = d1.SlaveHostnameID ∧
      serviceAdditions d2 s = [] ∧
      checkAdditions d2 s = [] ∧
      (cleanupHead d2 s).2.1 = [] ∧
      (checkRemovalBlock d2.HealthChecks s).2 = [] ∧
      (∀ (w : World) (tr : List Call) (agentid : String)
          (listed : List AgentServiceRegistration) (c4 : ConsulBackend) (t4 : List Call),
        getServices w (cleanupHead d2 s).1 tr agentid = .ok (listed, c4, t4) →
          (cleanupHead d2 s).2.1 ++ getDeltaServices (cleanupHead d2 s).2.2 listed
              = getDeltaServices (cleanupHead d2 s).2.2 listed ∧
            (¬ driftDue d2 →
              (cleanupHead d2 s).2.1 ++ getDeltaServices (cleanupHead d2 s).2.2 listed = [])) := by
  obtain ⟨hmap, hM, hF, hT, hC⟩ := second_derivation w1 w2 c0 tr0 rgState d1 t1 c1 t2 d2 t3
    hfirst hclean hsecond hkv hum hmaps hties s honly hempty
  have hadd : serviceAdditions d2 s = [] := by
    unfold serviceAdditions
    simp only [additionBlock_eq, hM, hF, hT, getDeltaServices_self, List.append_nil]
  have hcadd : checkAdditions d2 s = [] := by
    rw [checkAdditions_eq, hC, getDeltaChecks_self]
  have hrem : (cleanupHead d2 s).2.1 = [] := by
    rw [cleanupHead_lists]
    simp only [hM, hF, hT, getDeltaServices_self, List.append_nil]
  have hcrem : (checkRemovalBlock d2.HealthChecks s).2 = [] := by
    rw [checkRemovalBlock_list, hC, getDeltaChecks_self]
  refine ⟨getDeltaServices_self, fun ys => ⟨getDeltaChecks_self ys _, getDeltaChecks_self ys _⟩,
    hmap, hadd, hcadd, hrem, hcrem, ?_⟩
  intro w tr agentid listed c4 t4 hget
  rw [hrem]
  refine ⟨rfl, ?_⟩
  intro hnd
  have hnd2 : ¬ driftDue (cleanupHead d2 s).1 := hnd
  obtain ⟨_, hnot⟩ := getServices_cases w _ tr agentid listed c4 t4 hget
  rw [(hnot hnd2).2.2]
  rfl

/-- C2, amended, at two cycles from the backend built by `New` with two
connected agents and two nodes, the second cycle visiting the hostname map in
the reverse order, on a snapshot with a framework that is owned by hostname. -/
theorem C2_idempotence_witness :
    ∃ d1 t1 c1 t2 d2 t3,
      derive twoMemberWorld freshBackend [] snapshotOwnedByHostname = .ok (true, d1, t1) ∧
      Cleanup twoMemberWorld d1 (Register twoMemberWorld d1 t1) = .ok (c1, t2) ∧
      derive reverseOrderWorld c1 t2 snapshotOwnedByHostname = .ok (true, d2, t3) ∧
      (∀ e1 ∈ d1.SlaveIDHostname, ∀ e2 ∈ d1.SlaveIDHostname, e1.2 = e2.2 → e1.1 = e2.1) ∧
      agentsOf d1 "S1" (d1.Agents.map Prod.fst) = 1 ∧
      (previousRecords d2.FrameworkRecords "S1").map (fun r => r.ID) = ["mesos-dns:marathon"] ∧
      serviceAdditions d2 "S1" = [] ∧ (cleanupHead d2 "S1").2.1 = [] :=
  ⟨_, _, _, _, _, _, rfl, rfl, rfl, by decide, by decide, by decide,
    (C2_idempotence twoMemberWorld reverseOrderWorld freshBackend [] snapshotOwnedByHostname
      _ _ _ _ _ _ rfl rfl rfl rfl rfl (by decide) (by decide) "S1" (by decide)
      (by decide)).2.2.2.1,
    (C2_idempotence twoMemberWorld reverseOrderWorld freshBackend [] snapshotOwnedByHostname
      _ _ _ _ _ _ rfl rfl rfl rfl rfl (by decide) (by decide) "S1" (by decide)
      (by decide)).2.2.2.2.2.1⟩

/-! ### Placeholder substitution -/

theorem replaceChars_of_not_contains (old new : List Char) (l : List Char)
    (h : containsChars old l = false) : replaceChars old new 0 l = l := by
  induction l with
  | nil => rfl
  | cons c cs ih =>
    simp only [containsChars, Bool.or_eq_false_iff] at h
    simp only [replaceChars, h.1, Bool.false_eq_true, if_false, ih h.2]

theorem stringsReplace_of_not_contains (s old new : String)
    (h : stringsContains s old = false) : stringsReplace s old new = s := by
  unfold stringsReplace
  rw [replaceChars_of_not_contains old.toList new.toList s.toList h]
  rfl

/-- C15: `evalVars` returns false exactly when the string contains the PORT
placeholder and the port is 0, and then leaves the string alone; otherwise it
returns true and the string becomes the result of replacing every IP
placeholder by the address and then every PORT placeholder by the decimal
rendering of the port; a string with neither placeholder is unchanged. -/
theorem C15_evalVars (s address : String) (port : Int) :
    ((evalVars s address port).1 = false ↔
        (stringsContains s "\x7bPORT\x7d" = true ∧ port = 0)) ∧
      ((evalVars s address port).1 = false → (evalVars s address port).2 = s) ∧
      ((evalVars s address port).1 = true →
        (evalVars s address port).2
          = stringsReplace (stringsReplace s "\x7bIP\x7d" address) "\x7bPORT\x7d"
              (strconvItoa port)) ∧
      (stringsContains s "\x7bIP\x7d" = false → stringsContains s "\x7bPORT\x7d" = false →
        evalVars s address port = (true, s)) ∧
      evalVars "\x7bIP\x7d:\x7bPORT\x7d" "10.0.0.1" 80 = (true, "10.0.0.1:80") ∧
      evalVars "\x7bIP\x7d:\x7bPORT\x7d" "10.0.0.1" 0 = (false, "\x7bIP\x7d:\x7bPORT\x7d") := by
  refine ⟨?_, ?_, ?_, ?_, by decide, by decide⟩
  · unfold evalVars
    by_cases hc : stringsContains s "\x7bPORT\x7d" = true <;> by_cases hp : port = 0 <;>
      simp [hc, hp]
  · unfold evalVars
    by_cases hc : stringsContains s "\x7bPORT\x7d" = true <;> by_cases hp : port = 0 <;>
      simp [hc, hp]
  · unfold evalVars
    by_cases hc : stringsContains s "\x7bPORT\x7d" = true <;> by_cases hp : port = 0 <;>
      simp [hc, hp]
  · intro hip hport
    unfold evalVars
    simp only [hport, Bool.false_and, Bool.false_eq_true, if_false]
    rw [stringsReplace_of_not_contains s _ address hip,
      stringsReplace_of_not_contains s _ _ hport]

/-! ### Health-check templating -/

theorem endpointFold_mem (w : World) (id address : String) (port : Int)
    (endpoints : List String) (init : List AgentCheckRegistration)
    (hc : AgentCheckRegistration) :
    hc ∈ endpoints.foldl
        (fun hcs endpoint =>
          match endpointCheck w id address port endpoint with
          | none => hcs
          | some check => hcs ++ [check])
        init
      ↔ hc ∈ init ∨ ∃ endpoint ∈ endpoints, endpointCheck w id address port endpoint = some hc := by
  induction endpoints generalizing init with
  | nil => simp
  | cons e rest ih =>
    rw [List.foldl_cons, ih]
    cases he : endpointCheck w id address port e with
    | none => simp [he]
    | some check =>
      simp only [List.mem_append, List.mem_singleton, List.mem_cons, exists_eq_or_imp, he,
        Option.some.injEq, List.not_mem_nil, or_false]
      constructor
      · rintro ((h | h) | h)
        · exact Or.inl h
        · exact Or.inr (Or.inl h.symm)
        · exact Or.inr (Or.inr h)
      · rintro (h | h | h)
        · exact Or.inl (Or.inl h)
        · exact Or.inl (Or.inr h.symm)
        · exact Or.inr h

theorem getHealthChecks_fold_mem (w : World) (id address : String) (port : Int)
    (labels : List Label) (init : List AgentCheckRegistration) (hc : AgentCheckRegistration) :
    hc ∈ labels.foldl
        (fun hcs label =>
          if label.Key ≠ "ConsulHealthCheckKeys" then hcs
          else
            (stringsSplit label.Value ',').foldl
              (fun hcs endpoint =>
                match endpointCheck w id address port endpoint with
                | none => hcs
                | some check => hcs ++ [check])
              hcs)
        init
      ↔ hc ∈ init ∨ ∃ label ∈ labels, label.Key = "ConsulHealthCheckKeys" ∧
          ∃ endpoint ∈ stringsSplit label.Value ',',
            endpointCheck w id address port endpoint = some hc := by
  induction labels generalizing init with
  | nil => simp
  | cons label rest ih =>
    rw [List.foldl_cons, ih]
    by_cases hk : label.Key = "ConsulHealthCheckKeys"
    · simp only [hk, ne_eq, not_true_eq_false, if_false, endpointFold_mem, List.mem_cons,
        exists_eq_or_imp, true_and]
      constructor
      · rintro ((h | h) | h)
        · exact Or.inl h
        · exact Or.inr (Or.inl h)
        · exact Or.inr (Or.inr h)
      · rintro (h | h | h)
        · exact Or.inl (Or.inl h)
        · exact Or.inl (Or.inr h)
        · exact Or.inr h
    · simp [hk]

theorem getHealthChecks_mem (w : World) (task : Task) (id address : String) (port : Int)
    (hc : AgentCheckRegistration) :
    hc ∈ getHealthChecks w task id address port
      ↔ ∃ label ∈ task.Labels, label.Key = "ConsulHealthCheckKeys" ∧
          ∃ endpoint ∈ stringsSplit label.Value ',',
            endpointCheck w id address port endpoint = some hc := by
  unfold getHealthChecks
  rw [getHealthChecks_fold_mem]
  simp

theorem endpointCheck_some (w : World) (id address : String) (port : Int) (endpoint : String)
    (hc : AgentCheckRegistration) (h : endpointCheck w id address port endpoint = some hc) :
    ∃ value check0, w.KVGet ("healthchecks/" ++ endpoint) = some value ∧
      w.Unmarshal value = some check0 ∧
      hc.ID = check0.ID ++ ":" ++ id ∧ hc.ServiceID = id ∧ hc.Name = check0.Name := by
  unfold endpointCheck at h
  cases hkv : w.KVGet ("healthchecks/" ++ endpoint) with
  | none => simp [hkv] at h
  | some value =>
    cases hum : w.Unmarshal value with
    | none => simp [hkv, hum] at h
    | some check0 =>
      simp only [hkv, hum] at h
      refine ⟨value, check0, rfl, hum, ?_⟩
      split_ifs at h <;> cases h <;> exact ⟨by simp [stringsJoin], rfl, rfl⟩

theorem string_append_left_cancel (a b c : String) (h : a ++ b = a ++ c) : b = c := by
  have h1 := congrArg String.data h
  rw [String.data_append, String.data_append] at h1
  exact String.ext (List.append_cancel_left h1)

theorem evalVars_eq (s address : String) (port : Int) :
    evalVars s address port
      = if templateOk s port then (true, substituted s address port) else (false, s) := by
  unfold evalVars templateOk substituted
  by_cases h : (stringsContains s "\x7bPORT\x7d" && decide (port = 0)) = true
  · have h2 := h
    simp only [Bool.and_eq_true, decide_eq_true_eq] at h2
    simp [h2.1, h2.2]
  · have h3 : (stringsContains s "\x7bPORT\x7d" && decide (port = 0)) = false := by
      simpa using h
    rw [h3]
    have h2 := h3
    simp only [Bool.and_eq_false_iff, decide_eq_false_iff_not] at h2
    rcases h2 with h2 | h2
    · simp [h2]
    · simp [h2]

theorem templateOk_empty (port : Int) : templateOk "" port = true := by
  unfold templateOk
  have h : stringsContains "" "\x7bPORT\x7d" = false := by decide
  rw [h]
  rfl

theorem substituted_empty (address : String) (port : Int) : substituted "" address port = "" := by
  unfold substituted stringsReplace
  rfl

theorem templateField_eq (s address : String) (port : Int) :
    (if s ≠ "" then evalVars s address port else (true, s))
      = if templateOk s port then (true, substituted s address port) else (false, s) := by
  by_cases h : s = ""
  · subst h
    rw [templateOk_empty, substituted_empty]
    simp
  · rw [if_pos h, evalVars_eq]

theorem endpointCheck_eq (w : World) (id address : String) (port : Int) (endpoint : String)
    (value : String) (check0 : AgentCheckRegistration)
    (hkv : w.KVGet ("healthchecks/" ++ endpoint) = some value)
    (hum : w.Unmarshal value = some check0) :
    endpointCheck w id address port endpoint
      = if templateOk check0.HTTP port = true ∧ templateOk check0.Script port = true ∧
            templateOk check0.TCP port = true
        then some (namespacedCheck check0 id address port) else none := by
  unfold endpointCheck
  simp only [hkv, hum, templateField_eq]
  cases h1 : templateOk check0.HTTP port <;> cases h2 : templateOk check0.Script port <;>
    cases h3 : templateOk check0.TCP port <;> simp [namespacedCheck, stringsJoin]

theorem endpointFold_eq (w : World) (id address : String) (port : Int)
    (endpoints : List String) (init : List AgentCheckRegistration) :
    endpoints.foldl
        (fun hcs endpoint =>
          match endpointCheck w id address port endpoint with
          | none => hcs
          | some check => hcs ++ [check])
        init
      = init ++ endpoints.filterMap (endpointCheck w id address port) := by
  induction endpoints generalizing init with
  | nil => simp
  | cons e rest ih =>
    rw [List.foldl_cons, ih]
    cases he : endpointCheck w id address port e with
    | none => simp [he]
    | some check => simp [he]

theorem getHealthChecks_fold_eq (w : World) (id address : String) (port : Int)
    (labels : List Label) (init : List AgentCheckRegistration) :
    labels.foldl
        (fun hcs label =>
          if label.Key ≠ "ConsulHealthCheckKeys" then hcs
          else
            (stringsSplit label.Value ',').foldl
              (fun hcs endpoint =>
                match endpointCheck w id address port endpoint with
                | none => hcs
                | some check => hcs ++ [check])
              hcs)
        init
      = init ++ ((labels.filter fun label => decide (label.Key = "ConsulHealthCheckKeys")).map
          fun label =>
            (stringsSplit label.Value ',').filterMap (endpointCheck w id address port)).flatten := by
  induction labels generalizing init with
  | nil => simp
  | cons label rest ih =>
    rw [List.foldl_cons, ih]
    by_cases hk : label.Key = "ConsulHealthCheckKeys"
    · simp [hk, endpointFold_eq, List.filter_cons]
    · simp [hk, List.filter_cons]

theorem getHealthChecks_eq (w : World) (task : Task) (id address : String) (port : Int) :
    getHealthChecks w task id address port
      = ((task.Labels.filter fun label => decide (label.Key = "ConsulHealthCheckKeys")).map
          fun label =>
            (stringsSplit label.Value ',').filterMap (endpointCheck w id address port)).flatten := by
  unfold getHealthChecks
  have h := getHealthChecks_fold_eq w id address port task.Labels []
  rw [List.nil_append] at h
  exact h


theorem namespacedCheck_mem (w : World) (task : Task) (id address : String) (port : Int)
    (label : Label) (hl : label ∈ task.Labels) (hk : label.Key = "ConsulHealthCheckKeys")
    (endpoint : String) (he : endpoint ∈ stringsSplit label.Value ',')
    (value : String) (check0 : AgentCheckRegistration)
    (hkv : w.KVGet ("healthchecks/" ++ endpoint) = some value)
    (hum : w.Unmarshal value = some check0)
    (hok : templateOk check0.HTTP port = true ∧ templateOk check0.Script port = true ∧
      templateOk check0.TCP port = true) :
    namespacedCheck check0 id address port ∈ getHealthChecks w task id address port := by
  rw [getHealthChecks_mem]
  refine ⟨label, hl, hk, endpoint, he, ?_⟩
  rw [endpointCheck_eq w id address port endpoint value check0 hkv hum, if_pos hok]

/-- C16: `getHealthChecks` returns, in the order of the labels and of the
references, one check for every reference of a ConsulHealthCheckKeys label of
the task whose definition is stored, deserializes and passes the substitution
of the placeholders (which fails only for a PORT placeholder with the port 0),
and nothing else; the check is the stored definition with ServiceID id, the ID
the stored ID followed by a colon and id, and the templates substituted. So
every returned check has that ServiceID and that ID, one stored definition
yields for two service records with different ids two checks with different
IDs, and a task without the label, or whose references are all missing from
the store, yields no check. -/
theorem C16_getHealthChecks (w : World) (task : Task) (id address : String) (port : Int) :
    getHealthChecks w task id address port
        = ((task.Labels.filter fun label => decide (label.Key = "ConsulHealthCheckKeys")).map
            fun label =>
              (stringsSplit label.Value ',').filterMap
                (endpointCheck w id address port)).flatten ∧
      (∀ (endpoint value : String) (check0 : AgentCheckRegistration),
        w.KVGet ("healthchecks/" ++ endpoint) = some value → w.Unmarshal value = some check0 →
        endpointCheck w id address port endpoint
          = if templateOk check0.HTTP port = true ∧ templateOk check0.Script port = true ∧
                templateOk check0.TCP port = true
            then some (namespacedCheck check0 id address port) else none) ∧
      (∀ label ∈ task.Labels, label.Key = "ConsulHealthCheckKeys" →
        ∀ endpoint ∈ stringsSplit label.Value ',', ∀ (value : String)
          (check0 : AgentCheckRegistration),
          w.KVGet ("healthchecks/" ++ endpoint) = some value → w.Unmarshal value = some check0 →
          templateOk check0.HTTP port = true ∧ templateOk check0.Script port = true ∧
            templateOk check0.TCP port = true →
          namespacedCheck check0 id address port ∈ getHealthChecks w task id address port) ∧
      (∀ (check0 : AgentCheckRegistration) (id2 address2 : String) (port2 : Int), id ≠ id2 →
        (namespacedCheck check0 id address port).ID
          ≠ (namespacedCheck check0 id2 address2 port2).ID) ∧
      (∀ (id2 address2 : String) (port2 : Int), id ≠ id2 →
        ∀ label ∈ task.Labels, label.Key = "ConsulHealthCheckKeys" →
        ∀ endpoint ∈ stringsSplit label.Value ',', ∀ (value : String)
          (check0 : AgentCheckRegistration),
          w.KVGet ("healthchecks/" ++ endpoint) = some value → w.Unmarshal value = some check0 →
          templateOk check0.HTTP port = true ∧ templateOk check0.Script port = true ∧
            templateOk check0.TCP port = true →
          templateOk check0.HTTP port2 = true ∧ templateOk check0.Script port2 = true ∧
            templateOk check0.TCP port2 = true →
          ∃ hc1 ∈ getHealthChecks w task id address port,
            ∃ hc2 ∈ getHealthChecks w task id2 address2 port2,
              hc1.ID = check0.ID ++ ":" ++ id ∧ hc1.ServiceID = id ∧
              hc2.ID = check0.ID ++ ":" ++ id2 ∧ hc2.ServiceID = id2 ∧ hc1.ID ≠ hc2.ID) ∧
      (∀ hc ∈ getHealthChecks w task id address port,
        hc.ServiceID = id ∧
        ∃ label ∈ task.Labels, label.Key = "ConsulHealthCheckKeys" ∧
          ∃ endpoint ∈ stringsSplit label.Value ',', ∃ value check0,
            w.KVGet ("healthchecks/" ++ endpoint) = some value ∧
            w.Unmarshal value = some check0 ∧ hc.ID = check0.ID ++ ":" ++ id) ∧
      (∀ (id2 address2 : String) (port2 : Int) (endpoint : String)
          (hc1 hc2 : AgentCheckRegistration),
        endpointCheck w id address port endpoint = some hc1 →
        endpointCheck w id2 address2 port2 endpoint = some hc2 →
        id ≠ id2 → hc1.ID ≠ hc2.ID) ∧
      ((∀ label ∈ task.Labels, label.Key ≠ "ConsulHealthCheckKeys") →
        getHealthChecks w task id address port = []) ∧
      ((∀ label ∈ task.Labels, label.Key = "ConsulHealthCheckKeys" →
          ∀ endpoint ∈ stringsSplit label.Value ',',
            w.KVGet ("healthchecks/" ++ endpoint) = none) →
        getHealthChecks w task id address port = []) := by
  refine ⟨getHealthChecks_eq w task id address port,
    fun endpoint value check0 hkv hum =>
      endpointCheck_eq w id address port endpoint value check0 hkv hum,
    fun label hl hk endpoint he value check0 hkv hum hok =>
      namespacedCheck_mem w task id address port label hl hk endpoint he value check0 hkv hum hok,
    ?_, ?_, ?_, ?_, ?_, ?_⟩
  · intro check0 id2 address2 port2 hne heq
    have h1 : (namespacedCheck check0 id address port).ID = check0.ID ++ ":" ++ id := rfl
    have h2 : (namespacedCheck check0 id2 address2 port2).ID = check0.ID ++ ":" ++ id2 := rfl
    rw [h1, h2, String.append_assoc, String.append_assoc] at heq
    have h5 := string_append_left_cancel _ _ _ heq
    exact hne (string_append_left_cancel _ _ _ h5)
  · intro id2 address2 port2 hne label hl hk endpoint he value check0 hkv hum hok hok2
    refine ⟨namespacedCheck check0 id address port,
      namespacedCheck_mem w task id address port label hl hk endpoint he value check0 hkv hum hok,
      namespacedCheck check0 id2 address2 port2,
      namespacedCheck_mem w task id2 address2 port2 label hl hk endpoint he value check0 hkv hum
        hok2,
      rfl, rfl, rfl, rfl, ?_⟩
    intro heq
    have h1 : (namespacedCheck check0 id address port).ID = check0.ID ++ ":" ++ id := rfl
    have h2 : (namespacedCheck check0 id2 address2 port2).ID = check0.ID ++ ":" ++ id2 := rfl
    rw [h1, h2, String.append_assoc, String.append_assoc] at heq
    have h5 := string_append_left_cancel _ _ _ heq
    exact hne (string_append_left_cancel _ _ _ h5)
  · intro hc hmem
    obtain ⟨label, hl, hk, endpoint, he, hsome⟩ :=
      (getHealthChecks_mem w task id address port hc).1 hmem
    obtain ⟨value, check0, h1, h2, h3, h4, _⟩ :=
      endpointCheck_some w id address port endpoint hc hsome
    exact ⟨h4, label, hl, hk, endpoint, he, value, check0, h1, h2, h3⟩
  · intro id2 address2 port2 endpoint hc1 hc2 h1 h2 hne heq
    obtain ⟨v1, c1, a1, a2, a3, _, _⟩ := endpointCheck_some w id address port endpoint hc1 h1
    obtain ⟨v2, c2, b1, b2, b3, _, _⟩ := endpointCheck_some w id2 address2 port2 endpoint hc2 h2
    rw [a1] at b1
    injection b1 with b1
    subst b1
    rw [a2] at b2
    injection b2 with b2
    subst b2
    rw [a3, b3, String.append_assoc, String.append_assoc] at heq
    have h5 := string_append_left_cancel _ _ _ heq
    exact hne (string_append_left_cancel _ _ _ h5)
  · intro hno
    rw [List.eq_nil_iff_forall_not_mem]
    intro hc hmem
    obtain ⟨label, hl, hk, _⟩ := (getHealthChecks_mem w task id address port hc).1 hmem
    exact hno label hl hk
  · intro hmissing
    rw [List.eq_nil_iff_forall_not_mem]
    intro hc hmem
    obtain ⟨label, hl, hk, endpoint, he, hsome⟩ :=
      (getHealthChecks_mem w task id address port hc).1 hmem
    obtain ⟨value, check0, h1, _⟩ := endpointCheck_some w id address port endpoint hc hsome
    rw [hmissing label hl hk endpoint he] at h1
    cases h1

/-- C16 at a task with the ports 80 and 443 that refers to one stored
definition: each of its two service records gets one check, the two checks
have different IDs, and the bucket of the node holds both. -/
theorem C16_getHealthChecks_witness :
    getHealthChecks healthWorld webTask "mesos-dns:node1:web.1:80" "10.0.0.7" 80
        = [{ ID := "web-http:mesos-dns:node1:web.1:80", Name := "web-http",
             ServiceID := "mesos-dns:node1:web.1:80", HTTP := "http://10.0.0.7:80/health",
             Interval := "10s" }] ∧
      getHealthChecks healthWorld webTask "mesos-dns:node1:web.1:443" "10.0.0.7" 443
        = [{ ID := "web-http:mesos-dns:node1:web.1:443", Name := "web-http",
             ServiceID := "mesos-dns:node1:web.1:443", HTTP := "http://10.0.0.7:443/health",
             Interval := "10s" }] ∧
      getHealthChecks healthWorld webTask "mesos-dns:node1:web.1" "10.0.0.7" 0 = [] ∧
      namespacedCheck
          { ID := "web-http", Name := "web-http", HTTP := "http://\x7bIP\x7d:\x7bPORT\x7d/health",
            Interval := "10s" }
          "mesos-dns:node1:web.1:80" "10.0.0.7" 80
        ∈ getHealthChecks healthWorld webTask "mesos-dns:node1:web.1:80" "10.0.0.7" 80 ∧
      (∃ c1, generateTaskRecords healthWorld
          { ServicePrefix := "mesos-dns", IPSources := ["host"],
            SlaveIDHostname := [("S1", "node1")] } [webTask] = .ok c1 ∧
        (currentChecks c1.HealthChecks "S1").map (fun hc => (hc.ID, hc.ServiceID))
          = [("web-http:mesos-dns:node1:web.1:80", "mesos-dns:node1:web.1:80"),
             ("web-http:mesos-dns:node1:web.1:443", "mesos-dns:node1:web.1:443")]) :=
  ⟨by decide, by decide, by decide,
    (C16_getHealthChecks healthWorld webTask "mesos-dns:node1:web.1:80" "10.0.0.7" 80).2.2.1
      { Key := "ConsulHealthCheckKeys", Value := "web-http,missing" } (by decide) rfl
      "web-http" (by decide) "web-http.json" _ rfl rfl (by decide),
    ⟨_, rfl, by decide⟩⟩

/-! ### Service names -/

theorem isUpper_iff (c : Char) : c.isUpper = true ↔ 65 ≤ c.toNat ∧ c.toNat ≤ 90 := by
  simp only [Char.isUpper, Bool.and_eq_true, decide_eq_true_eq, ge_iff_le]
  rfl

theorem isLower_iff (c : Char) : c.isLower = true ↔ 97 ≤ c.toNat ∧ c.toNat ≤ 122 := by
  simp only [Char.isLower, Bool.and_eq_true, decide_eq_true_eq, ge_iff_le]
  rfl

theorem isDigit_iff (c : Char) : c.isDigit = true ↔ 48 ≤ c.toNat ∧ c.toNat ≤ 57 := by
  simp only [Char.isDigit, Bool.and_eq_true, decide_eq_true_eq, ge_iff_le]
  rfl

theorem isNameChar_eq (c : Char) : isNameChar c = inNameClass c := by
  rw [Bool.eq_iff_iff]
  simp only [isNameChar, inNameClass, Char.isAlphanum, Char.isAlpha, Bool.or_eq_true,
    isUpper_iff, isLower_iff, isDigit_iff, Bool.and_eq_true, decide_eq_true_eq]

theorem replaceChars_underscore (l : List Char) :
    replaceChars ['_'] [] 0 l = l.filter fun c => c ≠ '_' := by
  induction l with
  | nil => rfl
  | cons c cs ih =>
    by_cases h : c = '_'
    · subst h
      simp [replaceChars, List.isPrefixOf, ih]
    · simp [replaceChars, List.isPrefixOf, ih, h, Ne.symm h]

theorem serviceName_eq (name : String) : serviceName name = sanitizedName name := by
  unfold serviceName sanitizedName stringsToLower stringsReplace regReplaceAll
  have h : ("_" : String).toList = ['_'] := rfl
  have h2 : ("" : String).toList = [] := rfl
  simp only [h, h2, String.toList, replaceChars_underscore]
  have h3 : isNameChar = inNameClass := funext isNameChar_eq
  rw [h3]

theorem toLower_upper (c : Char) (h1 : 65 ≤ c.toNat) (h2 : c.toNat ≤ 90) :
    inLowerClass c.toLower = true := by
  have hc := Char.ofNat_toNat c
  generalize c.toNat = n at *
  subst hc
  interval_cases n <;> decide

theorem toLower_other (c : Char) (h : ¬ (65 ≤ c.toNat ∧ c.toNat ≤ 90)) : c.toLower = c := by
  unfold Char.toLower
  simp only [ge_iff_le]
  rw [if_neg h]

theorem inLowerClass_toLower (c : Char) (h : inNameClass c = true) (hu : c ≠ '_') :
    inLowerClass c.toLower = true := by
  by_cases hup : 65 ≤ c.toNat ∧ c.toNat ≤ 90
  · exact toLower_upper c hup.1 hup.2
  · rw [toLower_other c hup]
    simp only [inNameClass, Bool.or_eq_true, Bool.and_eq_true, decide_eq_true_eq] at h
    simp only [inLowerClass, Bool.or_eq_true, Bool.and_eq_true, decide_eq_true_eq]
    tauto

theorem sanitizedName_chars (name : String) :
    ∀ ch ∈ (sanitizedName name).toList, inLowerClass ch = true := by
  intro ch hch
  simp only [sanitizedName, String.toList, List.mem_map, List.mem_filter] at hch
  obtain ⟨a, ⟨⟨b, _, hb⟩, ha⟩, rfl⟩ := hch
  have hu : a ≠ '_' := by simpa using ha
  apply inLowerClass_toLower a _ hu
  subst hb
  by_cases hb2 : inNameClass b = true
  · simp [hb2]
  · have hb3 : inNameClass b = false := by simpa using hb2
    rw [hb3]
    simp only [Bool.false_eq_true, if_false]
    decide

/-- C17: the Name of the record built by `createService` is the name with
each character outside the class of letters, digits, underscore and hyphen
replaced by a hyphen, then the underscores removed, then lower-cased, so it
holds only lower-case letters, digits and hyphens; ID, Address and Tags are
the arguments and Port is the port when positive and 0 otherwise. -/
theorem C17_createService (id name address : String) (port : Int) (tags : List String) :
    (createService id name address port tags).Name = sanitizedName name ∧
      (∀ ch ∈ (createService id name address port tags).Name.toList,
        inLowerClass ch = true) ∧
      (createService id name address port tags).ID = id ∧
      (createService id name address port tags).Address = address ∧
      (createService id name address port tags).Tags = tags ∧
      (createService id name address port tags).Port = (if port > 0 then port else 0) ∧
      (createService "p:1" "My_App.v2 (beta)" "10.0.0.1" 8080 ["t"]).Name = "myapp-v2--beta-" := by
  rw [createService_eq, serviceName_eq]
  exact ⟨rfl, sanitizedName_chars name, rfl, rfl, rfl, rfl, by decide⟩

/-! ### Node records -/

theorem splitChars_append (sep : Char) (a b : List Char) (h : sep ∉ a) :
    splitChars sep (a ++ sep :: b) = a :: splitChars sep b := by
  induction a with
  | nil => simp [splitChars]
  | cons x xs ih =>
    have hx : ¬ x = sep := fun e => h (by simp [e])
    have hxs : sep ∉ xs := fun e => h (by simp [e])
    have h4 := ih hxs
    simp only [List.cons_append, splitChars, hx, if_false, List.append_eq, h4]

theorem splitChars_head (sep : Char) (l : List Char) :
    (splitChars sep l).head? = some (l.takeWhile fun c => c ≠ sep) := by
  induction l with
  | nil => simp [splitChars]
  | cons x xs ih =>
    by_cases hx : x = sep
    · simp [splitChars, hx]
    · simp only [splitChars, hx, if_false]
      cases hs : splitChars sep xs with
      | nil => rw [hs] at ih; simp at ih
      | cons seg segs =>
        rw [hs] at ih
        simp only [List.head?_cons, Option.some.injEq] at ih
        simp [hx, ih]

theorem takeWhile_append_sep (sep : Char) (a b : List Char) (h : sep ∉ a) :
    (a ++ sep :: b).takeWhile (fun c => c ≠ sep) = a := by
  induction a with
  | nil => simp
  | cons x xs ih =>
    have hx : ¬ x = sep := fun e => h (by simp [e])
    have hxs : sep ∉ xs := fun e => h (by simp [e])
    have h4 := ih hxs
    simp only [List.cons_append, List.takeWhile_cons, ne_eq, hx, not_false_eq_true,
      decide_True, if_true, List.cons.injEq, true_and]
    exact h4

theorem takeWhile_append_of_not_mem (sep : Char) (a b : List Char) (h : sep ∉ a) :
    (a ++ b).takeWhile (fun c => c ≠ sep) = a ++ b.takeWhile fun c => c ≠ sep := by
  induction a with
  | nil => simp
  | cons x xs ih =>
    have hx : ¬ x = sep := fun e => h (by simp [e])
    have hxs : sep ∉ xs := fun e => h (by simp [e])
    have h4 := ih hxs
    simp only [List.cons_append, List.takeWhile_cons, ne_eq, hx, not_false_eq_true,
      decide_True, if_true, List.cons.injEq, true_and]
    exact h4

theorem shortHostname_eq (hostname : String) :
    shortHostname hostname = String.mk (hostname.toList.takeWhile fun c => c ≠ '.') := by
  unfold shortHostname stringsSplit
  have h := splitChars_head '.' hostname.toList
  cases hs : splitChars '.' hostname.toList with
  | nil => rw [hs] at h; simp at h
  | cons seg segs =>
    rw [hs] at h
    simp only [List.head?_cons, Option.some.injEq] at h
    simp [h]

theorem leaderHostPort_form (pre host rest : String) (h1 : '@' ∉ pre.toList)
    (h2 : '@' ∉ host.toList) (h3 : ':' ∉ host.toList) :
    ∃ port, leaderHostPort (pre ++ "@" ++ host ++ ":" ++ rest) = .ok (host, port) := by
  have hl : (pre ++ "@" ++ host ++ ":" ++ rest).toList
      = pre.toList ++ '@' :: (host.toList ++ ':' :: rest.toList) := by
    simp [String.toList, String.data_append]
  unfold leaderHostPort stringsSplit
  rw [hl, splitChars_append '@' _ _ h1]
  have hh := splitChars_head '@' (host.toList ++ ':' :: rest.toList)
  cases hs : splitChars '@' (host.toList ++ ':' :: rest.toList) with
  | nil => rw [hs] at hh; simp at hh
  | cons seg segs =>
    rw [hs] at hh
    simp only [List.head?_cons, Option.some.injEq] at hh
    have hseg : seg = host.toList ++ ':' :: (rest.toList.takeWhile fun c => c ≠ '@') := by
      rw [hh, takeWhile_append_of_not_mem '@' _ _ h2]
      simp
    subst hseg
    have hl2 : (String.mk (host.toList ++ ':' :: List.takeWhile (fun c => c ≠ '@') rest.toList)).toList = host.toList ++ ':' :: List.takeWhile (fun c => c ≠ '@') rest.toList := rfl
    simp only [List.map_cons, List.getElem?_cons_succ, List.getElem?_cons_zero, hl2]
    rw [splitChars_append ':' _ _ h3]
    have hh2 := splitChars_head ':' (List.takeWhile (fun c => c ≠ '@') rest.toList)
    cases hs2 : splitChars ':' (List.takeWhile (fun c => c ≠ '@') rest.toList) with
    | nil => rw [hs2] at hh2; simp at hh2
    | cons seg2 segs2 =>
      simp only [List.map_cons, List.getElem?_cons_succ, List.getElem?_cons_zero]
      exact ⟨_, rfl⟩

theorem slaveTags_eq (leadHost : String) (slave : Slave) :
    slaveTags leadHost slave = nodeTags leadHost slave := by
  unfold slaveTags nodeTags
  rw [shortHostname_eq]

theorem mem_mesosRecordsFor (servicePrefix leadHost k : String) (slaves : List Slave)
    (r : AgentServiceRegistration) :
    r ∈ mesosRecordsFor servicePrefix leadHost k slaves
      ↔ ∃ slave ∈ slaves, slave.ID = k ∧ ∃ port, strconvAtoi slave.PID.Port = some port ∧
          r = createService (stringsJoin [servicePrefix, slave.ID] ":") "mesos" slave.PID.Host
                port (nodeTags leadHost slave) := by
  induction slaves with
  | nil => simp [mesosRecordsFor]
  | cons slave rest ih =>
    simp only [mesosRecordsFor, List.mem_append, ih, List.mem_cons, exists_eq_or_imp]
    apply or_congr_left
    unfold mesosContribution
    rw [slaveTags_eq]
    by_cases hk : slave.ID = k
    · cases hp : strconvAtoi slave.PID.Port with
      | none => simp [hk]
      | some port => simp [hk]
    · simp [hk]

/-- C18: when the leader address is some text without an at sign, an at sign,
a host without at sign or colon, a colon and the rest, `generateMesosRecords`
returns, and for every node of the snapshot whose port parses the current node
records of its id hold a record with the tags of the node: the node-kind tag
and the short hostname, then master exactly for a master attribute of true,
then leader exactly for a node on that host; every current node record is
either one held before or such a record. -/
theorem C18_node_tags (c : ConsulBackend) (pre host rest : String)
    (hleader : c.State.Leader = pre ++ "@" ++ host ++ ":" ++ rest)
    (h1 : '@' ∉ pre.toList) (h2 : '@' ∉ host.toList) (h3 : ':' ∉ host.toList) :
    ∃ c1, generateMesosRecords c = .ok c1 ∧
      (∀ slave ∈ c.State.Slaves, ∀ port, strconvAtoi slave.PID.Port = some port →
        ∃ r ∈ currentRecords c1.MesosRecords slave.ID,
          r.ID = c.ServicePrefix ++ ":" ++ slave.ID ∧ r.Tags = nodeTags host slave) ∧
      (∀ k, ∀ r ∈ currentRecords c1.MesosRecords k,
        r ∈ currentRecords c.MesosRecords k ∨
          ∃ slave ∈ c.State.Slaves, slave.ID = k ∧
            (∃ port, strconvAtoi slave.PID.Port = some port) ∧
            r.ID = c.ServicePrefix ++ ":" ++ slave.ID ∧ r.Tags = nodeTags host slave) := by
  obtain ⟨port0, hlead⟩ := leaderHostPort_form pre host rest h1 h2 h3
  rw [← hleader] at hlead
  refine ⟨c.State.Slaves.foldl (mesosStep host) c, ?_, ?_, ?_⟩
  · unfold generateMesosRecords
    rw [hlead]
  · intro slave hs port hp
    refine ⟨createService (stringsJoin [c.ServicePrefix, slave.ID] ":") "mesos" slave.PID.Host
      port (nodeTags host slave), ?_, ?_, ?_⟩
    · rw [(mesosFold_buckets host c.State.Slaves c slave.ID).1, List.mem_append,
        mem_mesosRecordsFor]
      exact Or.inr ⟨slave, hs, rfl, port, hp, rfl⟩
    · rw [createService_eq]
      simp [stringsJoin]
    · rw [createService_eq]
  · intro k r hr
    rw [(mesosFold_buckets host c.State.Slaves c k).1, List.mem_append,
      mem_mesosRecordsFor] at hr
    rcases hr with hr | ⟨slave, hs, hk, port, hp, hr⟩
    · exact Or.inl hr
    · refine Or.inr ⟨slave, hs, hk, ⟨port, hp⟩, ?_, ?_⟩
      · rw [hr, createService_eq]
        simp [stringsJoin]
      · rw [hr, createService_eq]

/-- C18 at a snapshot with a master on the leader's host and a plain node. -/
theorem C18_node_tags_witness :
    (twoNodeBackend.State.Leader = "master" ++ "@" ++ "10.0.0.8" ++ ":" ++ "5050") ∧
      '@' ∉ "master".toList ∧ '@' ∉ "10.0.0.8".toList ∧ ':' ∉ "10.0.0.8".toList ∧
      (∃ c1, generateMesosRecords twoNodeBackend = .ok c1 ∧
        (currentRecords c1.MesosRecords "S1").map (fun r => r.Tags)
          = [["slave", "m1", "master", "leader"]] ∧
        (currentRecords c1.MesosRecords "S2").map (fun r => r.Tags) = [["slave", "n2"]]) ∧
      ∃ c1, generateMesosRecords twoNodeBackend = .ok c1 ∧
        (∀ slave ∈ twoNodeBackend.State.Slaves, ∀ port,
          strconvAtoi slave.PID.Port = some port →
          ∃ r ∈ currentRecords c1.MesosRecords slave.ID,
            r.ID = twoNodeBackend.ServicePrefix ++ ":" ++ slave.ID ∧
              r.Tags = nodeTags "10.0.0.8" slave) ∧
        (∀ k, ∀ r ∈ currentRecords c1.MesosRecords k,
          r ∈ currentRecords twoNodeBackend.MesosRecords k ∨
            ∃ slave ∈ twoNodeBackend.State.Slaves, slave.ID = k ∧
              (∃ port, strconvAtoi slave.PID.Port = some port) ∧
              r.ID = twoNodeBackend.ServicePrefix ++ ":" ++ slave.ID ∧
              r.Tags = nodeTags "10.0.0.8" slave) :=
  ⟨by decide, by decide, by decide, by decide, ⟨_, rfl, by decide, by decide⟩,
    C18_node_tags twoNodeBackend "master" "10.0.0.8" "5050" (by decide) (by decide) (by decide)
      (by decide)⟩

theorem mapHas_iff_mem_mapKeys {V : Type} (m : GoMap V) (k : String) :
    mapHas m k = true ↔ k ∈ mapKeys m := by
  induction m with
  | nil => simp [mapHas, mapGet?, mapKeys]
  | cons e rest ih =>
    obtain ⟨k1, v1⟩ := e
    by_cases h : k1 = k
    · simp [mapHas, mapGet?, mapKeys, h]
    · have h2 : ¬ k = k1 := fun e => h e.symm
      simp only [mapHas, mapGet?, mapKeys, h, if_false, List.map_cons, List.mem_cons, h2,
        false_or] at ih ⊢
      exact ih

theorem mapKeys_ensureRecords (m : GoMap ConsulRecords) (k : String) :
    mapKeys (ensureRecords m k) = if k ∈ mapKeys m then mapKeys m else mapKeys m ++ [k] := by
  unfold ensureRecords
  by_cases h : k ∈ mapKeys m
  · have h2 := (mapHas_iff_mem_mapKeys m k).2 h
    simp [h, h2]
  · have h2 : mapHas m k = false := by
      cases h3 : mapHas m k
      · rfl
      · exact absurd ((mapHas_iff_mem_mapKeys m k).1 h3) h
    simp [h, h2, mapKeys_mapSet]

theorem mapKeys_appendCurrent (m : GoMap ConsulRecords) (k : String)
    (recs : List AgentServiceRegistration) :
    mapKeys (appendCurrent m k recs) = mapKeys m := by
  unfold appendCurrent
  cases h : mapGet? m k with
  | none => rfl
  | some b =>
    have h2 : k ∈ mapKeys m := (mapHas_iff_mem_mapKeys m k).1 (by simp [mapHas, h])
    simp [mapKeys_mapSet, h2]

theorem mesosStep_keys (leadHost : String) (c : ConsulBackend) (slave : Slave) (port : Int)
    (hp : strconvAtoi slave.PID.Port = some port) :
    mapKeys (mesosStep leadHost c slave).MesosRecords
      = if slave.ID ∈ mapKeys c.MesosRecords then mapKeys c.MesosRecords
        else mapKeys c.MesosRecords ++ [slave.ID] := by
  unfold mesosStep
  simp only [hp, mapKeys_appendCurrent, mapKeys_ensureRecords]

theorem mesosFold_keys (leadHost : String) (slaves : List Slave) (c : ConsulBackend)
    (hempty : c.MesosRecords = [])
    (hnd : (slaves.map fun slave => slave.ID).Nodup)
    (hports : ∀ slave ∈ slaves, strconvAtoi slave.PID.Port ≠ none) :
    mapKeys (slaves.foldl (mesosStep leadHost) c).MesosRecords
      = slaves.map fun slave => slave.ID := by
  induction slaves using List.reverseRecOn with
  | nil => simp [hempty, mapKeys]
  | append_singleton rest slave ih =>
    rw [List.map_append, List.nodup_append] at hnd
    obtain ⟨hnd1, _, hdisj⟩ := hnd
    obtain ⟨port, hp⟩ := Option.ne_none_iff_exists'.1 (hports slave (by simp))
    have h1 := ih hnd1 (fun s hs => hports s (by simp [hs]))
    rw [List.foldl_append, List.foldl_cons, List.foldl_nil, mesosStep_keys _ _ _ port hp, h1]
    have h2 : slave.ID ∉ rest.map fun slave => slave.ID := by
      intro hmem
      exact hdisj hmem (by simp)
    simp [h2]

theorem mesosRecordsFor_of_not_mem (servicePrefix leadHost k : String) (slaves : List Slave)
    (h : k ∉ slaves.map fun slave => slave.ID) :
    mesosRecordsFor servicePrefix leadHost k slaves = [] := by
  induction slaves with
  | nil => rfl
  | cons s rest ih =>
    simp only [List.map_cons, List.mem_cons, not_or] at h
    have h1 : ¬ s.ID = k := fun e => h.1 e.symm
    simp [mesosRecordsFor, mesosContribution, h1, ih h.2]

theorem mesosRecordsFor_of_nodup (servicePrefix leadHost : String) (slaves : List Slave)
    (hnd : (slaves.map fun slave => slave.ID).Nodup) (slave : Slave) (hs : slave ∈ slaves)
    (port : Int) (hp : strconvAtoi slave.PID.Port = some port) :
    mesosRecordsFor servicePrefix leadHost slave.ID slaves
      = [createService (stringsJoin [servicePrefix, slave.ID] ":") "mesos" slave.PID.Host port
          (slaveTags leadHost slave)] := by
  induction slaves with
  | nil => simp at hs
  | cons s rest ih =>
    simp only [List.map_cons, List.nodup_cons] at hnd
    rcases List.mem_cons.1 hs with he | hm
    · subst he
      simp [mesosRecordsFor, mesosContribution, hp,
        mesosRecordsFor_of_not_mem _ _ _ _ hnd.1]
    · have hne : ¬ s.ID = slave.ID := by
        intro e
        apply hnd.1
        rw [e]
        exact List.mem_map_of_mem _ hm
      simp [mesosRecordsFor, mesosContribution, hne, ih hnd.2 hm]

/-- C19, the claim as stated fails: with empty buckets, distinct node ids and
a node port that parses to -1, the record of the node has Port 0, not the
port of the node; and without a leader address of the expected form no bucket
is left at all, the leader parse going out of range. -/
theorem C19_counterexample_negative_port :
    negativePortBackend.MesosRecords = [] ∧
      (negativePortBackend.State.Slaves.map fun slave => slave.ID).Nodup ∧
      (∀ slave ∈ negativePortBackend.State.Slaves, strconvAtoi slave.PID.Port = some (-1)) ∧
      (∃ c1, generateMesosRecords negativePortBackend = .ok c1 ∧
        (currentRecords c1.MesosRecords "S1").map (fun r => (r.ID, r.Address, r.Port))
          = [("mesos-dns:S1", "10.0.0.1", 0)]) ∧
      (∀ slave ∈ noLeaderBackend.State.Slaves, strconvAtoi slave.PID.Port = some 5051) ∧
      generateMesosRecords noLeaderBackend = .error Crash.indexOutOfRange :=
  ⟨rfl, by decide, by decide, ⟨_, rfl, by decide⟩, by decide, rfl⟩

/-- C19, amended: when the leader address is some text without an at sign, an
at sign, a host without at sign or colon, a colon and the rest, the node
buckets are empty, the node ids are pairwise distinct and every node port
parses, `generateMesosRecords` returns and leaves exactly the node ids as the
keys of the node buckets, in snapshot order; the bucket of each node holds no
Previous record and exactly one Current record, with ID the name-space prefix,
a colon and the node id, Address the host address of the node, and Port the
port of the node when positive and 0 otherwise. -/
theorem C19_one_bucket_per_node (c : ConsulBackend) (pre host rest : String)
    (hleader : c.State.Leader = pre ++ "@" ++ host ++ ":" ++ rest)
    (h1 : '@' ∉ pre.toList) (h2 : '@' ∉ host.toList) (h3 : ':' ∉ host.toList)
    (hempty : c.MesosRecords = [])
    (hnd : (c.State.Slaves.map fun slave => slave.ID).Nodup)
    (hports : ∀ slave ∈ c.State.Slaves, strconvAtoi slave.PID.Port ≠ none) :
    ∃ c1, generateMesosRecords c = .ok c1 ∧
      mapKeys c1.MesosRecords = (c.State.Slaves.map fun slave => slave.ID) ∧
      ∀ slave ∈ c.State.Slaves, ∀ port, strconvAtoi slave.PID.Port = some port →
        previousRecords c1.MesosRecords slave.ID = [] ∧
        ∃ r, currentRecords c1.MesosRecords slave.ID = [r] ∧
          r.ID = c.ServicePrefix ++ ":" ++ slave.ID ∧ r.Address = slave.PID.Host ∧
          r.Port = (if port > 0 then port else 0) := by
  obtain ⟨port0, hlead⟩ := leaderHostPort_form pre host rest h1 h2 h3
  rw [← hleader] at hlead
  refine ⟨c.State.Slaves.foldl (mesosStep host) c, ?_, ?_, ?_⟩
  · unfold generateMesosRecords
    rw [hlead]
  · exact mesosFold_keys host c.State.Slaves c hempty hnd hports
  · intro slave hs port hp
    obtain ⟨e1, e2⟩ := mesosFold_buckets host c.State.Slaves c slave.ID
    refine ⟨?_, createService (stringsJoin [c.ServicePrefix, slave.ID] ":") "mesos"
      slave.PID.Host port (slaveTags host slave), ?_, ?_⟩
    · rw [e2, hempty]
      rfl
    · rw [e1, hempty, mesosRecordsFor_of_nodup _ _ _ hnd slave hs port hp]
      rfl
    · rw [createService_eq]
      exact ⟨by simp [stringsJoin], rfl, rfl⟩

/-- C19 at a snapshot with a master on the leader's host and a plain node. -/
theorem C19_one_bucket_per_node_witness :
    (twoNodeBackend.State.Leader = "master" ++ "@" ++ "10.0.0.8" ++ ":" ++ "5050") ∧
      '@' ∉ "master".toList ∧ '@' ∉ "10.0.0.8".toList ∧ ':' ∉ "10.0.0.8".toList ∧
      twoNodeBackend.MesosRecords = [] ∧
      (twoNodeBackend.State.Slaves.map fun slave => slave.ID).Nodup ∧
      (∀ slave ∈ twoNodeBackend.State.Slaves, strconvAtoi slave.PID.Port ≠ none) ∧
      ∃ c1, generateMesosRecords twoNodeBackend = .ok c1 ∧
        mapKeys c1.MesosRecords = ["S1", "S2"] ∧
        ∀ slave ∈ twoNodeBackend.State.Slaves, ∀ port,
          strconvAtoi slave.PID.Port = some port →
          previousRecords c1.MesosRecords slave.ID = [] ∧
          ∃ r, currentRecords c1.MesosRecords slave.ID = [r] ∧
            r.ID = twoNodeBackend.ServicePrefix ++ ":" ++ slave.ID ∧
            r.Address = slave.PID.Host ∧ r.Port = (if port > 0 then port else 0) :=
  ⟨by decide, by decide, by decide, by decide, rfl, by decide, by decide,
    C19_one_bucket_per_node twoNodeBackend "master" "10.0.0.8" "5050" (by decide) (by decide)
      (by decide) (by decide) rfl (by decide) (by decide)⟩

/-! ### Framework records -/

theorem mem_frameworkRecordsFor (w : World) (c : ConsulBackend) (k : String) (i : Nat)
    (frameworks : List Framework) (r : AgentServiceRegistration) :
    r ∈ frameworkRecordsFor w c k i frameworks
      ↔ ∃ (j : Nat) (framework : Framework), frameworks[j]? = some framework ∧
          framework.Active = true ∧
          frameworkSlave w (i + j) c framework ≠ "" ∧ frameworkSlave w (i + j) c framework = k ∧
          ∃ port, strconvAtoi framework.PID.Port = some port ∧
            r = createService (stringsJoin [c.ServicePrefix, framework.Name] ":")
                  framework.Name framework.PID.Host port [] := by
  induction frameworks generalizing i with
  | nil => simp [frameworkRecordsFor]
  | cons f rest ih =>
    simp only [frameworkRecordsFor, List.mem_append, ih]
    constructor
    · rintro (h | ⟨j, framework, hj, hrest⟩)
      · refine ⟨0, f, by simp, ?_⟩
        unfold frameworkContribution at h
        cases ha : f.Active with
        | false => simp [ha] at h
        | true =>
          cases hp : strconvAtoi f.PID.Port with
          | none => simp [ha, hp] at h
          | some port =>
            rw [ha] at h
            simp only [if_true, hp] at h
            by_cases hs : frameworkSlave w i c f = ""
            · rw [if_pos hs] at h
              simp at h
            · rw [if_neg hs] at h
              by_cases hk : frameworkSlave w i c f = k
              · rw [if_pos hk] at h
                exact ⟨rfl, by rw [Nat.add_zero]; exact hs, by rw [Nat.add_zero]; exact hk,
                  port, rfl, List.mem_singleton.1 h⟩
              · rw [if_neg hk] at h
                simp at h
      · refine ⟨j + 1, framework, by simpa using hj, ?_⟩
        have he : i + (j + 1) = i + 1 + j := by omega
        rw [he]
        exact hrest
    · rintro ⟨j, framework, hj, ha, hs, hk, port, hp, hr⟩
      cases j with
      | zero =>
        left
        simp only [List.getElem?_cons_zero, Option.some.injEq] at hj
        subst hj
        simp only [Nat.add_zero] at hs hk
        unfold frameworkContribution
        rw [ha]
        simp only [if_true, hp]
        rw [if_neg hs, if_pos hk, hr]
        exact List.mem_singleton_self _
      | succ j =>
        right
        simp only [List.getElem?_cons_succ] at hj
        have he : i + (j + 1) = i + 1 + j := by omega
        rw [he] at hs hk
        exact ⟨j, framework, hj, ha, hs, hk, port, hp, hr⟩

theorem frameworkStep_skip (w : World) (i : Nat) (c : ConsulBackend) (framework : Framework)
    (h : framework.Active = false ∨ strconvAtoi framework.PID.Port = none ∨
      frameworkSlave w i c framework = "") : frameworkStep w i c framework = c := by
  unfold frameworkStep
  cases ha : framework.Active with
  | false => simp
  | true =>
    cases hp : strconvAtoi framework.PID.Port with
    | none => simp
    | some port =>
      rcases h with h | h | h
      · rw [ha] at h
        cases h
      · rw [hp] at h
        cases h
      · simp [h]

theorem frameworkStep_append (w : World) (i : Nat) (c : ConsulBackend) (framework : Framework)
    (port : Int) (ha : framework.Active = true)
    (hp : strconvAtoi framework.PID.Port = some port)
    (hs : frameworkSlave w i c framework ≠ "") (k : String) :
    currentRecords (frameworkStep w i c framework).FrameworkRecords k
      = currentRecords c.FrameworkRecords k
        ++ (if frameworkSlave w i c framework = k then
              [createService (stringsJoin [c.ServicePrefix, framework.Name] ":")
                framework.Name framework.PID.Host port []]
            else []) := by
  rw [(frameworkStep_buckets w i c framework k).1]
  unfold frameworkContribution
  simp [ha, hp, hs]

theorem frameworkSlave_cached (w : World) (i : Nat) (c : ConsulBackend) (framework : Framework)
    (id : String) (h : mapGet? c.SlaveIPID framework.PID.Host = some id) :
    frameworkSlave w i c framework = id := by
  unfold frameworkSlave mapHas mapStr
  simp [h]

theorem frameworkSlave_uncached (w : World) (i : Nat) (c : ConsulBackend)
    (framework : Framework) (h : mapGet? c.SlaveIPID framework.PID.Host = none) :
    frameworkSlave w i c framework
      = slaveByHostname (shortHostname framework.Hostname)
          (rangeOrder w i c.SlaveIDHostname) := by
  unfold frameworkSlave mapHas shortHostname
  simp [h]

/-- C20: in whatever order the hostname map is visited, the loop body of
`generateFrameworkRecords` leaves the backend as it is for a framework that is
inactive, whose port does not parse or for which no owning node is resolved,
and otherwise appends exactly one record to the Current list of the bucket of
the owning node id and to no other; the owning node id is the id cached for
the host address of the framework when there is one, and otherwise the id
found by comparing the short hostnames: empty when no node matches, the id of
the matching node when one node matches, and in any case empty or the id of a
matching node. The whole loop appends, per node id and in snapshot order, the
records of the active frameworks whose port parses and whose owning node is
that id. -/
theorem C20_framework_records (w : World) (c : ConsulBackend) :
    (∀ (i : Nat) (framework : Framework),
      (framework.Active = false ∨ strconvAtoi framework.PID.Port = none ∨
        frameworkSlave w i c framework = "") → frameworkStep w i c framework = c) ∧
    (∀ (i : Nat) (framework : Framework) (port : Int), framework.Active = true →
      strconvAtoi framework.PID.Port = some port → frameworkSlave w i c framework ≠ "" →
      ∀ k, currentRecords (frameworkStep w i c framework).FrameworkRecords k
          = currentRecords c.FrameworkRecords k
            ++ (if frameworkSlave w i c framework = k then
                  [createService (stringsJoin [c.ServicePrefix, framework.Name] ":")
                    framework.Name framework.PID.Host port []]
                else []) ∧
        previousRecords (frameworkStep w i c framework).FrameworkRecords k
          = previousRecords c.FrameworkRecords k) ∧
    (∀ (i : Nat) (framework : Framework) (id : String),
      mapGet? c.SlaveIPID framework.PID.Host = some id → frameworkSlave w i c framework = id) ∧
    (∀ (i : Nat) (framework : Framework), mapGet? c.SlaveIPID framework.PID.Host = none →
      ((∀ e ∈ c.SlaveIDHostname,
          e.2 ≠ String.mk (framework.Hostname.toList.takeWhile fun ch => ch ≠ '.')) →
        frameworkSlave w i c framework = "") ∧
      (∀ id : String,
        (id, String.mk (framework.Hostname.toList.takeWhile fun ch => ch ≠ '.'))
            ∈ c.SlaveIDHostname →
        (∀ e ∈ c.SlaveIDHostname,
          e.2 = String.mk (framework.Hostname.toList.takeWhile fun ch => ch ≠ '.') →
            e.1 = id) →
        frameworkSlave w i c framework = id) ∧
      (frameworkSlave w i c framework = "" ∨
        (frameworkSlave w i c framework,
            String.mk (framework.Hostname.toList.takeWhile fun ch => ch ≠ '.'))
          ∈ c.SlaveIDHostname)) ∧
    (∀ k, currentRecords (generateFrameworkRecords w c).FrameworkRecords k
          = currentRecords c.FrameworkRecords k
            ++ frameworkRecordsFor w c k 0 c.State.Frameworks ∧
        previousRecords (generateFrameworkRecords w c).FrameworkRecords k
          = previousRecords c.FrameworkRecords k) ∧
    (∀ k r, r ∈ frameworkRecordsFor w c k 0 c.State.Frameworks
      ↔ ∃ (j : Nat) (framework : Framework), c.State.Frameworks[j]? = some framework ∧
          framework.Active = true ∧
          frameworkSlave w j c framework ≠ "" ∧ frameworkSlave w j c framework = k ∧
          ∃ port, strconvAtoi framework.PID.Port = some port ∧
            r = createService (stringsJoin [c.ServicePrefix, framework.Name] ":")
                  framework.Name framework.PID.Host port []) ∧
    (mapKeys (generateFrameworkRecords {} frameworkBackend).FrameworkRecords = ["S1"] ∧
      (currentRecords (generateFrameworkRecords {} frameworkBackend).FrameworkRecords "S1").map
          (fun r => (r.ID, r.Address, r.Port))
        = [("mesos-dns:marathon", "10.0.0.1", 8080), ("mesos-dns:chronos", "10.9.9.9", 4400)]) := by
  refine ⟨fun i framework h => frameworkStep_skip w i c framework h, ?_,
    fun i framework id h => frameworkSlave_cached w i c framework id h, ?_, ?_, ?_,
    by decide, by decide⟩
  · intro i framework port ha hp hs k
    exact ⟨frameworkStep_append w i c framework port ha hp hs k,
      (frameworkStep_buckets w i c framework k).2⟩
  · intro i framework hnone
    rw [frameworkSlave_uncached w i c framework hnone, shortHostname_eq]
    have hperm := rangeOrder_perm w i c.SlaveIDHostname
    refine ⟨fun hno => slaveByHostname_none _ _ fun e he => hno e (hperm.mem_iff.1 he),
      fun id hmem huniq => slaveByHostname_unique _ _ id (hperm.mem_iff.2 hmem)
        fun e he => huniq e (hperm.mem_iff.1 he), ?_⟩
    rcases slaveByHostname_mem
      (String.mk (framework.Hostname.toList.takeWhile fun ch => ch ≠ '.'))
      (rangeOrder w i c.SlaveIDHostname) with h | h
    · exact Or.inl h
    · exact Or.inr (hperm.mem_iff.1 h)
  · intro k
    exact frameworkFold_buckets w 0 c.State.Frameworks c k
  · intro k r
    rw [mem_frameworkRecordsFor]
    simp only [Nat.zero_add]

/-! ### Registration failures -/

theorem registerServices_trace (w : World) (c : ConsulBackend) (agentid slaveid : String)
    (services : List AgentServiceRegistration) (tr : List Call) :
    registerServices w c agentid slaveid services tr
      = tr ++ services.map (Call.serviceRegister agentid) := by
  induction services generalizing tr with
  | nil => simp [registerServices]
  | cons service rest ih =>
    unfold registerServices
    simp only [ih, ite_self, List.map_cons, List.append_assoc, List.singleton_append]

theorem registerChecks_trace (w : World) (agentid : String)
    (checks : List AgentCheckRegistration) (tr : List Call) :
    registerChecks w agentid checks tr = tr ++ checks.map (Call.checkRegister agentid) := by
  induction checks generalizing tr with
  | nil => simp [registerChecks]
  | cons hc rest ih =>
    unfold registerChecks
    simp only [ih, ite_self, List.map_cons, List.append_assoc, List.singleton_append]

theorem registerAgent_trace (w : World) (c : ConsulBackend) (tr : List Call)
    (agentid : String) :
    registerAgent w c tr agentid
      = tr ++ ((serviceAdditions c (mapStr c.SlaveHostnameID agentid)).map
                (Call.serviceRegister agentid)
              ++ (checkAdditions c (mapStr c.SlaveHostnameID agentid)).map
                (Call.checkRegister agentid)) := by
  unfold registerAgent
  simp only [registerServices_trace, registerChecks_trace, List.append_assoc]

theorem Register_trace (w : World) (c : ConsulBackend) (tr : List Call) :
    Register w c tr
      = tr ++ (c.Agents.map fun entry =>
          (serviceAdditions c (mapStr c.SlaveHostnameID entry.1)).map
              (Call.serviceRegister entry.1)
            ++ (checkAdditions c (mapStr c.SlaveHostnameID entry.1)).map
              (Call.checkRegister entry.1)).flatten := by
  unfold Register
  generalize c.Agents = agents
  induction agents generalizing tr with
  | nil => simp
  | cons entry rest ih =>
    rw [List.foldl_cons, ih, registerAgent_trace]
    simp [List.append_assoc]

/-- C11, the claim as stated fails: in an outside where every service
registration fails, `Register` on a backend with one task record and one
health check of that record to add still calls CheckRegister for the check
whose ServiceID is the ID of the service that failed to register. -/
theorem C11_counterexample_check_after_failed_service :
    (∀ tr agentid service,
        failingRegisterWorld.succeeds tr (Call.serviceRegister agentid service) = false) ∧
      (∃ service hc, Register failingRegisterWorld webBackend []
          = [Call.serviceRegister "node1" service, Call.checkRegister "node1" hc] ∧
        hc.ServiceID = service.ID) :=
  ⟨fun _ _ _ => rfl, _, _, rfl, rfl⟩

/-- C11, amended: the calls of `Register` do not depend on the outcome of any
registration: for each connected agent in turn it calls ServiceRegister for
every service of the addition set of the node of that agent, in order, and
then CheckRegister for every health check of the check additions of that
node, in order, and makes no other call. -/
theorem C11_register_attempts_every_addition (w : World) (c : ConsulBackend) (tr : List Call) :
    Register w c tr
        = tr ++ (c.Agents.map fun entry =>
            (serviceAdditions c (mapStr c.SlaveHostnameID entry.1)).map
                (Call.serviceRegister entry.1)
              ++ (checkAdditions c (mapStr c.SlaveHostnameID entry.1)).map
                (Call.checkRegister entry.1)).flatten ∧
      (∀ agentid, registerAgent w c tr agentid
        = tr ++ ((serviceAdditions c (mapStr c.SlaveHostnameID agentid)).map
                  (Call.serviceRegister agentid)
                ++ (checkAdditions c (mapStr c.SlaveHostnameID agentid)).map
                  (Call.checkRegister agentid))) :=
  ⟨Register_trace w c tr, registerAgent_trace w c tr⟩

/-! ### Connection failures -/

theorem connectLoop_calls (w : World) (members : List AgentMember) (c : ConsulBackend)
    (tr : List Call) :
    ∃ new, (connectLoop w members c tr).2.2 = tr ++ new ∧
      ∀ call ∈ new, isConnectCall call = true := by
  induction members generalizing c tr with
  | nil => exact ⟨[], by simp [connectLoop], by simp⟩
  | cons agent rest ih =>
    unfold connectLoop
    simp only []
    have htr1 : ∃ n1, (if mapHas c.Agents agent.Addr = true then tr ++ [Call.self agent.Addr]
        else tr) = tr ++ n1 ∧ ∀ call ∈ n1, isConnectCall call = true := by
      split
      · exact ⟨[Call.self agent.Addr], rfl, by simp [isConnectCall]⟩
      · exact ⟨[], by simp, by simp⟩
    obtain ⟨n1, hn1, hc1⟩ := htr1
    rw [hn1]
    cases hA : (mapHas c.Agents agent.Addr && w.succeeds tr (Call.self agent.Addr)) with
    | true =>
      simp only [if_true]
      obtain ⟨n2, hn2, hc2⟩ := ih c (tr ++ n1)
      refine ⟨n1 ++ n2, by rw [hn2, List.append_assoc], ?_⟩
      intro call hcall
      rcases List.mem_append.1 hcall with h | h
      · exact hc1 call h
      · exact hc2 call h
    | false =>
      simp only [Bool.false_eq_true, if_false]
      cases hB : w.succeeds (tr ++ n1) (Call.newClient (agent.Addr ++ ":" ++ c.AgentPort)) with
      | false =>
        simp only [Bool.not_false, if_true]
        refine ⟨n1 ++ [Call.newClient (agent.Addr ++ ":" ++ c.AgentPort)],
          by rw [List.append_assoc], ?_⟩
        intro call hcall
        rcases List.mem_append.1 hcall with h | h
        · exact hc1 call h
        · simp only [List.mem_singleton] at h
          rw [h]
          rfl
      | true =>
        simp only [Bool.not_true, Bool.false_eq_true, if_false]
        cases hC : w.succeeds (tr ++ n1 ++ [Call.newClient (agent.Addr ++ ":" ++ c.AgentPort)])
            (Call.clientSelf (agent.Addr ++ ":" ++ c.AgentPort)) with
        | false =>
          simp only [Bool.not_false, if_true]
          refine ⟨n1 ++ [Call.newClient (agent.Addr ++ ":" ++ c.AgentPort),
            Call.clientSelf (agent.Addr ++ ":" ++ c.AgentPort)], by simp, ?_⟩
          intro call hcall
          rcases List.mem_append.1 hcall with h | h
          · exact hc1 call h
          · simp only [List.mem_cons, List.mem_singleton, List.not_mem_nil, or_false] at h
            rcases h with h | h <;> rw [h] <;> rfl
        | true =>
          simp only [Bool.not_true, Bool.false_eq_true, if_false]
          obtain ⟨n2, hn2, hc2⟩ :=
            ih { c with Agents := mapSet c.Agents agent.Name (agent.Addr ++ ":" ++ c.AgentPort) }
              (tr ++ n1 ++ [Call.newClient (agent.Addr ++ ":" ++ c.AgentPort)]
                ++ [Call.clientSelf (agent.Addr ++ ":" ++ c.AgentPort)])
          refine ⟨n1 ++ [Call.newClient (agent.Addr ++ ":" ++ c.AgentPort),
            Call.clientSelf (agent.Addr ++ ":" ++ c.AgentPort)] ++ n2, ?_, ?_⟩
          · rw [hn2]
            simp
          · intro call hcall
            rcases List.mem_append.1 hcall with h | h
            · rcases List.mem_append.1 h with h | h
              · exact hc1 call h
              · simp only [List.mem_cons, List.mem_singleton, List.not_mem_nil, or_false] at h
                rcases h with h | h <;> rw [h] <;> rfl
            · exact hc2 call h

theorem connectAgents_calls (w : World) (c : ConsulBackend) (tr : List Call) :
    ∃ new, (connectAgents w c tr).2.2 = tr ++ new ∧
      ∀ call ∈ new, isConnectCall call = true := by
  unfold connectAgents
  cases w.Members tr with
  | none => exact ⟨[Call.members], rfl, by simp [isConnectCall]⟩
  | some members =>
    obtain ⟨n, hn, hc⟩ := connectLoop_calls w members c (tr ++ [Call.members])
    refine ⟨Call.members :: n, ?_, ?_⟩
    · simp only [hn]
      simp
    · intro call hcall
      rcases List.mem_cons.1 hcall with h | h
      · rw [h]
        rfl
      · exact hc call h

theorem connectLoop_unreachable (w : World) (agent : AgentMember) (port : String)
    (hself : ∀ tr1, w.succeeds tr1 (Call.self agent.Addr) = false)
    (hclient : ∀ tr1, w.succeeds tr1 (Call.clientSelf (agent.Addr ++ ":" ++ port)) = false)
    (members : List AgentMember) (hmem : agent ∈ members) (c : ConsulBackend)
    (hport : c.AgentPort = port) (tr : List Call) :
    (connectLoop w members c tr).1 = false := by
  induction members generalizing c tr with
  | nil => simp at hmem
  | cons head rest ih =>
    unfold connectLoop
    simp only []
    generalize (if mapHas c.Agents head.Addr = true then tr ++ [Call.self head.Addr] else tr)
      = trA
    cases hA : (mapHas c.Agents head.Addr && w.succeeds tr (Call.self head.Addr)) with
    | true =>
      simp only [if_true]
      have hne : agent ≠ head := by
        intro e
        rw [← e, hself tr] at hA
        simp at hA
      have hmem2 : agent ∈ rest := by
        rcases List.mem_cons.1 hmem with h | h
        · exact absurd h hne
        · exact h
      exact ih hmem2 c hport _
    | false =>
      simp only [Bool.false_eq_true, if_false]
      cases hB : w.succeeds trA (Call.newClient (head.Addr ++ ":" ++ c.AgentPort)) with
      | false => simp
      | true =>
        simp only [Bool.not_true, Bool.false_eq_true, if_false]
        cases hC : w.succeeds (trA ++ [Call.newClient (head.Addr ++ ":" ++ c.AgentPort)])
            (Call.clientSelf (head.Addr ++ ":" ++ c.AgentPort)) with
        | false => simp
        | true =>
          simp only [Bool.not_true, Bool.false_eq_true, if_false]
          have hne : agent ≠ head := by
            intro e
            rw [← e, hport, hclient] at hC
            cases hC
          have hmem2 : agent ∈ rest := by
            rcases List.mem_cons.1 hmem with h | h
            · exact absurd h hne
            · exact h
          exact ih hmem2
            { c with Agents := mapSet c.Agents head.Name (head.Addr ++ ":" ++ c.AgentPort) }
            hport _

theorem Reload_of_connect_failed (w : World) (c : ConsulBackend) (tr : List Call)
    (rgState : State)
    (h : (connectAgents w { c with Count := incInt64 c.Count, State := rgState } tr).1 = false) :
    ∃ c1 new, Reload w c tr rgState = .ok (c1, tr ++ new) ∧
      (∀ call ∈ new, isConnectCall call = true) ∧
      eraseAgents c1 = eraseAgents { c with Count := incInt64 c.Count, State := rgState } := by
  obtain ⟨new, hnew, hcalls⟩ :=
    connectAgents_calls w { c with Count := incInt64 c.Count, State := rgState } tr
  obtain ⟨hfr, _⟩ :=
    connectAgents_frame w { c with Count := incInt64 c.Count, State := rgState } tr
  unfold Reload derive
  simp only []
  cases hconn : connectAgents w { c with Count := incInt64 c.Count, State := rgState } tr with
  | mk ok r =>
    obtain ⟨c3, tr3⟩ := r
    rw [hconn] at h hnew hfr
    simp only [] at h hnew hfr
    subst h
    subst hnew
    exact ⟨c3, new, rfl, hcalls, hfr⟩

/-- C12, the claim as stated fails: with two members of which the second does
not answer, `Reload` connects to the first, fails on the second and returns
after the connection calls alone, with no node bucket derived and no
registration on the reachable first member; in the outside where both answer,
the same cycle registers the node record on the first member. -/
theorem C12_counterexample_reachable_node_not_served :
    (∀ tr, unreachableSecondWorld.succeeds tr (Call.newClient "10.0.0.1:8500") = true ∧
        unreachableSecondWorld.succeeds tr (Call.clientSelf "10.0.0.1:8500") = true) ∧
      (∃ c1, Reload unreachableSecondWorld freshBackend [] snapshotOldHost
          = .ok (c1, [Call.members, Call.newClient "10.0.0.1:8500",
              Call.clientSelf "10.0.0.1:8500", Call.newClient "10.0.0.2:8500",
              Call.clientSelf "10.0.0.2:8500"]) ∧
        c1.Agents = [("old-host", "10.0.0.1:8500")] ∧ c1.MesosRecords = []) ∧
      (∃ c2 tr2, Reload twoMemberWorld freshBackend [] snapshotOldHost = .ok (c2, tr2) ∧
        Call.serviceRegister "old-host"
          { ID := "mesos-dns:S1", Name := "mesos", Tags := ["slave", "old-host"], Port := 5051,
            Address := "10.0.0.1" } ∈ tr2) :=
  ⟨fun _ => ⟨rfl, rfl⟩, ⟨_, rfl, rfl, rfl⟩, ⟨_, _, rfl, by decide⟩⟩

/-- C12, amended: when the member listing holds a member whose agent answers
neither the cached connection test nor the test of a new connection, `Reload`
returns after calls of `connectAgents` alone and leaves every bucket and every
identity map as it was, for every node: only the counter and the snapshot are
updated (and the connections made before the failure are kept). -/
theorem C12_failed_connection_aborts_cycle (w : World) (c : ConsulBackend) (tr : List Call)
    (rgState : State) (members : List AgentMember) (agent : AgentMember)
    (hmembers : w.Members tr = some members) (hagent : agent ∈ members)
    (hself : ∀ tr1, w.succeeds tr1 (Call.self agent.Addr) = false)
    (hclient : ∀ tr1,
      w.succeeds tr1 (Call.clientSelf (agent.Addr ++ ":" ++ c.AgentPort)) = false) :
    ∃ c1 new, Reload w c tr rgState = .ok (c1, tr ++ new) ∧
      (∀ call ∈ new, isConnectCall call = true) ∧
      c1.MesosRecords = c.MesosRecords ∧ c1.FrameworkRecords = c.FrameworkRecords ∧
      c1.TaskRecords = c.TaskRecords ∧ c1.HealthChecks = c.HealthChecks ∧
      c1.SlaveIDIP = c.SlaveIDIP ∧ c1.SlaveIPID = c.SlaveIPID ∧
      c1.SlaveIDHostname = c.SlaveIDHostname ∧ c1.SlaveHostnameID = c.SlaveHostnameID ∧
      c1.Count = incInt64 c.Count ∧ c1.State = rgState := by
  have hflag : (connectAgents w { c with Count := incInt64 c.Count, State := rgState } tr).1
      = false := by
    unfold connectAgents
    simp only [hmembers]
    exact connectLoop_unreachable w agent c.AgentPort hself hclient members hagent
      { c with Count := incInt64 c.Count, State := rgState } rfl _
  obtain ⟨c1, new, h1, h2, h3⟩ := Reload_of_connect_failed w c tr rgState hflag
  refine ⟨c1, new, h1, h2, ?_⟩
  have g1 := congrArg ConsulBackend.MesosRecords h3
  have g2 := congrArg ConsulBackend.FrameworkRecords h3
  have g3 := congrArg ConsulBackend.TaskRecords h3
  have g4 := congrArg ConsulBackend.HealthChecks h3
  have g5 := congrArg ConsulBackend.SlaveIDIP h3
  have g6 := congrArg ConsulBackend.SlaveIPID h3
  have g7 := congrArg ConsulBackend.SlaveIDHostname h3
  have g8 := congrArg ConsulBackend.SlaveHostnameID h3
  have g9 := congrArg ConsulBackend.Count h3
  have g10 := congrArg ConsulBackend.State h3
  exact ⟨g1, g2, g3, g4, g5, g6, g7, g8, g9, g10⟩

/-- C12 at two members of which the second does not answer. -/
theorem C12_failed_connection_aborts_cycle_witness :
    unreachableSecondWorld.Members [] =
        some [{ Name := "old-host", Addr := "10.0.0.1" }, { Name := "new-host", Addr := "10.0.0.2" }] ∧
      (∀ tr1, unreachableSecondWorld.succeeds tr1 (Call.self "10.0.0.2") = false) ∧
      (∀ tr1, unreachableSecondWorld.succeeds tr1
        (Call.clientSelf ("10.0.0.2" ++ ":" ++ freshBackend.AgentPort)) = false) ∧
      ∃ c1 new, Reload unreachableSecondWorld freshBackend [] snapshotOldHost
          = .ok (c1, [] ++ new) ∧
        (∀ call ∈ new, isConnectCall call = true) ∧
        c1.MesosRecords = freshBackend.MesosRecords ∧
        c1.TaskRecords = freshBackend.TaskRecords := by
  refine ⟨rfl, fun _ => rfl, fun _ => rfl, ?_⟩
  obtain ⟨c1, new, h1, h2, h3, _, h5, _⟩ :=
    C12_failed_connection_aborts_cycle unreachableSecondWorld freshBackend [] snapshotOldHost
      [{ Name := "old-host", Addr := "10.0.0.1" }, { Name := "new-host", Addr := "10.0.0.2" }]
      { Name := "new-host", Addr := "10.0.0.2" } rfl (by simp) (fun _ => rfl) (fun _ => rfl)
  exact ⟨c1, new, h1, h2, h3, h5⟩

/-! ### The event loop -/

theorem reloadLoop_ok {ρ : Type} (reload : State → ρ → Except Crash ρ) (snapshot : State)
    (rs : List ρ) (hret : ∀ r ∈ rs, ∃ r1, reload snapshot r = .ok r1) (i : Nat) :
    ∃ rs1, reloadLoop reload snapshot i rs
        = .ok (rs1, (List.range rs.length).map fun j => (i + j, snapshot)) ∧
      List.Forall₂ (fun r r1 => reload snapshot r = .ok r1) rs rs1 := by
  induction rs generalizing i with
  | nil => exact ⟨[], rfl, List.Forall₂.nil⟩
  | cons r rest ih =>
    obtain ⟨r1, hr1⟩ := hret r (by simp)
    obtain ⟨rest1, hrest, hall⟩ := ih (fun x hx => hret x (by simp [hx])) (i + 1)
    refine ⟨r1 :: rest1, ?_, List.Forall₂.cons hr1 hall⟩
    simp only [reloadLoop, hr1, hrest, List.length_cons, List.range_succ_eq_map, List.map_cons,
      List.map_map, add_zero]
    congr 3
    apply List.map_congr_left
    intro j _
    simp only [Function.comp, Nat.succ_eq_add_one]
    congr 1
    omega

/-- C14: when `ParseState` fails, `reloadResolvers` invokes no `Reload`,
leaves the resolvers as they are and goes to the send on the error channel;
when it succeeds with a snapshot and every `Reload` returns, each resolver is
reloaded exactly once, in list order, with that snapshot, and nothing is sent
on the error channel. -/
theorem C14_reloadResolvers {ρ : Type} (reload : State → ρ → Except Crash ρ) (rs : List ρ) :
    reloadResolvers none reload rs
        = .ok { resolvers := rs, invocations := [], errSend := true } ∧
      ∀ snapshot, (∀ r ∈ rs, ∃ r1, reload snapshot r = .ok r1) →
        ∃ rs1, reloadResolvers (some snapshot) reload rs
            = .ok { resolvers := rs1,
                    invocations := (List.range rs.length).map fun j => (j, snapshot),
                    errSend := false } ∧
          List.Forall₂ (fun r r1 => reload snapshot r = .ok r1) rs rs1 := by
  refine ⟨rfl, ?_⟩
  intro snapshot hret
  obtain ⟨rs1, h1, h2⟩ := reloadLoop_ok reload snapshot rs hret 0
  refine ⟨rs1, ?_, h2⟩
  unfold reloadResolvers
  simp only [h1, Nat.zero_add]


/-- C14 at the consul backend of the default configuration as the only
resolver. -/
theorem C14_reloadResolvers_witness :
    (∀ r ∈ [freshBackend], ∃ r1, consulReload twoMemberWorld snapshotOldHost r = .ok r1) ∧
      ∃ rs1, reloadResolvers (some snapshotOldHost) (consulReload twoMemberWorld) [freshBackend]
          = .ok { resolvers := rs1,
                  invocations :=
                    (List.range [freshBackend].length).map fun j => (j, snapshotOldHost),
                  errSend := false } ∧
        List.Forall₂ (fun r r1 => consulReload twoMemberWorld snapshotOldHost r = .ok r1)
          [freshBackend] rs1 :=
  have h : ∀ r ∈ [freshBackend], ∃ r1, consulReload twoMemberWorld snapshotOldHost r = .ok r1 := by
    intro r hr
    rw [List.mem_singleton] at hr
    subst hr
    exact ⟨_, rfl⟩
  ⟨h, (C14_reloadResolvers (consulReload twoMemberWorld) [freshBackend]).2 snapshotOldHost h⟩

theorem mainStep_atSend {ρ : Type} (reload : State → ρ → Except Crash ρ) (m : MainLoop ρ)
    (h : m.pc = Pc.atSend) (event : Event) : mainStep reload m event = m := by
  cases event <;> simp [mainStep, h]

theorem mainLoop_atSend {ρ : Type} (reload : State → ρ → Except Crash ρ) (m : MainLoop ρ)
    (h : m.pc = Pc.atSend) (events : List Event) : mainLoop reload m events = m := by
  unfold mainLoop
  induction events with
  | nil => rfl
  | cons event rest ih => rw [List.foldl_cons, mainStep_atSend reload m h, ih]

/-- C13, what the code does: from the `select`, a timer tick or a change of
masters whose `ParseState` fails leaves the resolvers and the invocations as
they were, and puts the goroutine of `main` at the send on the error channel,
where it stays whatever events follow, so no later trigger is served; an error
received at the `select` ends the process. With the consul backend a
successful tick invokes `Reload` once, and the same tick after a failed one
invokes nothing. -/
theorem C13_parse_failure_blocks_the_loop {ρ : Type} (reload : State → ρ → Except Crash ρ)
    (masters newMasters : List String) (rs : List ρ) (log : List (Nat × State))
    (events : List Event) :
    mainLoop reload { pc := Pc.atSelect, masters := masters, resolvers := rs, invocations := log }
        (Event.tick none :: events)
      = { pc := Pc.atSend, masters := masters, resolvers := rs, invocations := log } ∧
    mainLoop reload { pc := Pc.atSelect, masters := masters, resolvers := rs, invocations := log }
        (Event.mastersChanged newMasters none :: events)
      = { pc := Pc.atSend, masters := newMasters, resolvers := rs, invocations := log } ∧
    mainLoop reload { pc := Pc.atSelect, masters := masters, resolvers := rs, invocations := log }
        [Event.errSent]
      = { pc := Pc.exited, masters := masters, resolvers := rs, invocations := log } ∧
    (mainLoop (consulReload twoMemberWorld)
        { pc := Pc.atSelect, masters := [], resolvers := [freshBackend], invocations := [] }
        [Event.tick (some snapshotOldHost)]).invocations.length = 1 ∧
    (mainLoop (consulReload twoMemberWorld)
        { pc := Pc.atSelect, masters := [], resolvers := [freshBackend], invocations := [] }
        [Event.tick none, Event.tick (some snapshotOldHost)]).invocations.length = 0 := by
  refine ⟨?_, ?_, rfl, rfl, rfl⟩
  · have h1 : mainStep reload
        { pc := Pc.atSelect, masters := masters, resolvers := rs, invocations := log }
        (Event.tick none)
        = { pc := Pc.atSend, masters := masters, resolvers := rs, invocations := log } := by
      simp [mainStep, afterReload, reloadResolvers]
    unfold mainLoop
    rw [List.foldl_cons, h1]
    exact mainLoop_atSend reload _ rfl events
  · have h1 : mainStep reload
        { pc := Pc.atSelect, masters := masters, resolvers := rs, invocations := log }
        (Event.mastersChanged newMasters none)
        = { pc := Pc.atSend, masters := newMasters, resolvers := rs, invocations := log } := by
      simp [mainStep, afterReload, reloadResolvers]
    unfold mainLoop
    rw [List.foldl_cons, h1]
    exact mainLoop_atSend reload _ rfl events

/-! ### Tag order -/

/-- C21: two service records with equal ID, Name, Address and Port whose tag
lists are permutations of each other are matched by `compareService`, in
either argument order. -/
theorem C21_compareService_perm (a b : AgentServiceRegistration)
    (hid : a.ID = b.ID) (hname : a.Name = b.Name) (haddr : a.Address = b.Address)
    (hport : a.Port = b.Port) (hperm : b.Tags.Perm a.Tags) :
    compareService a b = true ∧ compareService b a = true := by
  constructor
  · rw [compareService_iff]
    exact ⟨hid, hname, haddr, hport, hperm.length_eq.symm, fun t ht => hperm.subset ht⟩
  · rw [compareService_iff]
    exact ⟨hid.symm, hname.symm, haddr.symm, hport.symm, hperm.length_eq,
      fun t ht => hperm.symm.subset ht⟩

/-- C21 at the node record of a leading master with its tags in two orders. -/
theorem C21_compareService_perm_witness :
    (["leader", "slave", "master", "node1"] : List String).Perm
        ["slave", "node1", "master", "leader"] ∧
      compareService
          { ID := "mesos-dns:S1", Name := "mesos", Tags := ["slave", "node1", "master", "leader"],
            Port := 5051, Address := "10.0.0.1" }
          { ID := "mesos-dns:S1", Name := "mesos", Tags := ["leader", "slave", "master", "node1"],
            Port := 5051, Address := "10.0.0.1" } = true ∧
      compareService
          { ID := "mesos-dns:S1", Name := "mesos", Tags := ["leader", "slave", "master", "node1"],
            Port := 5051, Address := "10.0.0.1" }
          { ID := "mesos-dns:S1", Name := "mesos", Tags := ["slave", "node1", "master", "leader"],
            Port := 5051, Address := "10.0.0.1" } = true :=
  ⟨by decide,
    C21_compareService_perm
      { ID := "mesos-dns:S1", Name := "mesos", Tags := ["slave", "node1", "master", "leader"],
        Port := 5051, Address := "10.0.0.1" }
      { ID := "mesos-dns:S1", Name := "mesos", Tags := ["leader", "slave", "master", "node1"],
        Port := 5051, Address := "10.0.0.1" } rfl rfl rfl rfl (by decide)⟩

/-! ### Leader parsing -/

theorem splitChars_of_not_mem (sep : Char) (l : List Char) (h : sep ∉ l) :
    splitChars sep l = [l] := by
  induction l with
  | nil => rfl
  | cons x xs ih =>
    have hx : ¬ x = sep := fun e => h (by simp [e])
    have hxs : sep ∉ xs := fun e => h (by simp [e])
    simp only [splitChars, hx, if_false, ih hxs]

theorem leaderHostPort_no_at (leader : String) (h : '@' ∉ leader.toList) :
    leaderHostPort leader = .error Crash.indexOutOfRange := by
  unfold leaderHostPort stringsSplit
  rw [splitChars_of_not_mem '@' _ h]
  rfl

theorem leaderHostPort_no_colon (pre rest : String) (h1 : '@' ∉ pre.toList)
    (h2 : ':' ∉ rest.toList) :
    leaderHostPort (pre ++ "@" ++ rest) = .error Crash.indexOutOfRange := by
  have hl : (pre ++ "@" ++ rest).toList = pre.toList ++ '@' :: rest.toList := by
    simp [String.toList, String.data_append]
  unfold leaderHostPort stringsSplit
  rw [hl, splitChars_append '@' _ _ h1]
  have hh := splitChars_head '@' rest.toList
  cases hs : splitChars '@' rest.toList with
  | nil => rw [hs] at hh; simp at hh
  | cons seg segs =>
    rw [hs] at hh
    simp only [List.head?_cons, Option.some.injEq] at hh
    have hseg : ':' ∉ seg := by
      rw [hh]
      intro hmem
      exact h2 ((List.takeWhile_sublist _).subset hmem)
    have hl2 : (String.mk seg).toList = seg := rfl
    simp only [List.map_cons, List.getElem?_cons_succ, List.getElem?_cons_zero, hl2]
    rw [splitChars_of_not_mem ':' _ hseg]
    rfl

/-- C30, what the code does: `generateMesosRecords` ends in an index out of
range, before any node is looked at, for every backend whose leader address
holds no at sign, and for every leader address without a colon after its
first at sign; so it does for the empty leader address, and the `Reload` of
such a snapshot ends the same way. -/
theorem C30_leader_parse_out_of_range :
    (∀ c : ConsulBackend, '@' ∉ c.State.Leader.toList →
      generateMesosRecords c = .error Crash.indexOutOfRange) ∧
    (∀ (c : ConsulBackend) (pre rest : String), c.State.Leader = pre ++ "@" ++ rest →
      '@' ∉ pre.toList → ':' ∉ rest.toList →
      generateMesosRecords c = .error Crash.indexOutOfRange) ∧
    generateMesosRecords noLeaderBackend = .error Crash.indexOutOfRange ∧
    (∀ w : World, (connectAgents w
        { freshBackend with Count := incInt64 freshBackend.Count,
                            State := noLeaderBackend.State } []).1 = true →
      Reload w freshBackend [] noLeaderBackend.State = .error Crash.indexOutOfRange) ∧
    Reload twoMemberWorld freshBackend [] noLeaderBackend.State
      = .error Crash.indexOutOfRange := by
  refine ⟨?_, ?_, rfl, ?_, rfl⟩
  · intro c h
    unfold generateMesosRecords
    rw [leaderHostPort_no_at _ h]
  · intro c pre rest hl h1 h2
    unfold generateMesosRecords
    rw [hl, leaderHostPort_no_colon pre rest h1 h2]
  · intro w h
    unfold Reload derive
    simp only []
    cases hconn : connectAgents w
        { freshBackend with Count := incInt64 freshBackend.Count,
                            State := noLeaderBackend.State } [] with
    | mk ok r =>
      obtain ⟨c3, tr3⟩ := r
      rw [hconn] at h
      simp only [] at h
      subst h
      have hfr := (connectAgents_frame w
        { freshBackend with Count := incInt64 freshBackend.Count,
                            State := noLeaderBackend.State } []).1
      rw [hconn] at hfr
      have hst : c3.State = noLeaderBackend.State := by
        have h3 := congrArg ConsulBackend.State hfr
        exact h3
      have hgen : generateMesosRecords c3 = .error Crash.indexOutOfRange := by
        unfold generateMesosRecords
        rw [hst]
        rfl
      simp only [hgen]

/-! ### The identity maps across cycles -/

theorem lookupAfter_of_not_mem {V : Type} (k : String) (us : List (String × V))
    (h : k ∉ us.map Prod.fst) (b : Option V) : lookupAfter k us b = b := by
  induction us generalizing b with
  | nil => rfl
  | cons u rest ih =>
    simp only [List.map_cons, List.mem_cons, not_or] at h
    have h1 : ¬ u.1 = k := fun e => h.1 e.symm
    simp only [lookupAfter, h1, if_false]
    exact ih h.2 b

theorem lookupAfter_isSome {V : Type} (k : String) (us : List (String × V)) (b : Option V) :
    (lookupAfter k us b).isSome = true ↔ k ∈ us.map Prod.fst ∨ b.isSome = true := by
  induction us generalizing b with
  | nil => simp [lookupAfter]
  | cons u rest ih =>
    simp only [lookupAfter, ih, List.map_cons, List.mem_cons]
    by_cases h1 : u.1 = k
    · simp [h1]
    · have h2 : ¬ k = u.1 := fun e => h1 e.symm
      simp [h1, h2]

theorem mapGet?_mapUpdates_of_not_mem {V : Type} (us : List (String × V)) (m : GoMap V)
    (k : String) (h : k ∉ us.map Prod.fst) :
    mapGet? (mapUpdates us m) k = mapGet? m k := by
  rw [mapGet?_mapUpdates, lookupAfter_of_not_mem k us h]

theorem mapHas_mapUpdates {V : Type} (us : List (String × V)) (m : GoMap V) (k : String) :
    mapHas (mapUpdates us m) k = true ↔ k ∈ us.map Prod.fst ∨ mapHas m k = true := by
  unfold mapHas
  rw [mapGet?_mapUpdates, lookupAfter_isSome]

theorem generateMesosRecords_maps (c c1 : ConsulBackend)
    (h : generateMesosRecords c = .ok c1) :
    c1.SlaveIDIP
        = mapUpdates (c.State.Slaves.map fun slave => (slave.ID, slave.PID.Host)) c.SlaveIDIP ∧
      c1.SlaveIPID
        = mapUpdates (c.State.Slaves.map fun slave => (slave.PID.Host, slave.ID)) c.SlaveIPID ∧
      c1.SlaveIDHostname
        = mapUpdates (c.State.Slaves.map fun slave => (slave.ID, shortHostname slave.Hostname))
            c.SlaveIDHostname ∧
      c1.SlaveHostnameID
        = mapUpdates (c.State.Slaves.map fun slave => (shortHostname slave.Hostname, slave.ID))
            c.SlaveHostnameID := by
  unfold generateMesosRecords at h
  split at h
  · cases h
  · injection h with h
    rw [← h]
    exact mesosFold_maps _ c.State.Slaves c

theorem lookupAfter_const {V : Type} (k : String) (v : V) (us : List (String × V))
    (hall : ∀ u ∈ us, u.1 = k → u.2 = v) (b : Option V)
    (h : k ∈ us.map Prod.fst ∨ b = some v) : lookupAfter k us b = some v := by
  induction us generalizing b with
  | nil =>
    rcases h with h | h
    · simp at h
    · exact h
  | cons u rest ih =>
    simp only [lookupAfter]
    apply ih (fun u2 hu2 => hall u2 (List.mem_cons_of_mem _ hu2))
    by_cases h1 : u.1 = k
    · right
      rw [if_pos h1, hall u (List.mem_cons_self _ _) h1]
    · rw [if_neg h1]
      rcases h with h | h
      · simp only [List.map_cons, List.mem_cons] at h
        rcases h with h | h
        · exact absurd h.symm h1
        · exact Or.inl h
      · exact Or.inr h

theorem mapGet?_mapUpdates_const {V : Type} (us : List (String × V)) (m : GoMap V)
    (k : String) (v : V) (hmem : k ∈ us.map Prod.fst) (hall : ∀ u ∈ us, u.1 = k → u.2 = v) :
    mapGet? (mapUpdates us m) k = some v := by
  rw [mapGet?_mapUpdates]
  exact lookupAfter_const k v us hall _ (Or.inl hmem)

theorem mapGet?_mapUpdates_map {α V : Type} (slaves : List α) (key : α → String) (val : α → V)
    (m : GoMap V) (slave : α) (hmem : slave ∈ slaves)
    (hall : ∀ s2 ∈ slaves, key s2 = key slave → val s2 = val slave) :
    mapGet? (mapUpdates (slaves.map fun s => (key s, val s)) m) (key slave) = some (val slave) := by
  apply mapGet?_mapUpdates_const
  · rw [List.map_map]
    exact List.mem_map.2 ⟨slave, hmem, rfl⟩
  · intro u hu hk
    obtain ⟨s2, hs2, rfl⟩ := List.mem_map.1 hu
    exact hall s2 hs2 hk


theorem lookupAfter_append {V : Type} (k : String) (us vs : List (String × V)) (b : Option V) :
    lookupAfter k (us ++ vs) b = lookupAfter k vs (lookupAfter k us b) := by
  induction us generalizing b with
  | nil => rfl
  | cons u rest ih =>
    simp only [List.cons_append, lookupAfter]
    exact ih _

theorem mapGet?_mapUpdates_last {α V : Type} (key : α → String) (val : α → V)
    (m : GoMap V) (pre : List α) (slave : α) (post : List α)
    (hlast : ∀ s2 ∈ post, key s2 ≠ key slave) :
    mapGet? (mapUpdates ((pre ++ slave :: post).map fun s => (key s, val s)) m) (key slave)
      = some (val slave) := by
  rw [mapGet?_mapUpdates, List.map_append, lookupAfter_append, List.map_cons]
  simp only [lookupAfter, if_true]
  apply lookupAfter_of_not_mem
  rw [List.map_map]
  intro hmem
  obtain ⟨s2, hs2, hk⟩ := List.mem_map.1 hmem
  exact hlast s2 hs2 hk

/-- C25, the claim as stated fails: after the node records of a snapshot with
the nodes S1 and S2 and then those of a snapshot with the node S2 alone, the
four identity maps still hold the entries of S1. -/
theorem C25_counterexample_stale_identity_entry :
    ∃ c1 c2, generateMesosRecords twoNodeBackend = .ok c1 ∧
      generateMesosRecords { c1 with State := snapshotOnlyS2 } = .ok c2 ∧
      (snapshotOnlyS2.Slaves.map fun slave => slave.ID) = ["S2"] ∧
      mapGet? c2.SlaveIDIP "S1" = some "10.0.0.8" ∧
      mapGet? c2.SlaveIPID "10.0.0.8" = some "S1" ∧
      mapGet? c2.SlaveIDHostname "S1" = some "m1" ∧
      mapGet? c2.SlaveHostnameID "m1" = some "S1" :=
  ⟨_, _, rfl, rfl, rfl, by decide, by decide, by decide, by decide⟩

/-- C25, amended: when `generateMesosRecords` returns, each of the four
identity maps is the map before with the entries of the nodes of the snapshot
assigned in order. Every key of the snapshot is present afterwards and every
key that is not one of the snapshot keeps the entry it had before (or stays
absent); the entry of a key of the snapshot is the one of the last node of the
snapshot with that key: SlaveIDIP maps the id to the host address, SlaveIPID
the host address to the id, SlaveIDHostname the id to the short hostname and
SlaveHostnameID the short hostname to the id, which are the entries of every
node of a snapshot whose nodes agree on each key; and a map that was empty
before holds exactly the keys of the snapshot. -/
theorem C25_identity_maps_accumulate (c c1 : ConsulBackend)
    (h : generateMesosRecords c = .ok c1) :
    (∀ k, (mapHas c1.SlaveIDIP k = true
          ↔ k ∈ (c.State.Slaves.map fun slave => slave.ID) ∨ mapHas c.SlaveIDIP k = true) ∧
        (k ∉ (c.State.Slaves.map fun slave => slave.ID) →
          mapGet? c1.SlaveIDIP k = mapGet? c.SlaveIDIP k)) ∧
    (∀ k, (mapHas c1.SlaveIPID k = true
          ↔ k ∈ (c.State.Slaves.map fun slave => slave.PID.Host) ∨ mapHas c.SlaveIPID k = true) ∧
        (k ∉ (c.State.Slaves.map fun slave => slave.PID.Host) →
          mapGet? c1.SlaveIPID k = mapGet? c.SlaveIPID k)) ∧
    (∀ k, (mapHas c1.SlaveIDHostname k = true
          ↔ k ∈ (c.State.Slaves.map fun slave => slave.ID) ∨
            mapHas c.SlaveIDHostname k = true) ∧
        (k ∉ (c.State.Slaves.map fun slave => slave.ID) →
          mapGet? c1.SlaveIDHostname k = mapGet? c.SlaveIDHostname k)) ∧
    (∀ k, (mapHas c1.SlaveHostnameID k = true
          ↔ k ∈ (c.State.Slaves.map fun slave => shortHostname slave.Hostname) ∨
            mapHas c.SlaveHostnameID k = true) ∧
        (k ∉ (c.State.Slaves.map fun slave => shortHostname slave.Hostname) →
          mapGet? c1.SlaveHostnameID k = mapGet? c.SlaveHostnameID k)) ∧
    (c1.SlaveIDIP
        = mapUpdates (c.State.Slaves.map fun slave => (slave.ID, slave.PID.Host)) c.SlaveIDIP ∧
      c1.SlaveIPID
        = mapUpdates (c.State.Slaves.map fun slave => (slave.PID.Host, slave.ID)) c.SlaveIPID ∧
      c1.SlaveIDHostname
        = mapUpdates (c.State.Slaves.map fun slave => (slave.ID, shortHostname slave.Hostname))
            c.SlaveIDHostname ∧
      c1.SlaveHostnameID
        = mapUpdates (c.State.Slaves.map fun slave => (shortHostname slave.Hostname, slave.ID))
            c.SlaveHostnameID) ∧
    (∀ (pre : List Slave) (slave : Slave) (post : List Slave),
      c.State.Slaves = pre ++ slave :: post →
      ((∀ s2 ∈ post, s2.ID ≠ slave.ID) →
        mapGet? c1.SlaveIDIP slave.ID = some slave.PID.Host ∧
        mapGet? c1.SlaveIDHostname slave.ID = some (shortHostname slave.Hostname)) ∧
      ((∀ s2 ∈ post, s2.PID.Host ≠ slave.PID.Host) →
        mapGet? c1.SlaveIPID slave.PID.Host = some slave.ID) ∧
      ((∀ s2 ∈ post, shortHostname s2.Hostname ≠ shortHostname slave.Hostname) →
        mapGet? c1.SlaveHostnameID (shortHostname slave.Hostname) = some slave.ID)) ∧
    (∀ slave ∈ c.State.Slaves,
      ((∀ s2 ∈ c.State.Slaves, s2.ID = slave.ID → s2.PID.Host = slave.PID.Host) →
        mapGet? c1.SlaveIDIP slave.ID = some slave.PID.Host) ∧
      ((∀ s2 ∈ c.State.Slaves, s2.PID.Host = slave.PID.Host → s2.ID = slave.ID) →
        mapGet? c1.SlaveIPID slave.PID.Host = some slave.ID) ∧
      ((∀ s2 ∈ c.State.Slaves, s2.ID = slave.ID →
          shortHostname s2.Hostname = shortHostname slave.Hostname) →
        mapGet? c1.SlaveIDHostname slave.ID = some (shortHostname slave.Hostname)) ∧
      ((∀ s2 ∈ c.State.Slaves, shortHostname s2.Hostname = shortHostname slave.Hostname →
          s2.ID = slave.ID) →
        mapGet? c1.SlaveHostnameID (shortHostname slave.Hostname) = some slave.ID)) ∧
    ((c.SlaveIDIP = [] →
        ∀ k, mapHas c1.SlaveIDIP k = true ↔ k ∈ (c.State.Slaves.map fun slave => slave.ID)) ∧
      (c.SlaveIPID = [] →
        ∀ k, mapHas c1.SlaveIPID k = true
          ↔ k ∈ (c.State.Slaves.map fun slave => slave.PID.Host)) ∧
      (c.SlaveIDHostname = [] →
        ∀ k, mapHas c1.SlaveIDHostname k = true
          ↔ k ∈ (c.State.Slaves.map fun slave => slave.ID)) ∧
      (c.SlaveHostnameID = [] →
        ∀ k, mapHas c1.SlaveHostnameID k = true
          ↔ k ∈ (c.State.Slaves.map fun slave => shortHostname slave.Hostname))) := by
  obtain ⟨h1, h2, h3, h4⟩ := generateMesosRecords_maps c c1 h
  refine ⟨?_, ?_, ?_, ?_, ⟨h1, h2, h3, h4⟩, ?_, ?_, ?_⟩
  · intro k
    rw [h1]
    refine ⟨?_, fun hk => mapGet?_mapUpdates_of_not_mem _ _ k (by rw [List.map_map]; exact hk)⟩
    rw [mapHas_mapUpdates, List.map_map]
    rfl
  · intro k
    rw [h2]
    refine ⟨?_, fun hk => mapGet?_mapUpdates_of_not_mem _ _ k (by rw [List.map_map]; exact hk)⟩
    rw [mapHas_mapUpdates, List.map_map]
    rfl
  · intro k
    rw [h3]
    refine ⟨?_, fun hk => mapGet?_mapUpdates_of_not_mem _ _ k (by rw [List.map_map]; exact hk)⟩
    rw [mapHas_mapUpdates, List.map_map]
    rfl
  · intro k
    rw [h4]
    refine ⟨?_, fun hk => mapGet?_mapUpdates_of_not_mem _ _ k (by rw [List.map_map]; exact hk)⟩
    rw [mapHas_mapUpdates, List.map_map]
    rfl
  · intro pre slave post hsplit
    rw [h1, h2, h3, h4, hsplit]
    exact ⟨fun hl =>
        ⟨mapGet?_mapUpdates_last (fun s : Slave => s.ID) (fun s => s.PID.Host) _ pre slave post hl,
          mapGet?_mapUpdates_last (fun s : Slave => s.ID) (fun s => shortHostname s.Hostname)
            _ pre slave post hl⟩,
      fun hl =>
        mapGet?_mapUpdates_last (fun s : Slave => s.PID.Host) (fun s => s.ID) _ pre slave post hl,
      fun hl =>
        mapGet?_mapUpdates_last (fun s : Slave => shortHostname s.Hostname) (fun s => s.ID)
          _ pre slave post hl⟩
  · intro slave hmem
    rw [h1, h2, h3, h4]
    exact ⟨fun hall =>
        mapGet?_mapUpdates_map c.State.Slaves (fun s => s.ID) (fun s => s.PID.Host) _ slave hmem
          hall,
      fun hall =>
        mapGet?_mapUpdates_map c.State.Slaves (fun s => s.PID.Host) (fun s => s.ID) _ slave hmem
          hall,
      fun hall =>
        mapGet?_mapUpdates_map c.State.Slaves (fun s => s.ID)
          (fun s => shortHostname s.Hostname) _ slave hmem hall,
      fun hall =>
        mapGet?_mapUpdates_map c.State.Slaves (fun s => shortHostname s.Hostname)
          (fun s => s.ID) _ slave hmem hall⟩
  · rw [h1, h2, h3, h4]
    refine ⟨fun he k => ?_, fun he k => ?_, fun he k => ?_, fun he k => ?_⟩ <;>
      rw [mapHas_mapUpdates, List.map_map, he] <;>
      exact ⟨fun hk => hk.elim id (fun hf => absurd hf (by simp [mapHas, mapGet?])), Or.inl⟩

/-- C25 at the snapshot of the node S2 alone, on a backend that still holds
the entries of the node S1: the four maps get the entries of S2 and keep those
of S1. -/
theorem C25_identity_maps_accumulate_witness :
    ∃ c1, generateMesosRecords staleBackend = .ok c1 ∧
      (mapGet? c1.SlaveIDIP "S1" = some "10.0.0.8" ∧
        mapGet? c1.SlaveIPID "10.0.0.8" = some "S1" ∧
        mapGet? c1.SlaveIDHostname "S1" = some "m1" ∧
        mapGet? c1.SlaveHostnameID "m1" = some "S1") ∧
      (mapGet? c1.SlaveIDIP "S2" = some "10.0.0.2" ∧
        mapGet? c1.SlaveIPID "10.0.0.2" = some "S2" ∧
        mapGet? c1.SlaveIDHostname "S2" = some "n2" ∧
        mapGet? c1.SlaveHostnameID "n2" = some "S2") :=
  ⟨_, rfl,
    ⟨((C25_identity_maps_accumulate staleBackend _ rfl).1 "S1").2 (by decide),
      ((C25_identity_maps_accumulate staleBackend _ rfl).2.1 "10.0.0.8").2 (by decide),
      ((C25_identity_maps_accumulate staleBackend _ rfl).2.2.1 "S1").2 (by decide),
      ((C25_identity_maps_accumulate staleBackend _ rfl).2.2.2.1 "m1").2 (by decide)⟩,
    ⟨((C25_identity_maps_accumulate staleBackend _ rfl).2.2.2.2.2.2.1
        { ID := "S2", Hostname := "n2.example.com", PID := { Host := "10.0.0.2", Port := "5051" } }
        (List.mem_cons_self _ _)).1 (by decide),
      ((C25_identity_maps_accumulate staleBackend _ rfl).2.2.2.2.2.2.1
        { ID := "S2", Hostname := "n2.example.com", PID := { Host := "10.0.0.2", Port := "5051" } }
        (List.mem_cons_self _ _)).2.1 (by decide),
      ((C25_identity_maps_accumulate staleBackend _ rfl).2.2.2.2.2.2.1
        { ID := "S2", Hostname := "n2.example.com", PID := { Host := "10.0.0.2", Port := "5051" } }
        (List.mem_cons_self _ _)).2.2.1 (by decide),
      ((C25_identity_maps_accumulate staleBackend _ rfl).2.2.2.2.2.2.1
        { ID := "S2", Hostname := "n2.example.com", PID := { Host := "10.0.0.2", Port := "5051" } }
        (List.mem_cons_self _ _)).2.2.2 (by decide)⟩⟩

/-! ### Current across cycles -/

/-- C24, the claim as stated fails: in an outside without consul members no
agent is connected, so `Cleanup` promotes nothing, and two calls of `Reload`
on one snapshot leave two node records in the Current list of the node. -/
theorem C24_counterexample_current_accumulates :
    ∃ c1 tr1 c2 tr2, Reload {} freshBackend [] snapshotNode1 = .ok (c1, tr1) ∧
      Reload {} c1 tr1 snapshotNode1 = .ok (c2, tr2) ∧
      c1.Agents = [] ∧ c2.Agents = [] ∧
      (currentRecords c1.MesosRecords "S1").map (fun r => r.ID) = ["mesos-dns:S1"] ∧
      (currentRecords c2.MesosRecords "S1").map (fun r => r.ID)
        = ["mesos-dns:S1", "mesos-dns:S1"] :=
  ⟨_, _, _, _, rfl, rfl, rfl, rfl, by decide, by decide⟩

/-- C24, amended: the derivation step of a cycle appends: for every node id
and each of the four bucket kinds, Current after the step is Current before
it followed by what the snapshot of the cycle contributes, and Previous is
left alone; so Current holds the records of the cycle alone exactly for the
buckets whose Current was empty before, as after `New` or after the promotion
of `Cleanup`. -/
theorem C24_derivation_appends (w : World) (c : ConsulBackend) (tr : List Call)
    (rgState : State) (d : ConsulBackend) (tr1 : List Call)
    (h : derive w c tr rgState = .ok (true, d, tr1)) :
    ∃ lead : String × String, leaderHostPort rgState.Leader = .ok lead ∧
      ∀ k,
        (currentRecords d.MesosRecords k
          = currentRecords c.MesosRecords k
            ++ mesosRecordsFor c.ServicePrefix lead.1 k rgState.Slaves ∧
        currentRecords d.FrameworkRecords k
          = currentRecords c.FrameworkRecords k
            ++ frameworkRecordsFor w d k 0 rgState.Frameworks ∧
        currentRecords d.TaskRecords k
          = currentRecords c.TaskRecords k ++ allTaskRecordsFor d k rgState.Frameworks ∧
        currentChecks d.HealthChecks k
          = currentChecks c.HealthChecks k ++ allTaskChecksFor w d k rgState.Frameworks) ∧
        (previousRecords d.MesosRecords k = previousRecords c.MesosRecords k ∧
          previousRecords d.FrameworkRecords k = previousRecords c.FrameworkRecords k ∧
          previousRecords d.TaskRecords k = previousRecords c.TaskRecords k ∧
          previousChecks d.HealthChecks k = previousChecks c.HealthChecks k) ∧
        (currentRecords c.MesosRecords k = [] →
          currentRecords d.MesosRecords k
            = mesosRecordsFor c.ServicePrefix lead.1 k rgState.Slaves) := by
  obtain ⟨lead, hlead, hp, _, _, _, _, _, hb⟩ := derive_buckets w c tr rgState d tr1 h
  refine ⟨lead, hlead, ?_⟩
  intro k
  obtain ⟨b1, b2, b3, b4, b5, b6, b7, b8⟩ := hb k
  rw [hp] at b1
  refine ⟨⟨b1, b3, b5, b7⟩, ⟨b2, b4, b6, b8⟩, ?_⟩
  intro he
  rw [b1, he, List.nil_append]

/-- C24 at the first derivation of the backend built by `New`, in an outside
without consul members. -/
theorem C24_derivation_appends_witness :
    ∃ d tr1, derive {} freshBackend [] snapshotNode1 = .ok (true, d, tr1) ∧
      ∃ lead : String × String, leaderHostPort snapshotNode1.Leader = .ok lead ∧
        currentRecords d.MesosRecords "S1"
          = currentRecords freshBackend.MesosRecords "S1"
            ++ mesosRecordsFor freshBackend.ServicePrefix lead.1 "S1" snapshotNode1.Slaves :=
  ⟨_, _, rfl,
    Exists.imp (fun _ h => ⟨h.1, (h.2 "S1").1.1⟩)
      (C24_derivation_appends {} freshBackend [] snapshotNode1 _ _ rfl)⟩

/-! ### The cycle counter -/

theorem Reload_count_of_cacheOnly (w : World) (c : ConsulBackend) (tr : List Call)
    (rgState : State) (c1 : ConsulBackend) (tr1 : List Call)
    (h : Reload w c tr rgState = .ok (c1, tr1)) (hco : c.Config.CacheOnly = true) :
    c1.Count = incInt64 c.Count := by
  unfold Reload at h
  cases hd : derive w c tr rgState with
  | error e => rw [hd] at h; cases h
  | ok r =>
    obtain ⟨flag, d, tr2⟩ := r
    obtain ⟨hcount, hcfg, _⟩ := derive_fields w c tr rgState flag d tr2 hd
    rw [hd] at h
    cases flag with
    | false =>
      simp only [] at h
      injection h with h
      injection h with h1 h2
      rw [← h1, hcount]
    | true =>
      simp only [] at h
      have hnd : ¬ driftDue d := by
        unfold driftDue
        rw [hcfg, hco]
        simp
      obtain ⟨_, _, hnot⟩ := cleanupLoop_listing w (d.Agents.map Prod.fst) d _ c1 tr1 h
      rw [(hnot hnd).1, hcount]

theorem Reload_count_of_connect_failed (w : World) (c : ConsulBackend) (tr : List Call)
    (rgState : State) (c1 : ConsulBackend) (tr1 : List Call)
    (h : Reload w c tr rgState = .ok (c1, tr1))
    (hfail : (connectAgents w { c with Count := incInt64 c.Count, State := rgState } tr).1
      = false) :
    c1.Count = incInt64 c.Count := by
  obtain ⟨c2, new, h1, _, h3⟩ := Reload_of_connect_failed w c tr rgState hfail
  rw [h1] at h
  injection h with h
  injection h with h4 h5
  rw [← h4]
  have h6 := congrArg ConsulBackend.Count h3
  exact h6

/-- C26, the claim as stated fails: with the drift check switched off and the
refresh threshold 1 the counter is 1 after the first call of `Reload`, and
with the default threshold 3 and a member that does not answer it is 3 after
the third call. -/
theorem C26_counterexample_counter_reaches_threshold :
    cacheOnlyBackend.Count = 0 ∧ cacheOnlyBackend.Config.CacheRefresh = 1 ∧
      (∃ c1 tr1, Reload twoMemberWorld cacheOnlyBackend [] snapshotOldHost = .ok (c1, tr1) ∧
        c1.Count = 1) ∧
      freshBackend.Count = 0 ∧ freshBackend.Config.CacheRefresh = 3 ∧
      (∃ c1 tr1 c2 tr2 c3 tr3,
        Reload unreachableSecondWorld freshBackend [] snapshotOldHost = .ok (c1, tr1) ∧
        Reload unreachableSecondWorld c1 tr1 snapshotOldHost = .ok (c2, tr2) ∧
        Reload unreachableSecondWorld c2 tr2 snapshotOldHost = .ok (c3, tr3) ∧
        c3.Count = 3) :=
  ⟨rfl, rfl, ⟨_, _, rfl, by decide⟩, rfl, rfl, ⟨_, _, _, _, _, _, rfl, rfl, rfl, by decide⟩⟩

/-- C26, amended: with the drift check enabled, a refresh threshold k with
0 < k (a Go int) and Count = 0 initially, after n calls of `Reload` that each
connect at least one agent the counter is the remainder of n by k, so it is at
least 0 and below k; a call of `Reload` that returns with the drift check
switched off, or after a failed `connectAgents`, only increments the
counter. -/
theorem C26_counter_invariant (k : Int) (hk : 0 < k) (hk64 : k < 2 ^ 63)
    (c0 : ConsulBackend) (tr0 : List Call) (hcount : c0.Count = 0)
    (hrefresh : c0.Config.CacheRefresh = k) (hco : c0.Config.CacheOnly = false)
    (n : Nat) (c : ConsulBackend) (tr : List Call) (hrun : ConnectedRun c0 tr0 n c tr) :
    c.Count = (n : Int) % k ∧ 0 ≤ c.Count ∧ c.Count < k ∧
      (∀ (w : World) (b : ConsulBackend) (t : List Call) (rgState : State)
          (b1 : ConsulBackend) (t1 : List Call),
        Reload w b t rgState = .ok (b1, t1) → b.Config.CacheOnly = true →
          b1.Count = incInt64 b.Count) ∧
      (∀ (w : World) (b : ConsulBackend) (t : List Call) (rgState : State)
          (b1 : ConsulBackend) (t1 : List Call),
        Reload w b t rgState = .ok (b1, t1) →
          (connectAgents w { b with Count := incInt64 b.Count, State := rgState } t).1 = false →
          b1.Count = incInt64 b.Count) := by
  have h1 := connectedRun_count k hk hk64 c0 tr0 hcount hrefresh hco n c tr hrun
  refine ⟨h1, ?_, ?_, ?_, ?_⟩
  · rw [h1]
    exact Int.emod_nonneg _ (by omega)
  · rw [h1]
    exact Int.emod_lt_of_pos _ hk
  · intro w b t rgState b1 t1 h hc
    exact Reload_count_of_cacheOnly w b t rgState b1 t1 h hc
  · intro w b t rgState b1 t1 h hf
    exact Reload_count_of_connect_failed w b t rgState b1 t1 h hf

/-- C26 at the default threshold 3 after three connected cycles. -/
theorem C26_counter_invariant_witness :
    ∃ c tr, ConnectedRun freshBackend [] 3 c tr ∧ c.Count = 0 ∧ 0 ≤ c.Count ∧ c.Count < 3 :=
  ⟨_, _,
    ConnectedRun.step twoMemberWorld snapshotOldHost
      (ConnectedRun.step twoMemberWorld snapshotOldHost
        (ConnectedRun.step twoMemberWorld snapshotOldHost ConnectedRun.zero
          ⟨_, _, rfl, by decide⟩ rfl)
        ⟨_, _, rfl, by decide⟩ rfl)
      ⟨_, _, rfl, by decide⟩ rfl,
    (C26_counter_invariant 3 (by decide) (by decide) freshBackend [] rfl rfl rfl 3 _ _
      (ConnectedRun.step twoMemberWorld snapshotOldHost
        (ConnectedRun.step twoMemberWorld snapshotOldHost
          (ConnectedRun.step twoMemberWorld snapshotOldHost ConnectedRun.zero
            ⟨_, _, rfl, by decide⟩ rfl)
          ⟨_, _, rfl, by decide⟩ rfl)
        ⟨_, _, rfl, by decide⟩ rfl)).1.trans (by decide),
    (C26_counter_invariant 3 (by decide) (by decide) freshBackend [] rfl rfl rfl 3 _ _
      (ConnectedRun.step twoMemberWorld snapshotOldHost
        (ConnectedRun.step twoMemberWorld snapshotOldHost
          (ConnectedRun.step twoMemberWorld snapshotOldHost ConnectedRun.zero
            ⟨_, _, rfl, by decide⟩ rfl)
          ⟨_, _, rfl, by decide⟩ rfl)
        ⟨_, _, rfl, by decide⟩ rfl)).2.1,
    (C26_counter_invariant 3 (by decide) (by decide) freshBackend [] rfl rfl rfl 3 _ _
      (ConnectedRun.step twoMemberWorld snapshotOldHost
        (ConnectedRun.step twoMemberWorld snapshotOldHost
          (ConnectedRun.step twoMemberWorld snapshotOldHost ConnectedRun.zero
            ⟨_, _, rfl, by decide⟩ rfl)
          ⟨_, _, rfl, by decide⟩ rfl)
        ⟨_, _, rfl, by decide⟩ rfl)).2.2.1⟩

/-! ### The name-space prefix -/

theorem foldl_append_map_unless {α β : Type} (p : α → Prop) [DecidablePred p] (f : α → β)
    (l : List α) (init : List β) :
    l.foldl (fun acc x => if ¬ p x then acc else acc ++ [f x]) init
      = init ++ (l.filter fun x => decide (p x)).map f := by
  induction l generalizing init with
  | nil => simp
  | cons x xs ih =>
    rw [List.foldl_cons, ih]
    by_cases hx : p x
    · simp [hx, List.filter_cons]
    · simp [hx, List.filter_cons]

theorem ownedServices_eq_filter (servicePrefix : String) (services : List AgentService) :
    ownedServices servicePrefix services
      = (services.filter fun service =>
            decide ((stringsSplit service.ID ':').headD "" = servicePrefix)).map
          fun service =>
            { ID := service.ID, Name := service.Service, Tags := service.Tags,
              Port := service.Port, Address := service.Address } := by
  unfold ownedServices
  have h := foldl_append_map_unless
    (fun service : AgentService => (stringsSplit service.ID ':').headD "" = servicePrefix)
    (fun service : AgentService =>
      ({ ID := service.ID, Name := service.Service, Tags := service.Tags,
         Port := service.Port, Address := service.Address } : AgentServiceRegistration))
    services []
  rw [List.nil_append] at h
  exact h

/-- C22, what the code does: the backend `New` builds has the name-space
prefix mesos-dns whatever the ServicePrefix of its configuration is; with the
configured prefix custom the node record it derives has the ID mesos-dns:S1,
and the ownership filter of the drift listing, which keeps exactly the listed
services whose first segment is the prefix of the backend, keeps the service
mesos-dns:S1 and drops the service custom:S1. -/
theorem C22_prefix_is_not_taken_from_config :
    (∀ (clientCreated : Bool) (config : Config) (ipSources : List String)
        (refreshSeconds : Int) (c : ConsulBackend),
      New clientCreated config ipSources refreshSeconds = .ok (some c) →
        c.ServicePrefix = "mesos-dns" ∧ c.Config = config) ∧
    (∀ (servicePrefix : String) (services : List AgentService),
      ownedServices servicePrefix services
        = (services.filter fun service =>
              decide ((stringsSplit service.ID ':').headD "" = servicePrefix)).map
            fun service =>
              { ID := service.ID, Name := service.Service, Tags := service.Tags,
                Port := service.Port, Address := service.Address }) ∧
    (∃ c, New true customPrefixConfig ["host"] 30 = .ok (some c) ∧
      c.Config.ServicePrefix = "custom" ∧ c.ServicePrefix = "mesos-dns" ∧
      (∃ c1, generateMesosRecords { c with State := snapshotNode1 } = .ok c1 ∧
        (currentRecords c1.MesosRecords "S1").map (fun r => r.ID) = ["mesos-dns:S1"]) ∧
      (ownedServices c.ServicePrefix
          [{ ID := "custom:S1", Service := "mesos" },
           { ID := "mesos-dns:S1", Service := "mesos" }]).map (fun r => r.ID)
        = ["mesos-dns:S1"]) := by
  refine ⟨?_, ?_, ⟨_, rfl, by decide, by decide, ⟨_, rfl, by decide⟩, by decide⟩⟩
  · intro clientCreated config ipSources refreshSeconds c h
    unfold New at h
    split at h
    · cases h
    · split at h
      · cases h
      · split at h
        · cases h
        · injection h with h
          injection h with h
          rw [← h]
          exact ⟨rfl, rfl⟩
  · exact ownedServices_eq_filter

/-! ### The connection cache -/

/-- C27, what the code does: `connectAgents` tests the cached connection
stored under the address of a member, and stores a new connection under the
name of the member; a member whose address is no key of the agent map gets a
new client, whatever is stored under its name. In an outside where every call
succeeds, the second run of `connectAgents` on the same two members makes no
test of a cached connection and creates both clients again. -/
theorem C27_cached_connection_is_not_reused :
    (∀ (w : World) (c : ConsulBackend) (tr : List Call) (agent : AgentMember)
        (rest : List AgentMember),
      mapHas c.Agents agent.Addr = false →
        ∃ calls, (connectLoop w (agent :: rest) c tr).2.2
          = tr ++ Call.newClient (agent.Addr ++ ":" ++ c.AgentPort) :: calls) ∧
    (∃ c1 tr1 c2, connectAgents twoMemberWorld freshBackend [] = (true, c1, tr1) ∧
      c1.Agents = [("old-host", "10.0.0.1:8500"), ("new-host", "10.0.0.2:8500")] ∧
      connectAgents twoMemberWorld c1 tr1
        = (true, c2,
            tr1 ++ [Call.members, Call.newClient "10.0.0.1:8500", Call.clientSelf "10.0.0.1:8500",
              Call.newClient "10.0.0.2:8500", Call.clientSelf "10.0.0.2:8500"]) ∧
      c2.Agents = c1.Agents) := by
  refine ⟨?_, ⟨_, _, _, rfl, rfl, rfl, rfl⟩⟩
  intro w c tr agent rest h
  unfold connectLoop
  simp only [h, Bool.false_and, Bool.false_eq_true, if_false]
  cases hB : w.succeeds tr (Call.newClient (agent.Addr ++ ":" ++ c.AgentPort)) with
  | false => exact ⟨[], by simp⟩
  | true =>
    simp only [Bool.not_true, Bool.false_eq_true, if_false]
    cases hC : w.succeeds (tr ++ [Call.newClient (agent.Addr ++ ":" ++ c.AgentPort)])
        (Call.clientSelf (agent.Addr ++ ":" ++ c.AgentPort)) with
    | false => exact ⟨[Call.clientSelf (agent.Addr ++ ":" ++ c.AgentPort)], by simp⟩
    | true =>
      simp only [Bool.not_true, Bool.false_eq_true, if_false]
      obtain ⟨n2, hn2, _⟩ := connectLoop_calls w rest
        { c with Agents := mapSet c.Agents agent.Name (agent.Addr ++ ":" ++ c.AgentPort) }
        (tr ++ [Call.newClient (agent.Addr ++ ":" ++ c.AgentPort)]
          ++ [Call.clientSelf (agent.Addr ++ ":" ++ c.AgentPort)])
      refine ⟨Call.clientSelf (agent.Addr ++ ":" ++ c.AgentPort) :: n2, ?_⟩
      rw [hn2]
      simp

/-! ### Removal of an updated record -/

/-- C28, what the code does: a record of the Previous generation that
`compareService` matches with no record of the Current one is in the removal
set of `Cleanup`, also when a Current record has its ID. When the node S1
gains the leader tag, the cycle registers the new node record on the agent of
the node and then deregisters the service of that very ID. -/
theorem C28_updated_record_is_deregistered :
    (∀ (current previous : List AgentServiceRegistration) (r : AgentServiceRegistration),
      r ∈ previous → (∀ x ∈ current, compareService r x = false) →
        r ∈ getDeltaServices current previous) ∧
    (∃ c1 tr1 c2, Reload oneMemberWorld freshBackend [] snapshotNode1 = .ok (c1, tr1) ∧
      Reload oneMemberWorld c1 tr1 snapshotNode1Leads
        = .ok (c2,
            tr1 ++ [Call.members, Call.newClient "10.0.0.1:8500", Call.clientSelf "10.0.0.1:8500",
              Call.serviceRegister "node1"
                { ID := "mesos-dns:S1", Name := "mesos", Tags := ["slave", "node1", "leader"],
                  Port := 5051, Address := "10.0.0.1" },
              Call.serviceDeregister "node1" "mesos-dns:S1"]) ∧
      (previousRecords c2.MesosRecords "S1").map (fun r => (r.ID, r.Tags))
        = [("mesos-dns:S1", ["slave", "node1", "leader"])]) := by
  refine ⟨?_, ⟨_, _, _, rfl, rfl, by decide⟩⟩
  intro current previous r hr hno
  rw [getDeltaServices_filter, List.mem_filter]
  refine ⟨hr, ?_⟩
  have ha : current.any (fun e => compareService r e) = false := by
    rw [List.any_eq_false]
    intro x hx
    rw [hno x hx]
    simp
  rw [ha]
  rfl

/-! ### Validation of the server list -/

theorem mapHas_mapSet {V : Type} (m : GoMap V) (k k1 : String) (v : V) :
    mapHas (mapSet m k v) k1 = (decide (k = k1) || mapHas m k1) := by
  unfold mapHas
  rw [mapGet?_mapSet]
  by_cases h : k = k1
  · simp [h]
  · simp [h]

theorem externalDNSLoop_iff {α : Type} (parseIP : String → Option α) (ipString : α → String)
    (rs : List String) (ips : GoMap Unit) :
    externalDNSLoop parseIP ipString rs ips = none
      ↔ (∀ r ∈ rs, parseIP r ≠ none) ∧ (normalisedIPs parseIP ipString rs).Nodup ∧
          ∀ s ∈ normalisedIPs parseIP ipString rs, mapHas ips s = false := by
  induction rs generalizing ips with
  | nil => simp [externalDNSLoop, normalisedIPs]
  | cons r rest ih =>
    unfold externalDNSLoop
    cases hp : parseIP r with
    | none => simp [hp]
    | some ip =>
      simp only []
      by_cases hhas : mapHas ips (ipString ip) = true
      · simp [hhas, normalisedIPs, hp]
      · have hhas2 : mapHas ips (ipString ip) = false := by simpa using hhas
        simp only [hhas2, Bool.false_eq_true, if_false, ih, mapHas_mapSet]
        simp only [normalisedIPs, List.filterMap_cons, hp, Option.map_some', List.mem_cons,
          forall_eq_or_imp, ne_eq, not_false_eq_true, true_and, List.nodup_cons,
          Bool.or_eq_false_iff, decide_eq_false_iff_not, reduceCtorEq]
        constructor
        · rintro ⟨h1, h2, h3⟩
          refine ⟨h1, ⟨?_, h2⟩, hhas2, fun s hs => (h3 s hs).2⟩
          intro hmem
          exact (h3 _ hmem).1 rfl
        · rintro ⟨h1, ⟨h2, h3⟩, _, h5⟩
          refine ⟨h1, h3, fun s hs => ⟨?_, h5 s hs⟩⟩
          intro e
          rw [← e] at hs
          exact h2 hs

/-- C23: `validateExternalDNS` returns the nil error exactly when every entry
parses and the normal forms of the entries are pairwise different; so the
empty list is accepted, two entries that parse to addresses with one text are
rejected, and on the table of the test the outcomes are those of the table. -/
theorem C23_validateExternalDNS {α : Type} (parseIP : String → Option α)
    (ipString : α → String) (rs : List String) :
    (validateExternalDNS parseIP ipString rs = none
      ↔ (∀ r ∈ rs, parseIP r ≠ none) ∧ (normalisedIPs parseIP ipString rs).Nodup) ∧
    validateExternalDNS parseIP ipString [] = none ∧
    (∀ (r1 r2 : String) (ip1 ip2 : α), parseIP r1 = some ip1 → parseIP r2 = some ip2 →
      ipString ip1 = ipString ip2 → validateExternalDNS parseIP ipString [r1, r2] ≠ none) ∧
    (validateExternalDNS tableParseIP id [""] ≠ none ∧
      validateExternalDNS tableParseIP id ["a", "b"] ≠ none ∧
      validateExternalDNS tableParseIP id ["1.2.3.4"] = none ∧
      validateExternalDNS tableParseIP id ["1.2.3.4.5"] ≠ none ∧
      validateExternalDNS tableParseIP id ["1.2.3.4", "1.2.3.4"] ≠ none ∧
      validateExternalDNS tableParseIP id ["1.2.3.4", "5.6.7.8"] = none ∧
      validateExternalDNS tableParseIP id ["2001:db8:3c4d:15::1a2f:1a2b"] = none ∧
      validateExternalDNS tableParseIP id
        ["2001:0db8:3c4d:0015:0000:0000:1a2f:1a2b", "2001:db8:3c4d:15::1a2f:1a2b"] ≠ none) := by
  have hiff : validateExternalDNS parseIP ipString rs = none
      ↔ (∀ r ∈ rs, parseIP r ≠ none) ∧ (normalisedIPs parseIP ipString rs).Nodup := by
    unfold validateExternalDNS
    cases rs with
    | nil => simp [normalisedIPs]
    | cons r rest =>
      simp only [List.length_cons, Nat.add_one_ne_zero, if_false, externalDNSLoop_iff]
      constructor
      · rintro ⟨h1, h2, _⟩
        exact ⟨h1, h2⟩
      · rintro ⟨h1, h2⟩
        exact ⟨h1, h2, fun _ _ => rfl⟩
  refine ⟨hiff, rfl, ?_, by decide⟩
  intro r1 r2 ip1 ip2 h1 h2 he hnone
  have h3 : validateExternalDNS parseIP ipString [r1, r2] = none
      ↔ (∀ r ∈ [r1, r2], parseIP r ≠ none)
        ∧ (normalisedIPs parseIP ipString [r1, r2]).Nodup := by
    unfold validateExternalDNS
    simp only [List.length_cons, List.length_nil, Nat.add_one_ne_zero, if_false,
      externalDNSLoop_iff]
    constructor
    · rintro ⟨a1, a2, _⟩
      exact ⟨a1, a2⟩
    · rintro ⟨a1, a2⟩
      exact ⟨a1, a2, fun _ _ => rfl⟩
  have h4 := (h3.1 hnone).2
  simp [normalisedIPs, h1, h2, he] at h4

/-! ### Validation of the address sources -/

theorem unique_fold_length (ss : List String) (set : GoMap Unit) (out : List String)
    (hinv : ∀ x, mapHas set x = true ↔ x ∈ out) :
    (ss.foldl
        (fun (acc : GoMap Unit × List String) s =>
          if !mapHas acc.1 s then (mapSet acc.1 s (), acc.2 ++ [s]) else acc)
        (set, out)).2.length ≤ out.length + ss.length ∧
      ((ss.foldl
        (fun (acc : GoMap Unit × List String) s =>
          if !mapHas acc.1 s then (mapSet acc.1 s (), acc.2 ++ [s]) else acc)
        (set, out)).2.length = out.length + ss.length
        ↔ ss.Nodup ∧ ∀ s ∈ ss, s ∉ out) := by
  induction ss generalizing set out with
  | nil => simp
  | cons s rest ih =>
    rw [List.foldl_cons]
    by_cases hs : s ∈ out
    · have hh : mapHas set s = true := (hinv s).2 hs
      simp only [hh, Bool.not_true, Bool.false_eq_true, if_false]
      obtain ⟨h1, _⟩ := ih set out hinv
      refine ⟨by simp only [List.length_cons]; omega, ?_⟩
      constructor
      · intro he
        simp only [List.length_cons] at he
        omega
      · rintro ⟨_, h3⟩
        exact absurd hs (h3 s (by simp))
    · have hh : mapHas set s = false := by
        cases h5 : mapHas set s
        · rfl
        · exact absurd ((hinv s).1 h5) hs
      simp only [hh, Bool.not_false, if_true]
      have hinv2 : ∀ x, mapHas (mapSet set s ()) x = true ↔ x ∈ out ++ [s] := by
        intro x
        rw [mapHas_mapSet]
        simp only [Bool.or_eq_true, decide_eq_true_eq, hinv x, List.mem_append,
          List.mem_singleton]
        constructor
        · rintro (h | h)
          · exact Or.inr h.symm
          · exact Or.inl h
        · rintro (h | h)
          · exact Or.inr h
          · exact Or.inl h.symm
      obtain ⟨h1, h2⟩ := ih (mapSet set s ()) (out ++ [s]) hinv2
      simp only [List.length_append, List.length_singleton] at h1 h2
      refine ⟨by simp only [List.length_cons]; omega, ?_⟩
      have h6 : out.length + (rest.length + 1) = out.length + 1 + rest.length := by omega
      simp only [List.length_cons]
      rw [h6, h2]
      constructor
      · rintro ⟨a1, a2⟩
        refine ⟨List.nodup_cons.2
          ⟨fun hm => a2 s hm (List.mem_append_right _ (List.mem_singleton_self s)), a1⟩, ?_⟩
        intro t ht
        rcases List.mem_cons.1 ht with e | ht
        · rw [e]
          exact hs
        · exact fun hto => a2 t ht (List.mem_append_left _ hto)
      · rintro ⟨b, b4⟩
        obtain ⟨b1, b2⟩ := List.nodup_cons.1 b
        refine ⟨b2, fun t ht hmem => ?_⟩
        rcases List.mem_append.1 hmem with h | h
        · exact b4 t (List.mem_cons_of_mem _ ht) h
        · rw [List.mem_singleton] at h
          rw [h] at ht
          exact b1 ht

theorem unique_length_iff (ss : List String) :
    (unique ss).length = ss.length ↔ ss.Nodup := by
  unfold unique
  have h := (unique_fold_length ss [] [] (by simp [mapHas, mapGet?])).2
  simp only [List.length_nil, Nat.zero_add, List.not_mem_nil, not_false_eq_true, implies_true,
    and_true] at h
  exact h

theorem validateSourcesLoop_iff (srcs : List String) :
    validateSourcesLoop srcs = none ↔ ∀ src ∈ srcs, knownSource src := by
  induction srcs with
  | nil => simp [validateSourcesLoop]
  | cons src rest ih =>
    unfold validateSourcesLoop
    simp only []
    by_cases h : knownSource src
    · have h2 := h
      unfold knownSource at h2
      rw [if_pos h2, ih]
      simp [h]
    · have h2 := h
      unfold knownSource at h2
      rw [if_neg h2]
      simp [h]

theorem validateIPSources_iff (srcs : List String) :
    validateIPSources srcs = none
      ↔ srcs ≠ [] ∧ srcs.Nodup ∧ ∀ src ∈ srcs, knownSource src := by
  unfold validateIPSources
  cases srcs with
  | nil => simp
  | cons s rest =>
    by_cases hu : (unique (s :: rest)).length = (s :: rest).length
    · have hnd := (unique_length_iff (s :: rest)).1 hu
      rw [if_neg (by simp), if_neg (by rw [hu]; simp), validateSourcesLoop_iff]
      simp only [ne_eq, reduceCtorEq, not_false_eq_true, true_and, hnd]
    · have hnd : ¬ (s :: rest).Nodup := fun h => hu ((unique_length_iff (s :: rest)).2 h)
      rw [if_neg (by simp), if_pos (fun e => hu e.symm)]
      simp only [reduceCtorEq, ne_eq, not_false_eq_true, true_and, false_iff, not_and]
      intro h
      exact absurd h hnd

theorem getAddress_label_first (c : ConsulBackend) (task : Task) (lookup : String)
    (rest : List String) (hsrc : c.IPSources = lookup :: rest)
    (hkey : (stringsSplit lookup ':').headD "" = "label")
    (hlen : (stringsSplit lookup ':').length ≠ 2) :
    getAddress c task = .error Crash.fatal := by
  unfold getAddress
  rw [hsrc]
  unfold getAddressLoop lookupSwitch
  simp only []
  generalize (stringsSplit lookup ':').headD "" = key at hkey
  subst hkey
  simp [hlen]

/-- C29, the claim as stated fails: `validateIPSources` accepts the list with
the single entry label and the list with the entries host and label:a:b; with
the first as preference order `getAddress` reaches its fatal branch for every
task, with the second for every task without a host address. -/
theorem C29_counterexample_accepted_label_is_fatal :
    validateIPSources ["label"] = none ∧ validateIPSources ["host", "label:a:b"] = none ∧
    (∀ (c : ConsulBackend) (task : Task), c.IPSources = ["label"] →
      getAddress c task = .error Crash.fatal) ∧
    (∀ (c : ConsulBackend) (task : Task), c.IPSources = ["host", "label:a:b"] →
      task.IP "host" = "" → getAddress c task = .error Crash.fatal) ∧
    getAddress { IPSources := ["host", "label:a:b"] } {} = .error Crash.fatal := by
  refine ⟨by decide, by decide, ?_, ?_, rfl⟩
  · intro c task hsrc
    exact getAddress_label_first c task "label" [] hsrc (by decide) (by decide)
  · intro c task hsrc hhost
    unfold getAddress
    rw [hsrc]
    have h1 : lookupSwitch task "host" "" = .ok (task.IP "host") := by
      unfold lookupSwitch
      have hk : (stringsSplit "host" ':').headD "" = "host" := by decide
      simp only [hk]
      simp
    have h2 : lookupSwitch task "label:a:b" "" = .error Crash.fatal := by
      unfold lookupSwitch
      have hk : (stringsSplit "label:a:b" ':').headD "" = "label" := by decide
      have hl : (stringsSplit "label:a:b" ':').length = 3 := by decide
      simp only [hk, hl]
      simp
    simp only [getAddressLoop, h1, hhost, h2]
    simp

/-- C29, amended: `validateIPSources` returns the nil error exactly for the
lists that are not empty, have no duplicate and hold only entries whose first
segment is host, docker, mesos, netinfo or label, whatever the number of
segments of a label entry; for an accepted preference order in which every
label entry has exactly two segments, `getAddress` returns an address for
every task and does not reach its fatal branch. -/
theorem C29_validated_sources_resolve (c : ConsulBackend) (task : Task)
    (hvalid : validateIPSources c.IPSources = none)
    (hlabel : ∀ lookup ∈ c.IPSources, (stringsSplit lookup ':').headD "" = "label" →
      (stringsSplit lookup ':').length = 2) :
    (c.IPSources ≠ [] ∧ c.IPSources.Nodup ∧ ∀ src ∈ c.IPSources, knownSource src) ∧
      getAddress c task = .ok (resolvedAddress c task) ∧
      (∀ srcs, validateIPSources srcs = none
        ↔ srcs ≠ [] ∧ srcs.Nodup ∧ ∀ src ∈ srcs, knownSource src) :=
  ⟨(validateIPSources_iff c.IPSources).1 hvalid, getAddress_wellFormed c task hlabel,
    validateIPSources_iff⟩

/-- C29 at the preference order host, label:role and a task with a host
address. -/
theorem C29_validated_sources_resolve_witness :
    validateIPSources ["host", "label:role"] = none ∧
      (∀ lookup ∈ ["host", "label:role"], (stringsSplit lookup ':').headD "" = "label" →
        (stringsSplit lookup ':').length = 2) ∧
      getAddress { IPSources := ["host", "label:role"] }
          { ID := "web.1", IP := fun src => if src = "host" then "10.0.0.7" else "" }
        = .ok "10.0.0.7" :=
  ⟨by decide, by decide,
    (C29_validated_sources_resolve { IPSources := ["host", "label:role"] }
      { ID := "web.1", IP := fun src => if src = "host" then "10.0.0.7" else "" }
      (by decide) (by decide)).2.1.trans (by decide)⟩

end MesosDNS
